import Mathlib

/-!
# import-vmware: remote session, transfer and process layers

A shallow embedding of `ssh/ssh.go`, `command/commander.go`, `common/io.go`,
`common/os.go`, `plan.go`, `settings.go` and `vmx.go`.

Go `error` values are modelled by the inductive `GoError`, whose `wrap`
constructor is `fmt.Errorf("...%w", err)`.  Calls into the libraries the
program is a client of (the SFTP client, the SSH dialer, the operating
system's process interface) are taken from a record of operations over an
arbitrary environment state, and every such call is appended to a trace, so
that "is called", "is not called" and "is called before" are statements about
that trace.  Go strings are modelled by Lean strings.
-/

namespace ImportVmware

/-! ## Errors -/

/-- Go error values.  The sentinel constructors are the package-level error
variables the program compares against; `wrap pre inner` is the value of
`fmt.Errorf(pre + "%w", inner)`. -/
inductive GoError where
  /-- The sentinel `sftp.ErrSSHFxConnectionLost`. -/
  | connectionLost
  /-- The sentinel `os.ErrNotExist`. -/
  | notExist
  /-- The sentinel `io.EOF`. -/
  | eof
  /-- The sentinel `os.ErrClosed`. -/
  | closed
  /-- The sentinel `context.DeadlineExceeded`. -/
  | deadlineExceeded
  /-- The sentinel `context.Canceled`. -/
  | canceled
  /-- An `*exec.ExitError` with its `ExitCode()` and its `Error()` text -/
  | exitError (code : Int) (msg : String)
  /-- Any other leaf error, such as the value of `errors.New(msg)` -/
  | other (msg : String)
  /-- The value of `fmt.Errorf(pre + "%w", inner)`. -/
  | wrap (pre : String) (inner : GoError)
  deriving DecidableEq, Repr

namespace GoError

/-- The `Error()` text of an error value. -/
def Error : GoError → String
  | connectionLost => "connection lost"
  | notExist => "file does not exist"
  | eof => "EOF"
  | closed => "file already closed"
  | deadlineExceeded => "context deadline exceeded"
  | canceled => "context canceled"
  | exitError _ msg => msg
  | other msg => msg
  | wrap pre inner => pre ++ inner.Error

/-- One step of `errors.Unwrap`. -/
def unwrap : GoError → Option GoError
  | wrap _ inner => some inner
  | _ => none

end GoError

/-- The function `errors.Is(err, target)`: `target` occurs in the chain of `err`. -/
def errorsIs : GoError → GoError → Bool
  | .wrap pre inner, target => (GoError.wrap pre inner == target) || errorsIs inner target
  | e, target => e == target

/-- The function `errors.As(err, &exitErr)` for `*exec.ExitError`: the first
exit error of the chain, as its exit code and text. -/
def asExitError : GoError → Option (Int × String)
  | .exitError code msg => some (code, msg)
  | .wrap _ inner => asExitError inner
  | _ => none

/-- The function `os.IsNotExist(err)`: it inspects the error itself and does
not follow `%w` wrapping. -/
def osIsNotExist : Option GoError → Bool
  | some .notExist => true
  | _ => false

/-- The function `strings.Contains(s, sub)`. -/
def stringsContains (s sub : String) : Bool :=
  decide (sub.data <:+: s.data)

/-- The function `strings.Join(elems, sep)`. -/
def stringsJoin (elems : List String) (sep : String) : String :=
  sep.intercalate elems

/-- The `%s` rendering of a `[]string` by package `fmt`. -/
def fmtStrings (xs : List String) : String :=
  "[" ++ stringsJoin xs " " ++ "]"

/-! ## `command/commander.go` -/

/-- A `context.Context` value the caller passed in, named by an identifier. -/
abbrev Context := Nat

/-- The type `StdCommandBuilder`.  The two logger fields are either the
standard logger or, after `WithNoInfoLog`, functions that do nothing; the flag
`logEnabled` records which.  `stdin` and `stdout` record whether a reader and
a sink were supplied. -/
structure StdCommandBuilder where
  ctx : Option Context
  env : List String
  command : String
  args : List String
  stdin : Bool
  stdout : Bool
  logEnabled : Bool
  ignoreExitCodes : List Int
  deriving Repr

/-- The method `StdCommander.Build`. -/
def Build (command : String) (args : List String) : StdCommandBuilder :=
  { ctx := none, env := [], command := command, args := args, stdin := false,
    stdout := false, logEnabled := true, ignoreExitCodes := [] }

namespace StdCommandBuilder

/-- The method `WithContext`. -/
def WithContext (c : StdCommandBuilder) (ctx : Context) : StdCommandBuilder :=
  { c with ctx := some ctx }

/-- The method `WithArgs`. -/
def WithArgs (c : StdCommandBuilder) (args : List String) : StdCommandBuilder :=
  { c with args := args }

/-- The method `WithEnv`. -/
def WithEnv (c : StdCommandBuilder) (env : List String) : StdCommandBuilder :=
  { c with env := env }

/-- The method `WithStdIn`, called with a non-nil reader. -/
def WithStdIn (c : StdCommandBuilder) : StdCommandBuilder :=
  { c with stdin := true }

/-- The method `WithStdOut`, called with a non-nil writer. -/
def WithStdOut (c : StdCommandBuilder) : StdCommandBuilder :=
  { c with stdout := true }

/-- The method `WithNoInfoLog`. -/
def WithNoInfoLog (c : StdCommandBuilder) : StdCommandBuilder :=
  { c with logEnabled := false }

/-- The method `WithIgnoreExitCodes`. -/
def WithIgnoreExitCodes (c : StdCommandBuilder) (codes : List Int) : StdCommandBuilder :=
  { c with ignoreExitCodes := codes }

end StdCommandBuilder

/-- The two line-reading tasks started by `Exec`. -/
inductive Task where
  | stdoutTask
  | stderrTask
  deriving DecidableEq, Repr

/-- What the operating system and the scheduler do during one `Exec`: the
results of the pipe and start calls, the bytes the process writes to each
stream, the error of `cmd.Wait()`, the result of each `Write` on the sink, the
value of `ctx.Err()` when `Exec` returns, the elapsed time as printed by the
deferred log call, and the order in which the two reader tasks take their
steps. -/
structure Process where
  stdoutPipeErr : Option GoError
  stderrPipeErr : Option GoError
  startErr : Option GoError
  stdout : List Char
  stderr : List Char
  waitErr : Option GoError
  sinkWriteErr : List Char → Option GoError
  ctxErr : Context → Option GoError
  elapsed : String
  schedule : List Task
  quote : String → String

/-- The constant `bufio.MaxScanTokenSize`. -/
def maxScanTokenSize : Nat := 64 * 1024

/-- The helper `dropCR` of `bufio.ScanLines`: one trailing carriage return is
dropped. -/
def dropCR (l : List Char) : List Char :=
  if l.getLast? = some '\r' then l.dropLast else l

/-- The lines of a byte stream before `dropCR`: every newline ends a line, and
a non-empty rest after the last newline is a line of its own.  `cur` holds the
bytes of the line being read, last byte first. -/
def rawLines : List Char → List Char → List (List Char)
  | cur, [] => if cur.isEmpty then [] else [cur.reverse]
  | cur, c :: rest =>
    if c = '\n' then cur.reverse :: rawLines [] rest else rawLines (c :: cur) rest

/-- The tokens a `bufio.Scanner` with the default split function and buffer
returns for a stream: its lines, up to the first line that does not fit the
buffer, at which the scanner stops. -/
def scanLines (data : List Char) : List (List Char) :=
  ((rawLines [] data).takeWhile (fun l => decide (l.length < maxScanTokenSize))).map dropCR

/-- The value of `Scanner.Err()` once scanning has stopped. -/
def scanErr (data : List Char) : Option GoError :=
  if (rawLines [] data).all (fun l => decide (l.length < maxScanTokenSize)) then none
  else some (.other "bufio.Scanner: token too long")

/-- One reader task: the lines its scanner has still to return; while the
task is between evaluating the operand of `append` and assigning its result,
the value of `combinedOutput` it read; and whether it has left its loop and
called `wg.Done()`. -/
structure Reader where
  pending : List (List Char)
  held : Option (List String)
  done : Bool
  deriving Repr

/-- The state shared by the two reader tasks, with the effects they have had:
the writes on the sink and the lines logged. -/
structure Capture where
  combinedOutput : List String
  out : Reader
  err : Reader
  sink : List (List Char)
  logs : List String
  deriving Repr

/-- The call `c.logInfo(args...)`, which prints its operands separated by
spaces, or nothing after `WithNoInfoLog`. -/
def logInfo (c : StdCommandBuilder) (logs : List String) (operands : List String) : List String :=
  if c.logEnabled then logs ++ [stringsJoin operands " "] else logs

/-- The log call after a scanner loop: `Scanner.Err()` is logged when it is
not nil. -/
def logScanErr (c : StdCommandBuilder) (data : List Char) (logs : List String) : List String :=
  match scanErr data with
  | some e => logInfo c logs [e.Error]
  | none => logs

/-- One step of the stdout task.  A loop iteration takes two steps, because
`combinedOutput = append(combinedOutput, line)` reads the shared variable and
then assigns it, and the other task may run in between.  The last step, when
the scanner has no more lines, logs the scanner's error and ends the task. -/
def stepStdout (c : StdCommandBuilder) (p : Process) (cmdStr : String) (s : Capture) : Capture :=
  match s.out.pending, s.out.held with
  | [], _ =>
    if s.out.done then s
    else { s with out := { s.out with done := true }, logs := logScanErr c p.stdout s.logs }
  | _ :: _, none => { s with out := { s.out with held := some s.combinedOutput } }
  | line :: rest, some old =>
    let logs := logInfo c s.logs [cmdStr, String.mk line]
    { combinedOutput := old ++ [String.mk line]
      out := { pending := rest, held := none, done := false }
      err := s.err
      sink := if c.stdout then s.sink ++ [line] else s.sink
      logs :=
        if c.stdout then
          match p.sinkWriteErr line with
          | some e => logInfo c logs [e.Error]
          | none => logs
        else logs }

/-- One step of the stderr task. -/
def stepStderr (c : StdCommandBuilder) (p : Process) (cmdStr : String) (s : Capture) : Capture :=
  match s.err.pending, s.err.held with
  | [], _ =>
    if s.err.done then s
    else { s with err := { s.err with done := true }, logs := logScanErr c p.stderr s.logs }
  | _ :: _, none => { s with err := { s.err with held := some s.combinedOutput } }
  | line :: rest, some old =>
    { s with
      combinedOutput := old ++ [String.mk line]
      err := { pending := rest, held := none, done := false }
      logs := logInfo c s.logs [cmdStr, String.mk line] }

/-- One step of the task the scheduler picks. -/
def stepTask (c : StdCommandBuilder) (p : Process) (cmdStr : String) (s : Capture) :
    Task → Capture
  | .stdoutTask => stepStdout c p cmdStr s
  | .stderrTask => stepStderr c p cmdStr s

/-- The state in which the two reader tasks start. -/
def captureInit (p : Process) (logs : List String) : Capture :=
  { combinedOutput := []
    out := { pending := scanLines p.stdout, held := none, done := false }
    err := { pending := scanLines p.stderr, held := none, done := false }
    sink := []
    logs := logs }

/-- The two reader tasks from their start to `wg.Wait()` returning: the steps
of the schedule are taken in order, and then each task runs to its end, since
`wg.Wait()` returns only when both have finished. -/
def capture (c : StdCommandBuilder) (p : Process) (cmdStr : String) (logs : List String) :
    Capture :=
  let s1 := p.schedule.foldl (stepTask c p cmdStr) (captureInit p logs)
  let s2 := (stepStdout c p cmdStr)^[2 * s1.out.pending.length + 1] s1
  (stepStderr c p cmdStr)^[2 * s2.err.pending.length + 1] s2

/-- The function `isValidExitCode`. -/
def isValidExitCode (err : GoError) (validExitCodes : List Int) : Bool :=
  match asExitError err with
  | none => false
  | some (actual, _) =>
    if validExitCodes.length = 0 then false
    else validExitCodes.any (fun expected => expected == actual)

/-- What one call of `Exec` returns and does: the error returned, the writes
made on the sink in order, and the lines logged. -/
structure ExecResult where
  err : Option GoError
  sink : List (List Char)
  logs : List String
  deriving Repr

/-- The command line `fmt.Sprintf("%s %s", c.command, strings.Join(c.args, " "))`. -/
def cmdString (c : StdCommandBuilder) : String :=
  c.command ++ " " ++ stringsJoin c.args " "

/-- The value of `c.ctx.Err()` after `c.ctx` has defaulted to
`context.Background()`, which is never cancelled. -/
def ctxErrOf (c : StdCommandBuilder) (p : Process) : Option GoError :=
  match c.ctx with
  | none => none
  | some ctx => p.ctxErr ctx

/-- The body of `StdCommandBuilder.Exec` after the first log call and before
the deferred one. -/
def execBody (c : StdCommandBuilder) (p : Process) (logs : List String) : ExecResult :=
  let cmdStr := cmdString c
  match p.stdoutPipeErr with
  | some err =>
    { err := some (.wrap ("get stdout pipe " ++ p.quote cmdStr ++ ": ") err), sink := [], logs := logs }
  | none =>
  match p.stderrPipeErr with
  | some err =>
    { err := some (.wrap ("get stderr pipe: " ++ p.quote cmdStr ++ ": ") err), sink := [], logs := logs }
  | none =>
  match p.startErr with
  | some err =>
    { err := some (.wrap ("start " ++ p.quote cmdStr ++ ": ") err), sink := [], logs := logs }
  | none =>
  let s := capture c p cmdStr logs
  match p.waitErr with
  | some err =>
    let err :=
      if stringsContains err.Error "signal: killed" then
        GoError.wrap ("original error " ++ err.Error ++ ": ") .deadlineExceeded
      else err
    if isValidExitCode err c.ignoreExitCodes then
      { err := none, sink := s.sink, logs := s.logs }
    else
      { err := some (.wrap ("failed to execute " ++ cmdStr ++ " stdout " ++
                fmtStrings s.combinedOutput ++ ": ") err)
        sink := s.sink, logs := s.logs }
  | none => { err := ctxErrOf c p, sink := s.sink, logs := s.logs }

/-- The log when the body of `Exec` starts: the line of its first log call. -/
def startLogs (c : StdCommandBuilder) : List String :=
  if c.logEnabled then ["Start executing: " ++ cmdString c] else []

/-- The method `StdCommandBuilder.Exec`. -/
def Exec (c : StdCommandBuilder) (p : Process) : ExecResult :=
  let cmdStr := cmdString c
  let r := execBody c p (startLogs c)
  { r with
    logs := if c.logEnabled then
        r.logs ++ ["Command " ++ cmdStr ++ " executed within " ++ p.elapsed]
      else r.logs }

/-! ## `common/io.go` and `ssh/ssh.go` -/

/-- A client, session or file object of the SSH and SFTP libraries, named by
an identifier; a nil pointer is `none : Option Handle`. -/
abbrev Handle := Nat

/-- An `io.Reader` the caller passed in, named by an identifier. -/
abbrev ReaderId := Nat

/-- The type `Credentials`. -/
structure Credentials where
  host : String
  port : Int
  login : String
  key : String
  deriving DecidableEq, Repr

/-- The type bits of an `os.FileMode`. -/
inductive FileKind where
  | regular
  | directory
  | symlink
  | namedPipe
  | socket
  | device
  | charDevice
  | irregular
  deriving DecidableEq, Repr

/-- An `os.FileInfo`, as far as the program reads it. -/
structure FileInfo where
  name : String
  kind : FileKind
  deriving DecidableEq, Repr

/-- The method `FileInfo.IsDir`. -/
def FileInfo.IsDir (i : FileInfo) : Bool :=
  i.kind == .directory

/-- The calls the program makes into the SSH and SFTP libraries, the
goroutines it starts and the lines it logs, as they are recorded in the
trace. -/
inductive Call where
  /-- The call `ssh.Dial` made by `dialSSH`. -/
  | dial (host : String) (port : Int) (login key : String)
  /-- The call `sftp.NewClient`. -/
  | newClient (ssh : Handle)
  /-- The call `sftp.Client.Getwd`. -/
  | getwd (client : Handle)
  /-- The call `sftp.Client.Close`. -/
  | closeClient (client : Handle)
  /-- The call `sftp.Client.Stat`. -/
  | stat (client : Handle) (path : String)
  /-- The call `sftp.Client.ReadDir`. -/
  | readDir (client : Handle) (path : String)
  /-- The call `sftp.Client.MkdirAll`. -/
  | mkdirAll (client : Handle) (path : String)
  /-- The call `sftp.Client.Create`. -/
  | create (client : Handle) (path : String)
  /-- The call `sftp.Client.Open`. -/
  | openFile (client : Handle) (path : String)
  /-- The call `sftp.Client.Remove`. -/
  | remove (client : Handle) (path : String)
  /-- The call `sftp.File.ReadFrom`. -/
  | readFrom (file : Handle) (r : ReaderId)
  /-- The call `sftp.File.Close`. -/
  | closeFile (file : Handle)
  /-- The call `ssh.Client.NewSession`. -/
  | newSession (ssh : Handle)
  /-- The call `ssh.Session.CombinedOutput`. -/
  | combinedOutput (session : Handle) (cmd : String)
  /-- The call `ssh.Session.Close`. -/
  | closeSession (session : Handle)
  /-- The goroutine of `sftpUpload`, which waits for the context and does
  nothing else. -/
  | goAwaitDone (ctx : Context)
  /-- The first goroutine of `sftpDownload`, which closes the pipe with the
  context's error once the context is done. -/
  | goCloseOnDone (ctx : Context)
  /-- The second goroutine of `sftpDownload`, which copies the remote file
  into the pipe. -/
  | goPump (file : Handle) (ctx : Context)
  /-- The log line of `CloseWrapper` for a close that failed. -/
  | logCloseFailed (e : GoError)
  deriving DecidableEq, Repr

/-- The libraries and the remote host, over an arbitrary state `σ`: what each
call returns in a given state and the state it leaves.  `join` is `path.Join`
(which `sftp.Client.Join` calls), `quote` is the `%q` rendering of a string by
package `fmt`, and `ctxErr` is `ctx.Err()`. -/
structure Remote (σ : Type) where
  join : String → String → String
  quote : String → String
  ctxErr : Context → σ → Option GoError
  dial : String → Int → String → String → σ → Except GoError Handle × σ
  newClient : Handle → σ → Except GoError Handle × σ
  getwd : Handle → σ → Option GoError × σ
  closeClient : Handle → σ → Option GoError × σ
  stat : Handle → String → σ → Except GoError FileInfo × σ
  readDir : Handle → String → σ → Except GoError (List FileInfo) × σ
  mkdirAll : Handle → String → σ → Option GoError × σ
  create : Handle → String → σ → Except GoError Handle × σ
  openFile : Handle → String → σ → Except GoError Handle × σ
  remove : Handle → String → σ → Option GoError × σ
  readFrom : Handle → ReaderId → σ → Option GoError × σ
  closeFile : Handle → σ → Option GoError × σ
  newSession : Handle → σ → Except GoError Handle × σ
  combinedOutput : Handle → String → σ → (List Char × Option GoError) × σ
  closeSession : Handle → σ → Option GoError × σ

/-- The state of a run: the state of the environment and the trace of the
calls made so far, oldest first. -/
structure Sys (σ : Type) where
  env : σ
  trace : List Call

/-- How a Go function ends: it returns a value and a nil error, it returns a
non-nil error, or it panics on a nil pointer. -/
inductive Ret (α : Type) where
  | ok (a : α)
  | err (e : GoError)
  | panic
  deriving Repr

/-- The result of a library call that returns `(value, error)`. -/
def Ret.ofExcept {α : Type} : Except GoError α → Ret α
  | .ok a => .ok a
  | .error e => .err e

/-- The result of a library call that returns `error`. -/
def Ret.ofError : Option GoError → Ret Unit
  | none => .ok ()
  | some e => .err e

/-- The type `Connection`. -/
structure Connection where
  sshClient : Option Handle
  sftpClient : Option Handle
  credentials : Credentials
  deriving DecidableEq, Repr

section Program

variable {σ : Type} (ops : Remote σ)

/-- A library call: its result, the state it leaves, and the trace with the
call appended. -/
def call {α : Type} (c : Call) (f : σ → α × σ) (w : Sys σ) : α × Sys σ :=
  ((f w.env).1, { env := (f w.env).2, trace := w.trace ++ [c] })

/-- An entry of the trace that is not a library call. -/
def record (c : Call) (w : Sys σ) : Sys σ :=
  { w with trace := w.trace ++ [c] }

/-- The function `dialSSH`, as far as its one library call `ssh.Dial`. -/
def dialSSH (host : String) (port : Int) (login key : String) (w : Sys σ) :
    Except GoError Handle × Sys σ :=
  call (.dial host port login key) (ops.dial host port login key) w

/-- The method `Connection.connect`. -/
def connect (c : Connection) (w : Sys σ) : Except GoError (Handle × Handle) × Sys σ :=
  match dialSSH ops c.credentials.host c.credentials.port c.credentials.login c.credentials.key w with
  | (.error err, w1) => (.error (.wrap "dial SSH: " err), w1)
  | (.ok sshClient, w1) =>
    match call (.newClient sshClient) (ops.newClient sshClient) w1 with
    | (.error err, w2) => (.error (.wrap "establish SFTP connection: " err), w2)
    | (.ok sftpClient, w2) => (.ok (sshClient, sftpClient), w2)

/-- The function `NewConnection`. -/
def NewConnection (cr : Credentials) (w : Sys σ) : Except GoError Connection × Sys σ :=
  let con : Connection := { sshClient := none, sftpClient := none, credentials := cr }
  match connect ops con w with
  | (.error err, w1) => (.error (.wrap "connect: " err), w1)
  | (.ok (sshClient, sftpClient), w1) =>
    (.ok { con with sshClient := some sshClient, sftpClient := some sftpClient }, w1)

/-- The method `Connection.Close`. -/
def Connection.Close (c : Connection) (w : Sys σ) : Option GoError × Sys σ :=
  match c.sftpClient with
  | some client =>
    match call (.closeClient client) (ops.closeClient client) w with
    | (some err, w1) => (some err, w1)
    | (none, w1) => (none, w1)
  | none => (none, w)

/-- The body of the loop of `CloseWrapper` after the closer's `Close` has
returned `r`: an error that is neither `io.EOF` nor `os.ErrClosed` is logged. -/
def closeWrapperLog (r : Option GoError × Sys σ) : Sys σ :=
  match r with
  | (some err, w1) =>
    if !errorsIs err .eof && !errorsIs err .closed then record (.logCloseFailed err) w1 else w1
  | (none, w1) => w1

/-- The call `common.CloseWrapper(c)` for a non-nil connection `c`. -/
def closeWrapperConnection (c : Connection) (w : Sys σ) : Sys σ :=
  closeWrapperLog (Connection.Close ops c w)

/-- The call `common.CloseWrapper(fp)` for a non-nil SFTP file `fp`. -/
def closeWrapperFile (fp : Handle) (w : Sys σ) : Sys σ :=
  closeWrapperLog (call (.closeFile fp) (ops.closeFile fp) w)

/-- The call `common.CloseWrapper(session)` for a non-nil SSH session. -/
def closeWrapperSession (session : Handle) (w : Sys σ) : Sys σ :=
  closeWrapperLog (call (.closeSession session) (ops.closeSession session) w)

/-- The method `Connection.ensureIsConnected`: its result, the connection's
fields afterwards, and the state. -/
def ensureIsConnected (c : Connection) (w : Sys σ) : Ret Unit × Connection × Sys σ :=
  match c.sftpClient with
  | none => (.panic, c, w)
  | some client =>
    match call (.getwd client) (ops.getwd client) w with
    | (none, w1) => (.ok (), c, w1)
    | (some err, w1) =>
      if !errorsIs err .connectionLost then (.err err, c, w1)
      else
        let w2 := closeWrapperConnection ops c w1
        match connect ops c w2 with
        | (.error err, w3) =>
          (.err (.wrap "reconnect after connection loss: " err),
            { c with sshClient := none, sftpClient := none }, w3)
        | (.ok (sshClient, sftpClient), w3) =>
          (.ok (), { c with sshClient := some sshClient, sftpClient := some sftpClient }, w3)

end Program

section Program

variable {σ : Type} (ops : Remote σ)

/-- The method `Connection.Exec`: the output and the error it returns, or
`none` when it panics on a nil `sshClient`. -/
def Connection.Exec (c : Connection) (cmd : String) (w : Sys σ) :
    Option (List Char × Option GoError) × Sys σ :=
  match c.sshClient with
  | none => (none, w)
  | some sshClient =>
    match call (.newSession sshClient) (ops.newSession sshClient) w with
    | (.error err, w1) => (some ([], some err), w1)
    | (.ok session, w1) =>
      match call (.combinedOutput session cmd) (ops.combinedOutput session cmd) w1 with
      | (r, w2) => (some r, closeWrapperSession ops session w2)

/-- The method `Connection.List`. -/
def Connection.List (c : Connection) (p : String) (w : Sys σ) : Ret (List FileInfo) × Sys σ :=
  match c.sftpClient with
  | none => (.panic, w)
  | some client =>
    match call (.stat client p) (ops.stat client p) w with
    | (.error err, w1) => (.err (.wrap ("stat " ++ ops.quote p ++ ": ") err), w1)
    | (.ok i, w1) =>
      if !i.IsDir then (.err (.other ("path is not a directory: " ++ ops.quote p)), w1)
      else
        match call (.readDir client p) (ops.readDir client p) w1 with
        | (.error err, w2) => (.err (.wrap "read directory: " err), w2)
        | (.ok ii, w2) => (.ok ii, w2)

/-- The constant `common.KiB`. -/
def KiB : Int := 1024

/-- The constant `common.MiB`. -/
def MiB : Int := 1024 * KiB

/-- The constant `common.GiB`. -/
def GiB : Int := 1024 * MiB

/-- The error of `readahead.NewReaderSize(r, buffers, size)`, which rejects a
size or a number of buffers that is not positive. -/
def newReaderSize (buffers size : Int) : Option GoError :=
  if size ≤ 0 then some (.other "buffer size too small")
  else if buffers ≤ 0 then some (.other "number of buffers too small")
  else none

/-- The method `Connection.sftpUpload`.  The deferred `CloseWrapper(fp)` runs
on every return after the file has been created. -/
def sftpUpload (ctx : Context) (r : ReaderId) (path : String) (c : Connection) (w : Sys σ) :
    Ret Unit × Sys σ :=
  match c.sftpClient with
  | none => (.panic, w)
  | some client =>
    match call (.create client path) (ops.create client path) w with
    | (.error err, w1) => (.err (.wrap "create destination file: " err), w1)
    | (.ok fp, w1) =>
      let w2 := record (.goAwaitDone ctx) w1
      match newReaderSize 4 (64 * MiB) with
      | some err => (.err (.wrap "new readahead reader: " err), closeWrapperFile ops fp w2)
      | none =>
        match call (.readFrom fp r) (ops.readFrom fp r) w2 with
        | (err, w3) =>
          let err :=
            match ops.ctxErr ctx w3.env with
            | some ctxErr => some ctxErr
            | none => err
          (Ret.ofError err, closeWrapperFile ops fp w3)

/-- The method `Connection.makeSureDirectoryExists`. -/
def makeSureDirectoryExists (c : Connection) (p : String) (w : Sys σ) : Ret Unit × Sys σ :=
  match c.sftpClient with
  | none => (.panic, w)
  | some client =>
    match call (.stat client p) (ops.stat client p) w with
    | (.error err, w1) =>
      if osIsNotExist (some err) then
        match call (.mkdirAll client p) (ops.mkdirAll client p) w1 with
        | (some err, w2) => (.err (.wrap "create: " err), w2)
        | (none, w2) => (.ok (), w2)
      else (.err err, w1)
    | (.ok i, w1) =>
      if !i.IsDir then (.err (.other "not a directory"), w1) else (.ok (), w1)

/-- The method `Connection.Upload`: its result, the connection's fields
afterwards, and the state. -/
def Connection.Upload (c : Connection) (ctx : Context) (r : ReaderId) (dstPath name : String)
    (w : Sys σ) : Ret Unit × Connection × Sys σ :=
  match ensureIsConnected ops c w with
  | (.panic, c1, w1) => (.panic, c1, w1)
  | (.err err, c1, w1) => (.err (.wrap "ensure is connected: " err), c1, w1)
  | (.ok (), c1, w1) =>
    match makeSureDirectoryExists ops c1 dstPath w1 with
    | (.panic, w2) => (.panic, c1, w2)
    | (.err err, w2) => (.err (.wrap "make sure directory exists: " err), c1, w2)
    | (.ok (), w2) =>
      let p := ops.join dstPath name
      match sftpUpload ops ctx r p c1 w2 with
      | (res, w3) => (res, c1, w3)

/-- The method `Connection.IsExists`. -/
def Connection.IsExists (c : Connection) (path : String) (w : Sys σ) : Ret Bool × Sys σ :=
  match c.sftpClient with
  | none => (.panic, w)
  | some client =>
    match call (.stat client path) (ops.stat client path) w with
    | (.error err, w1) => if osIsNotExist (some err) then (.ok false, w1) else (.err err, w1)
    | (.ok _, w1) => (.ok true, w1)

/-- The reader `Download` returns: the read end of a pipe that the pump
goroutine fills from the remote file `file`. -/
structure PipeReader where
  file : Handle
  ctx : Context
  deriving DecidableEq, Repr

/-- The method `Connection.sftpDownload`. -/
def sftpDownload (c : Connection) (ctx : Context) (srcPath : String) (w : Sys σ) :
    Ret PipeReader × Connection × Sys σ :=
  match ensureIsConnected ops c w with
  | (.panic, c1, w1) => (.panic, c1, w1)
  | (.err err, c1, w1) => (.err (.wrap "ensure is connected: " err), c1, w1)
  | (.ok (), c1, w1) =>
    match c1.sftpClient with
    | none => (.panic, c1, w1)
    | some client =>
      match call (.stat client srcPath) (ops.stat client srcPath) w1 with
      | (.error err, w2) =>
        (.err (.wrap ("invalid source path " ++ ops.quote srcPath ++ ": ") err), c1, w2)
      | (.ok i, w2) =>
        if i.IsDir then
          (.err (.other ("invalid source path " ++ ops.quote srcPath ++ ": not a file")), c1, w2)
        else
          match call (.openFile client srcPath) (ops.openFile client srcPath) w2 with
          | (.error err, w3) =>
            (.err (.wrap ("sftpClient open file " ++ ops.quote srcPath ++ ": ") err), c1, w3)
          | (.ok fp, w3) =>
            (.ok { file := fp, ctx := ctx }, c1,
              record (.goPump fp ctx) (record (.goCloseOnDone ctx) w3))

/-- The method `Connection.Download`. -/
def Connection.Download (c : Connection) (ctx : Context) (srcPath : String) (w : Sys σ) :
    Ret PipeReader × Connection × Sys σ :=
  sftpDownload ops c ctx srcPath w

/-- The function `sftpTouchFile`. -/
def sftpTouchFile (client : Handle) (p : String) (w : Sys σ) : Option GoError × Sys σ :=
  match call (.create client p) (ops.create client p) w with
  | (.error err, w1) => (some (.wrap "create file: " err), w1)
  | (.ok fp, w1) =>
    match call (.closeFile fp) (ops.closeFile fp) w1 with
    | (some err, w2) => (some (.wrap "close created file: " err), w2)
    | (none, w2) => (none, w2)

/-- The loop of `sftpRemove` over the entries `ii` of directory `path`, with
`recur` standing for the recursive call.  The result is `none` when the
recursive call does not return. -/
def removeEntries (client : Handle) (path : String)
    (recur : String → Sys σ → Option (Option GoError × Sys σ)) :
    List FileInfo → Sys σ → Option (Option GoError × Sys σ)
  | [], w => some (none, w)
  | i :: rest, w =>
    let p := ops.join path i.name
    let r := if i.IsDir then recur p w else some (call (.remove client p) (ops.remove client p) w)
    match r with
    | none => none
    | some (some err, w1) => some (some (.wrap ("remove " ++ ops.quote p ++ ": ") err), w1)
    | some (none, w1) => removeEntries client path recur rest w1

/-- The function `sftpRemove`, with a bound `fuel` on the depth of its
recursion: the result is `none` when the bound is reached. -/
def sftpRemove : Nat → Handle → String → Sys σ → Option (Option GoError × Sys σ)
  | 0, _, _, _ => none
  | fuel + 1, client, path, w =>
    match call (.stat client path) (ops.stat client path) w with
    | (.error err, w1) =>
      if osIsNotExist (some err) then some (none, w1) else some (some (.wrap "stat: " err), w1)
    | (.ok i, w1) =>
      if !i.IsDir then some (call (.remove client path) (ops.remove client path) w1)
      else
        match call (.readDir client path) (ops.readDir client path) w1 with
        | (.error err, w2) => some (some (.wrap "read directory: " err), w2)
        | (.ok ii, w2) =>
          match removeEntries ops client path (sftpRemove fuel client) ii w2 with
          | none => none
          | some (some err, w3) => some (some err, w3)
          | some (none, w3) => some (call (.remove client path) (ops.remove client path) w3)

/-- The method `Connection.Remove`, on a receiver that may be nil. -/
def Connection.Remove (fuel : Nat) (c : Option Connection) (p : String) (w : Sys σ) :
    Option (Option GoError × Sys σ) :=
  match c with
  | none => some (some (.other ("remove " ++ ops.quote p ++ ": sftpClient connection is nil")), w)
  | some c =>
    match c.sftpClient with
    | none => some (some (.other ("remove " ++ ops.quote p ++ ": sftpClient client is nil")), w)
    | some client => sftpRemove ops fuel client p w

end Program

/-! ## A remote host

A reference model of the libraries and of the remote host, over which the
properties of the remote file system are stated and on which the general
theorems are instantiated. -/

/-- The state of the reference host: what kind of file each path is, the
names listed in each directory, whether the session the client holds is alive,
whether the host accepts a new connection, the error of each context, and the
next unused handle. -/
structure Host where
  kind : String → Option FileKind
  names : String → List String
  online : Bool
  up : Bool
  cancelled : Context → Option GoError
  next : Handle

/-- The path of entry `n` of directory `d` on the reference host. -/
def hostJoin (d n : String) : String :=
  d ++ "/" ++ n

/-- The quoting of a string on the reference host. -/
def hostQuote (s : String) : String :=
  "\"" ++ s ++ "\""

/-- The directory part of a path: what precedes its last slash. -/
def dirName (p : String) : String :=
  String.mk ((p.data.reverse.dropWhile (fun ch => ch != '/')).drop 1).reverse

/-- The last element of a path: what follows its last slash. -/
def baseName (p : String) : String :=
  String.mk (p.data.reverse.takeWhile (fun ch => ch != '/')).reverse

namespace Host

/-- The host without the entry at path `p`. -/
def delete (fs : Host) (p : String) : Host :=
  { fs with
    kind := fun q => if q = p then none else fs.kind q
    names := fun d => (fs.names d).filter (fun n => decide (hostJoin d n ≠ p)) }

/-- The host without the entries at the paths of `ps`. -/
def deleteAll (fs : Host) (ps : List String) : Host :=
  { fs with
    kind := fun q => if q ∈ ps then none else fs.kind q
    names := fun d => (fs.names d).filter (fun n => decide (hostJoin d n ∉ ps)) }

/-- The host with a new entry of kind `k` at path `p`. -/
def insert (fs : Host) (p : String) (k : FileKind) : Host :=
  { fs with
    kind := fun q => if q = p then some k else fs.kind q
    names := fun d => if d = dirName p then fs.names d ++ [baseName p] else fs.names d }

/-- The host after `mkdir -p p`: missing directories are created from the
outermost one inwards; `fuel` bounds the number of path elements. -/
def mkdirs (fs : Host) : Nat → String → Host
  | 0, _ => fs
  | fuel + 1, p =>
    if p = "" ∨ (fs.kind p).isSome then fs
    else (mkdirs fs fuel (dirName p)).insert p .directory

/-- The listing of directory `d`: its names with the kind of each. -/
def listing (fs : Host) (d : String) : List FileInfo :=
  (fs.names d).filterMap (fun n => (fs.kind (hostJoin d n)).map (fun k => { name := n, kind := k }))

end Host

/-- The error of a file operation on a session that is no longer alive. -/
def lostOr {α : Type} (fs : Host) (r : Except GoError α × Host) : Except GoError α × Host :=
  if fs.online then r else (.error .connectionLost, fs)

/-- The error of an operation that returns only an error, on a session that is
no longer alive. -/
def lostOrErr (fs : Host) (r : Option GoError × Host) : Option GoError × Host :=
  if fs.online then r else (some .connectionLost, fs)

/-- The reference host as an environment of the program. -/
def hostOps : Remote Host where
  join := hostJoin
  quote := hostQuote
  ctxErr := fun ctx fs => fs.cancelled ctx
  dial := fun _ _ _ _ fs =>
    if fs.up then (.ok fs.next, { fs with next := fs.next + 1 })
    else (.error (.other "connection refused"), fs)
  newClient := fun _ fs =>
    if fs.up then (.ok fs.next, { fs with next := fs.next + 1, online := true })
    else (.error .eof, fs)
  getwd := fun _ fs => lostOrErr fs (none, fs)
  closeClient := fun _ fs => (none, { fs with online := false })
  stat := fun _ p fs =>
    lostOr fs
      (match fs.kind p with
        | none => (.error .notExist, fs)
        | some k => (.ok { name := baseName p, kind := k }, fs))
  readDir := fun _ p fs =>
    lostOr fs
      (match fs.kind p with
        | some .directory => (.ok (fs.listing p), fs)
        | _ => (.error .notExist, fs))
  mkdirAll := fun _ p fs =>
    lostOrErr fs
      (match (fs.mkdirs p.length p).kind p with
        | some .directory => (none, fs.mkdirs p.length p)
        | _ => (some (.other "not a directory"), fs))
  create := fun _ p fs =>
    lostOr fs
      (match fs.kind (dirName p), fs.kind p with
        | some .directory, none =>
          (.ok fs.next, { fs.insert p .regular with next := fs.next + 1 })
        | some .directory, some .directory => (.error (.other "is a directory"), fs)
        | some .directory, some _ => (.ok fs.next, { fs with next := fs.next + 1 })
        | _, _ => (.error .notExist, fs))
  openFile := fun _ p fs =>
    lostOr fs
      (match fs.kind p with
        | none => (.error .notExist, fs)
        | some _ => (.ok fs.next, { fs with next := fs.next + 1 }))
  remove := fun _ p fs =>
    lostOrErr fs
      (match fs.kind p with
        | none => (some .notExist, fs)
        | some .directory =>
          if (fs.names p).isEmpty then (none, fs.delete p)
          else (some (.other "directory not empty"), fs)
        | some _ => (none, fs.delete p))
  readFrom := fun _ _ fs => lostOrErr fs (none, fs)
  closeFile := fun _ fs => (none, fs)
  newSession := fun _ fs =>
    if fs.online then (.ok fs.next, { fs with next := fs.next + 1 })
    else (.error .eof, fs)
  combinedOutput := fun _ _ fs => (([], none), fs)
  closeSession := fun _ fs => (none, fs)

/-- The paths of the tree of depth at most `d` whose root is `p`: the root,
then the paths of the trees of its entries in listing order. -/
def subtree (fs : Host) : Nat → String → List String
  | 0, p => [p]
  | d + 1, p =>
    p :: (if fs.kind p = some .directory then
        (fs.names p).flatMap (fun n => subtree fs d (hostJoin p n))
      else [])

/-- Whether below `p` there is a finite tree of depth at most `d`: `p` is a
file, or a directory each of whose names is the root of such a tree of
depth at most `d - 1`. -/
def isTree (fs : Host) : Nat → String → Bool
  | 0, p =>
    match fs.kind p with
    | some k => k != .directory
    | none => false
  | d + 1, p =>
    match fs.kind p with
    | none => false
    | some .directory => (fs.names p).all (fun n => isTree fs d (hostJoin p n))
    | some _ => true

/-- The paths of the `remove` calls of a trace, in the order of the calls. -/
def removals (tr : List Call) : List String :=
  tr.filterMap (fun c => match c with
    | .remove _ p => some p
    | _ => none)

/-- A host holding the directory `/vm` with the files `a` and `b` and the
directory `sub` with the file `c`, and the file `/etc`. -/
def sampleHost : Host where
  kind := fun p =>
    if p = "/vm" ∨ p = "/vm/sub" ∨ p = "/" then some .directory
    else if p = "/vm/a" ∨ p = "/vm/b" ∨ p = "/vm/sub/c" ∨ p = "/etc" then some .regular
    else if p = "/dev" then some .device
    else none
  names := fun d =>
    if d = "/vm" then ["a", "sub", "b"]
    else if d = "/vm/sub" then ["c"]
    else []
  online := true
  up := true
  cancelled := fun _ => none
  next := 10

/-- The credentials used in the examples. -/
def sampleCredentials : Credentials :=
  { host := "node", port := 22, login := "root", key := "k" }

/-- An established connection to the sample host. -/
def sampleConnection : Connection :=
  { sshClient := some 1, sftpClient := some 2, credentials := sampleCredentials }

/-- Whether a trace entry is the call `ssh.Dial`, which `connect` makes
exactly once through `dialSSH`. -/
def Call.isDial : Call → Bool
  | .dial _ _ _ _ => true
  | _ => false

/-- The number of `ssh.Dial` calls in a trace, which is the number of calls
of `connect`. -/
def dials (tr : List Call) : Nat :=
  tr.countP Call.isDial

/-- The sample host after its session has been lost. -/
def lostHost : Host :=
  { sampleHost with online := false }

/-- The `*exec.ExitError` of a process that exited on its own with status
`k`: its exit code is `k` and its text is that of `os.ProcessState.String`. -/
def exitStatusError (k : Nat) : GoError :=
  .exitError k ("exit status " ++ toString k)

/-- A process that writes the lines `A` and `B` to stdout and the line `C` to
stderr and exits with status 3, the stdout task running first. -/
def sampleProcess : Process where
  stdoutPipeErr := none
  stderrPipeErr := none
  startErr := none
  stdout := "A\nB\n".data
  stderr := "C\n".data
  waitErr := some (exitStatusError 3)
  sinkWriteErr := fun _ => none
  ctxErr := fun _ => none
  elapsed := "1s"
  schedule := []
  quote := hostQuote

/-- A process that was killed by the signal sent on cancellation. -/
def killedProcess : Process :=
  { sampleProcess with
    waitErr := some (.exitError (-1) "signal: killed")
    ctxErr := fun _ => some .deadlineExceeded }

/-- The builder of `sh -c job` with an output sink. -/
def sampleBuilder : StdCommandBuilder :=
  (Build "sh" ["-c", "job"]).WithStdOut

/-- The stdout lines already written to the sink, followed by those the stdout
task has still to read, are the lines of stdout. -/
def SinkInv (lines : List (List Char)) (s : Capture) : Prop :=
  s.sink ++ s.out.pending = lines

/-- The number of steps the stdout task still needs to empty its scanner. -/
def stdoutSteps (s : Capture) : Nat :=
  2 * s.out.pending.length - (if s.out.held.isSome then 1 else 0)

/-- The calls `sftpRemove` makes for the tree of depth at most `d` below `p`
on the reference host when every call succeeds. -/
def removeCalls (client : Handle) (fs : Host) : Nat → String → List Call
  | 0, p => [.stat client p, .remove client p]
  | d + 1, p =>
    if fs.kind p = some .directory then
      [.stat client p, .readDir client p] ++
        (fs.names p).flatMap (fun n =>
          if fs.kind (hostJoin p n) = some .directory then removeCalls client fs d (hostJoin p n)
          else [.remove client (hostJoin p n)]) ++
        [.remove client p]
    else [.stat client p, .remove client p]

/-- The paths of the tree of depth at most `d` below `p`, every directory
after all that it holds. -/
def postorder (fs : Host) : Nat → String → List String
  | 0, p => [p]
  | d + 1, p =>
    (if fs.kind p = some .directory then
        (fs.names p).flatMap (fun n => postorder fs d (hostJoin p n))
      else []) ++ [p]

/-- The entry of the listing of directory `p` for the name `n`. -/
def entryOf (fs : Host) (p n : String) : FileInfo :=
  { name := n, kind := (fs.kind (hostJoin p n)).getD .regular }

/-- Whether a trace entry is the liveness probe `sftp.Client.Getwd`, which
only `ensureIsConnected` makes. -/
def Call.isProbe : Call → Bool
  | .getwd _ => true
  | _ => false

/-- The number of liveness probes in a trace. -/
def probes (tr : List Call) : Nat :=
  tr.countP Call.isProbe

/-- The sample host with every context cancelled. -/
def cancelledHost : Host :=
  { sampleHost with cancelled := fun _ => some .canceled }

/-- The reference host on which closing a client whose session is no longer
alive reports that it is already closed. -/
def closedOps : Remote Host :=
  { hostOps with
    closeClient := fun _ fs =>
      if fs.online then (none, { fs with online := false }) else (some .closed, fs) }

/-- The builder of `sh -c job` with the context 7 and the exit code 3 declared
acceptable. -/
def tolerantBuilder : StdCommandBuilder :=
  ((Build "sh" ["-c", "job"]).WithContext 7).WithIgnoreExitCodes [3]

/-- A process that exits with status 3 while its context is cancelled before
`Exec` returns. -/
def lateCancelProcess : Process :=
  { sampleProcess with ctxErr := fun _ => some .canceled }

/-- A process killed by a signal that something else sent; no context is ever
cancelled. -/
def externallyKilledProcess : Process :=
  { sampleProcess with waitErr := some (.exitError (-1) "signal: killed") }

/-- The builder of `sh -c job` without a context, so that `Exec` runs it under
`context.Background()`. -/
def backgroundBuilder : StdCommandBuilder :=
  Build "sh" ["-c", "job"]

/-- An `ssh.Signer`: a signer parsed from a private key, with the type of its
public key, or a `wrappedSigner` around a signer with the algorithm it
presents. -/
inductive Signer where
  | parsed (keyType : String) (key : String)
  | wrapped (signer : Signer) (algorithm : String)
  deriving DecidableEq, Repr

/-- The value of `PublicKey().Type()`: for a `wrappedSigner` the method
`wrappedPublicKey.Type` returns the algorithm. -/
def Signer.publicKeyType : Signer → String
  | .parsed keyType _ => keyType
  | .wrapped _ algorithm => algorithm

/-- The constant `ssh.KeyAlgoRSA`. -/
def KeyAlgoRSA : String := "ssh-rsa"

/-- The constant `ssh.KeyAlgoRSASHA256`. -/
def KeyAlgoRSASHA256 : String := "rsa-sha2-256"

/-- The constant `ssh.KeyAlgoRSASHA512`. -/
def KeyAlgoRSASHA512 : String := "rsa-sha2-512"

/-- The callback `dialSSH` passes to `ssh.PublicKeysCallback`, over the
library function `ssh.ParsePrivateKey`: the signers offered for a key. -/
def dialSSHSigners (parsePrivateKey : String → Except GoError Signer) (key : String) :
    Except GoError (List Signer) :=
  match parsePrivateKey key with
  | .error err => .error err
  | .ok signer =>
    let signers : List Signer :=
      if signer.publicKeyType = KeyAlgoRSA then
        [.wrapped signer KeyAlgoRSASHA512, .wrapped signer KeyAlgoRSASHA256]
      else []
    .ok (signers ++ [signer])

/-- A key parser that accepts the keys `rsa` and `ed25519`. -/
def sampleParse (key : String) : Except GoError Signer :=
  if key = "rsa" then .ok (.parsed KeyAlgoRSA key)
  else if key = "ed25519" then .ok (.parsed "ssh-ed25519" key)
  else .error (.other "ssh: no key found")

/-- The calls the goroutine of `sftpUpload` makes on the destination file `fp`
once `ctx.Done()` is closed: its body ends there, so it makes none. -/
def uploadWatcherCalls (_ctx : Context) (_fp : Handle) : List Call :=
  []

/-- The sample process under a schedule in which the stderr task reads and
assigns `combinedOutput` between the stdout task's read and its assignment. -/
def racyProcess : Process :=
  { sampleProcess with
    schedule := [.stdoutTask, .stderrTask, .stderrTask, .stdoutTask] }

/-- The builder of `sh -c job` with the exit code -1 declared acceptable. -/
def minusOneBuilder : StdCommandBuilder :=
  (Build "sh" ["-c", "job"]).WithIgnoreExitCodes [-1]

/-- The sample host after its session has been lost, refusing new
connections. -/
def downHost : Host :=
  { sampleHost with online := false, up := false }

/-! ## `plan.go`, `settings.go`, `vmx.go` and `common/os.go` -/

/-- The constant `apiURLExample`. -/
def apiURLExample : String := "https://solusvm2.example.tld/api/v1/"

/-- The type `Defaults`.  The map `GuestOSToOSImageVersionID` is the function
that gives the value of each key that is present. -/
structure Defaults where
  GuestOSToOSImageVersionID : String → Option Int
  UserID : Int
  ProjectID : Int
  ComputeResourceID : Int
  LocationID : Int
  SSHKeys : List Int
  AdditionalDiskOfferID : Int

/-- The type `ImportSettings`. -/
structure ImportSettings where
  SourceIP : String
  APIURL : String
  APIToken : String
  Defaults : Defaults

/-- The type `Disk`. -/
structure Disk where
  Name : String
  DiskOfferID : Int
  Size : Int
  SourcePath : String
  DestinationPath : String
  deriving DecidableEq, Repr

/-- The zero value `Disk{}`. -/
def Disk.zero : Disk :=
  { Name := "", DiskOfferID := 0, Size := 0, SourcePath := "", DestinationPath := "" }

/-- The type `VirtualServer`, without its field `CustomPlan`, whose type
belongs to the vendor SDK. -/
structure VirtualServer where
  VMXFilePath : String
  VirtualServerID : Int
  VirtualServerUUID : String
  OriginDir : String
  OriginName : String
  Hostname : String
  ComputeResourceID : Int
  GuestOS : String
  PrimaryDiskSourcePath : String
  PrimaryDiskDestinationPath : String
  AdditionalDisks : List Disk
  PrimaryIP : Option String
  AdditionalIPv4 : Option Int
  Password : String
  SSHKeys : List Int
  MacAddress : Option String
  Firmware : Option String
  deriving Repr

/-- The type `ImportPlan`. -/
structure ImportPlan where
  Settings : ImportSettings
  VirtualServers : List VirtualServer

/-- The loop of `ImportPlan.Validate` over the additional disks of the server
`vs`. -/
def validateDisks (i : ImportPlan) (vs : VirtualServer) : List Disk → Option GoError
  | [] => none
  | disk :: rest =>
    if disk.DiskOfferID = 0 ∧ i.Settings.Defaults.AdditionalDiskOfferID = 0 then
      some (.other ("virtual server's " ++ vs.Hostname ++ " has additional disk " ++
        disk.SourcePath ++ " but disk offer ID is 0. " ++
        "Please create addtional disk offer and set disk offer ID for the server " ++
        "or set Default Additional Disk Offer ID in \"Defaults\" struct in settings file"))
    else if disk.Size = 0 then
      some (.other ("virtual server's " ++ vs.Hostname ++ " has additional disk " ++
        disk.SourcePath ++ " but size is 0. " ++ "Please set \"Size\" for the server"))
    else validateDisks i vs rest

/-- The loop of `ImportPlan.Validate` over the virtual servers. -/
def validateServers (i : ImportPlan) : List VirtualServer → Option GoError
  | [] => none
  | vs :: rest =>
    match i.Settings.Defaults.GuestOSToOSImageVersionID vs.GuestOS with
    | none =>
      some (.other ("virtual server's " ++ vs.Hostname ++ " guest OS " ++ vs.GuestOS ++
        " does not exist in settings guest_os_to_os_image_version_id"))
    | some imageID =>
      if imageID = 0 then
        some (.other ("virtual server's " ++ vs.Hostname ++ " guest OS " ++ vs.GuestOS ++
          " does not mapped to OS image ID in settings guest_os_to_os_image_version_id"))
      else if vs.ComputeResourceID = 0 ∧ i.Settings.Defaults.ComputeResourceID = 0 then
        some (.other ("virtual server's " ++ vs.Hostname ++
          " compute resource ID is not set and default compute resource ID is not set"))
      else
        match validateDisks i vs vs.AdditionalDisks with
        | some err => some err
        | none => validateServers i rest

/-- The method `ImportPlan.Validate`. -/
def ImportPlan.Validate (i : ImportPlan) : Option GoError :=
  if i.Settings.APIURL = "" then some (.other "API URL is not set")
  else if i.Settings.APIURL = apiURLExample then some (.other "API URL is set to example value")
  else if i.Settings.APIToken = "" then some (.other "API token is not set")
  else
    match validateServers i i.VirtualServers with
    | some err => some err
    | none =>
      if i.Settings.Defaults.UserID = 0 then
        some (.other "\"Default User ID\" is not set in settings file")
      else if i.Settings.Defaults.ProjectID = 0 then
        some (.other "\"Default Project ID\" is not set in settings file")
      else if i.Settings.Defaults.ComputeResourceID = 0 then
        some (.other "\"Default ComputeResource ID\" is not set in settings file")
      else if i.Settings.Defaults.LocationID = 0 then
        some (.other "\"Default Location ID\" is not set in settings file")
      else none

/-- Modelled from the spec: the type `vmx.Device` of package `govmx`, whose
declaration is not among the sources (the spec leaves the parsing of
descriptor files to a collaborator); it is given the one field that
`GetDisksFromVMX` reads. -/
structure Device where
  Filename : String
  deriving DecidableEq, Repr

/-- Modelled from the spec: the type `vmx.IDEDevice` of package `govmx`, which
embeds a `Device`. -/
structure IDEDevice where
  device : Device
  deriving DecidableEq, Repr

/-- Modelled from the spec: the type `vmx.SATADevice` of package `govmx`,
which embeds a `Device` and has a `Type`. -/
structure SATADevice where
  type : String
  device : Device
  deriving DecidableEq, Repr

/-- Modelled from the spec: the type `vmx.SCSIDevice` of package `govmx`,
which embeds a `Device` and has a `Type`. -/
structure SCSIDevice where
  type : String
  device : Device
  deriving DecidableEq, Repr

/-- Modelled from the spec: the type `vmx.NVMEDevice` of package `govmx`,
which embeds a `Device`. -/
structure NVMEDevice where
  device : Device
  deriving DecidableEq, Repr

/-- The type `VMXFile`, without its field `Ethernet`. -/
structure VMXFile where
  ParentPath : String
  Name : String
  Numvcpus : Int
  MemSize : Int
  GuestOS : String
  Firmware : String
  IDEDevices : List IDEDevice
  SCSIDevices : List SCSIDevice
  SATADevices : List SATADevice
  NVMEDevices : List NVMEDevice
  deriving Repr

/-- The local file system and the path library: `stat` is the result of
`osStatWithContext` for a path, the size reported by `os.Stat` or the error
of the stat or of its deadline, taken not to change during one call; `join`
is `filepath.Join`, `base` is `filepath.Base` and `quote` is the `%q`
rendering of a string. -/
structure LocalFS where
  stat : String → Except GoError Int
  join : String → String → String
  base : String → String
  quote : String → String

/-- The function `common.IsExists`. -/
def LocalFS.IsExists (fs : LocalFS) (p : String) : Bool :=
  match fs.stat p with
  | .ok _ => true
  | .error _ => false

/-- The function `common.GetSize`: the size converted to `uint64`. -/
def LocalFS.GetSize (fs : LocalFS) (p : String) : Except GoError Nat :=
  match fs.stat p with
  | .error err => .error err
  | .ok size => .ok (size % 2 ^ 64).toNat

/-- The function `getDiskSizeGiB`. -/
def getDiskSizeGiB (fs : LocalFS) (path : String) : Except GoError Int :=
  match fs.GetSize path with
  | .error err => .error (.wrap ("failed to get size of file " ++ fs.quote path ++ ": ") err)
  | .ok size => .ok ((size / 1024 / 1024 / 1024 : Nat) : Int)

/-- The function `strings.Replace(s, old, new, 1)` on the bytes of `s`. -/
def replaceFirst (old new : List Char) : List Char → List Char
  | [] => if old = [] then new else []
  | c :: rest =>
    if old.isPrefixOf (c :: rest) then new ++ (c :: rest).drop old.length
    else c :: replaceFirst old new rest

/-- The function `strings.TrimSuffix`. -/
def stringsTrimSuffix (s suffix : String) : String :=
  if suffix.data.isSuffixOf s.data then
    String.mk (s.data.take (s.data.length - suffix.data.length))
  else s

/-- The slice `devices` of `GetDisksFromVMX`: the devices of the IDE
controllers, of the SATA controllers except those of type `cdrom-image`, of
the SCSI controllers of type `scsi-hardDisk`, and of the NVMe controllers. -/
def candidateDevices (v : VMXFile) : List Device :=
  v.IDEDevices.map (fun ide => ide.device) ++
  (v.SATADevices.filter (fun sata => !(sata.type == "cdrom-image"))).map (fun sata => sata.device) ++
  (v.SCSIDevices.filter (fun scsi => scsi.type == "scsi-hardDisk")).map (fun scsi => scsi.device) ++
  v.NVMEDevices.map (fun nvme => nvme.device)

/-- The size computed by `GetDisksFromVMX` for the disk at `fullPath`: that of
the file itself, or of its `-flat` companion when that exists. -/
def deviceSize (fs : LocalFS) (fullPath : String) : Except GoError Int :=
  match getDiskSizeGiB fs fullPath with
  | .error err => .error err
  | .ok size =>
    let flatPath := String.mk (replaceFirst ".vmdk".data "-flat.vmdk".data fullPath.data)
    if fs.IsExists flatPath then
      match getDiskSizeGiB fs flatPath with
      | .error err => .error err
      | .ok flatSize => .ok flatSize
    else .ok size

/-- The loop of `GetDisksFromVMX` over `devices`, from the values of `primary`
and `additional` and the lines logged so far. -/
def scanDevices (fs : LocalFS) (v : VMXFile) (originVMName : String) :
    List Device → Disk → List Disk → List String →
      Except GoError (Disk × List Disk) × List String
  | [], primary, additional, logs => (.ok (primary, additional), logs)
  | dev :: rest, primary, additional, logs =>
    if dev.Filename = "" then scanDevices fs v originVMName rest primary additional logs
    else
      let fullPath := fs.join v.ParentPath dev.Filename
      if !fs.IsExists fullPath then
        scanDevices fs v originVMName rest primary additional logs
      else if stringsContains dev.Filename "-0" then
        (.error (.other ("disk filename " ++ fs.quote dev.Filename ++
          " looks like has a snapshot")), logs)
      else
        match deviceSize fs fullPath with
        | .error err => (.error err, logs)
        | .ok size =>
          let disk : Disk :=
            { Name := fullPath, DiskOfferID := 0, Size := size, SourcePath := fullPath,
              DestinationPath := "" }
          let logs := logs ++ [stringsTrimSuffix dev.Filename ".vmdk" ++ " " ++ originVMName]
          if stringsTrimSuffix dev.Filename ".vmdk" = originVMName then
            scanDevices fs v originVMName rest disk additional logs
          else
            scanDevices fs v originVMName rest primary (additional ++ [disk]) logs

/-- The function `GetDisksFromVMX`: what it returns and the lines it logs. -/
def GetDisksFromVMX (fs : LocalFS) (v : VMXFile) :
    Except GoError (Disk × List Disk) × List String :=
  match scanDevices fs v (fs.base v.ParentPath) (candidateDevices v) Disk.zero [] [] with
  | (.error err, logs) => (.error err, logs)
  | (.ok (primary, additional), logs) =>
    if primary.SourcePath = "" then (.error (.other "primary disk not found"), logs)
    else (.ok (primary, additional), logs)

/-- A local file system holding the directory `/vms/vm1` with the disk
`vm1.vmdk` of 3 GiB, the disk `data.vmdk`, a descriptor of 1 KiB whose
companion `data-flat.vmdk` has 5 GiB, and the snapshot disk `vm1-000001.vmdk`
of 1 GiB. -/
def sampleLocalFS : LocalFS where
  stat := fun p =>
    if p = "/vms/vm1/vm1.vmdk" then .ok (3 * 1024 * 1024 * 1024)
    else if p = "/vms/vm1/data.vmdk" then .ok 1024
    else if p = "/vms/vm1/data-flat.vmdk" then .ok (5 * 1024 * 1024 * 1024)
    else if p = "/vms/vm1/vm1-000001.vmdk" then .ok (1024 * 1024 * 1024)
    else .error .notExist
  join := hostJoin
  base := baseName
  quote := hostQuote

/-- A descriptor in `/vms/vm1` with the SCSI disks `data.vmdk` and `vm1.vmdk`
and a SATA CD-ROM. -/
def sampleVMX : VMXFile where
  ParentPath := "/vms/vm1"
  Name := "vm1"
  Numvcpus := 2
  MemSize := 2048
  GuestOS := "debian12-64"
  Firmware := "bios"
  IDEDevices := []
  SCSIDevices := [⟨"scsi-hardDisk", ⟨"data.vmdk"⟩⟩, ⟨"scsi-hardDisk", ⟨"vm1.vmdk"⟩⟩]
  SATADevices := [⟨"cdrom-image", ⟨"boot.iso"⟩⟩]
  NVMEDevices := []

/-- The sample descriptor with a further SCSI disk that is a snapshot. -/
def snapshotVMX : VMXFile :=
  { sampleVMX with
    SCSIDevices := [⟨"scsi-hardDisk", ⟨"vm1.vmdk"⟩⟩, ⟨"scsi-hardDisk", ⟨"vm1-000001.vmdk"⟩⟩] }

/-- Settings with every default set. -/
def sampleSettings : ImportSettings where
  SourceIP := "10.0.0.1"
  APIURL := "https://solus.test/api/v1/"
  APIToken := "token"
  Defaults :=
    { GuestOSToOSImageVersionID := fun os => if os = "debian12-64" then some 7 else none
      UserID := 1
      ProjectID := 1
      ComputeResourceID := 1
      LocationID := 1
      SSHKeys := []
      AdditionalDiskOfferID := 4 }

/-- A server with the guest OS `debian12-64`, its own compute resource 9 and
one additional disk of 5 GiB. -/
def sampleServer : VirtualServer where
  VMXFilePath := "/vms/vm1/vm1.vmx"
  VirtualServerID := 0
  VirtualServerUUID := ""
  OriginDir := "/vms/vm1"
  OriginName := "vm1"
  Hostname := "vm1"
  ComputeResourceID := 9
  GuestOS := "debian12-64"
  PrimaryDiskSourcePath := "/vms/vm1/vm1.vmdk"
  PrimaryDiskDestinationPath := ""
  AdditionalDisks :=
    [{ Name := "/vms/vm1/data.vmdk", DiskOfferID := 0, Size := 5,
       SourcePath := "/vms/vm1/data.vmdk", DestinationPath := "" }]
  PrimaryIP := none
  AdditionalIPv4 := none
  Password := ""
  SSHKeys := []
  MacAddress := none
  Firmware := some "bios"

/-- A valid plan. -/
def samplePlan : ImportPlan :=
  { Settings := sampleSettings, VirtualServers := [sampleServer] }

/-- Whether the loop of `GetDisksFromVMX` considers a device: its file name is
not empty and the file exists in the directory of the descriptor. -/
def isConsidered (fs : LocalFS) (v : VMXFile) (dev : Device) : Bool :=
  !(dev.Filename == "") && fs.IsExists (fs.join v.ParentPath dev.Filename)

/-- Whether the file name of a device without the suffix `.vmdk` is the base
name of the directory of the descriptor. -/
def isPrimaryName (fs : LocalFS) (v : VMXFile) (dev : Device) : Bool :=
  stringsTrimSuffix dev.Filename ".vmdk" == fs.base v.ParentPath

/-- The disk `GetDisksFromVMX` builds for a device whose size can be read. -/
def diskOf (fs : LocalFS) (v : VMXFile) (dev : Device) : Disk :=
  { Name := fs.join v.ParentPath dev.Filename
    DiskOfferID := 0
    Size :=
      match deviceSize fs (fs.join v.ParentPath dev.Filename) with
      | .ok size => size
      | .error _ => 0
    SourcePath := fs.join v.ParentPath dev.Filename
    DestinationPath := "" }

/-! # Theorems -/

section EnsureIsConnected

variable {σ : Type} (ops : Remote σ)

theorem dials_append (a b : List Call) : dials (a ++ b) = dials a + dials b := by
  simp [dials]

theorem connect_trace (c : Connection) (w : Sys σ) :
    ∃ post, (connect ops c w).2.trace =
        w.trace ++ [Call.dial c.credentials.host c.credentials.port c.credentials.login
          c.credentials.key] ++ post ∧ dials post = 0 := by
  unfold connect dialSSH call
  cases h1 : (ops.dial c.credentials.host c.credentials.port c.credentials.login
      c.credentials.key w.env).1 with
  | error e => exact ⟨[], by simp, rfl⟩
  | ok s =>
    cases h2 : (ops.newClient s (ops.dial c.credentials.host c.credentials.port
        c.credentials.login c.credentials.key w.env).2).1 with
    | error e => exact ⟨[Call.newClient s], by simp [h2], rfl⟩
    | ok f => exact ⟨[Call.newClient s], by simp [h2], rfl⟩

theorem closeWrapperConnection_trace (c : Connection) (w : Sys σ) (client : Handle)
    (hc : c.sftpClient = some client) :
    ∃ pre, (closeWrapperConnection ops c w).trace = w.trace ++ pre ∧
      Call.closeClient client ∈ pre ∧ dials pre = 0 := by
  unfold closeWrapperConnection Connection.Close closeWrapperLog call record
  rw [hc]
  cases h1 : (ops.closeClient client w.env).1 with
  | none => exact ⟨[Call.closeClient client], by simp [h1], by simp, rfl⟩
  | some e =>
    by_cases hl : errorsIs e .eof = false ∧ errorsIs e .closed = false
    · exact ⟨[Call.closeClient client, Call.logCloseFailed e], by simp [h1, hl], by simp, rfl⟩
    · exact ⟨[Call.closeClient client], by simp [h1, hl], by simp, rfl⟩

theorem ensureIsConnected_lost_unfold (c : Connection) (w : Sys σ) (client : Handle)
    (e : GoError) (hc : c.sftpClient = some client)
    (hp : (ops.getwd client w.env).1 = some e) (hl : errorsIs e .connectionLost = true) :
    ensureIsConnected ops c w =
      match connect ops c (closeWrapperConnection ops c
          (call (.getwd client) (ops.getwd client) w).2) with
      | (.error err, w3) =>
        (.err (.wrap "reconnect after connection loss: " err),
          { c with sshClient := none, sftpClient := none }, w3)
      | (.ok (sshClient, sftpClient), w3) =>
        (.ok (), { c with sshClient := some sshClient, sftpClient := some sftpClient }, w3) := by
  have hcall : call (.getwd client) (ops.getwd client) w
      = (some e, (call (.getwd client) (ops.getwd client) w).2) := by
    simp [call, hp]
  unfold ensureIsConnected
  rw [hc]
  simp only []
  rw [hcall]
  simp [hl]

theorem ensureIsConnected_reconnect_trace (c : Connection) (w : Sys σ) (client : Handle)
    (e : GoError) (hc : c.sftpClient = some client)
    (hp : (ops.getwd client w.env).1 = some e) (hl : errorsIs e .connectionLost = true) :
    ∃ pre post,
        (ensureIsConnected ops c w).2.2.trace
          = w.trace ++ pre ++ [Call.dial c.credentials.host c.credentials.port
              c.credentials.login c.credentials.key] ++ post ∧
        Call.closeClient client ∈ pre ∧ dials pre = 0 ∧ dials post = 0 := by
  obtain ⟨pre, hpre, hmem, hd⟩ := closeWrapperConnection_trace ops c
    (call (.getwd client) (ops.getwd client) w).2 client hc
  obtain ⟨post, hpost, hd2⟩ := connect_trace ops c
    (closeWrapperConnection ops c (call (.getwd client) (ops.getwd client) w).2)
  refine ⟨Call.getwd client :: pre, post, ?_, by simp [hmem], ?_, hd2⟩
  · have : (ensureIsConnected ops c w).2.2.trace
        = (connect ops c (closeWrapperConnection ops c
            (call (.getwd client) (ops.getwd client) w).2)).2.trace := by
      rw [ensureIsConnected_lost_unfold ops c w client e hc hp hl]
      rcases hcn : connect ops c (closeWrapperConnection ops c
          (call (.getwd client) (ops.getwd client) w).2) with ⟨r, w3⟩
      cases r with
      | error err => rfl
      | ok v => rfl
    rw [this, hpost, hpre]
    simp [call]
  · have : dials (Call.getwd client :: pre) = dials [Call.getwd client] + dials pre :=
      dials_append [Call.getwd client] pre
    rw [this, hd]
    rfl

/-- C1: when the liveness probe fails with the session-lost error,
`ensureIsConnected` closes the stale session and calls `connect` once: if that
call succeeds the new handles are installed and nil is returned; if it fails,
the error returned wraps the connect failure; and in either case the calls
added to the trace hold exactly one `ssh.Dial`, made after the close. -/
theorem ensureIsConnected_session_lost (c : Connection) (w : Sys σ) (client : Handle)
    (e : GoError) (hc : c.sftpClient = some client)
    (hp : (ops.getwd client w.env).1 = some e) (hl : errorsIs e .connectionLost = true) :
    (∀ s f w3,
        connect ops c (closeWrapperConnection ops c (call (.getwd client) (ops.getwd client) w).2)
          = (.ok (s, f), w3) →
        ensureIsConnected ops c w
          = (.ok (), { c with sshClient := some s, sftpClient := some f }, w3)) ∧
    (∀ err w3,
        connect ops c (closeWrapperConnection ops c (call (.getwd client) (ops.getwd client) w).2)
          = (.error err, w3) →
        ensureIsConnected ops c w
          = (.err (.wrap "reconnect after connection loss: " err),
              { c with sshClient := none, sftpClient := none }, w3)) ∧
    (∃ pre post,
        (ensureIsConnected ops c w).2.2.trace
          = w.trace ++ pre ++ [Call.dial c.credentials.host c.credentials.port
              c.credentials.login c.credentials.key] ++ post ∧
        Call.closeClient client ∈ pre ∧ dials pre = 0 ∧ dials post = 0) := by
  refine ⟨?_, ?_, ensureIsConnected_reconnect_trace ops c w client e hc hp hl⟩
  · intro s f w3 h
    rw [ensureIsConnected_lost_unfold ops c w client e hc hp hl, h]
  · intro err w3 h
    rw [ensureIsConnected_lost_unfold ops c w client e hc hp hl, h]

theorem ensureIsConnected_session_lost_witness :
    sampleConnection.sftpClient = some 2 ∧
    (hostOps.getwd 2 lostHost).1 = some .connectionLost ∧
    errorsIs .connectionLost .connectionLost = true ∧
    ∃ pre post,
      (ensureIsConnected hostOps sampleConnection ⟨lostHost, []⟩).2.2.trace
        = [] ++ pre ++ [Call.dial "node" 22 "root" "k"] ++ post ∧
      Call.closeClient 2 ∈ pre ∧ dials pre = 0 ∧ dials post = 0 :=
  ⟨rfl, rfl, rfl,
    (ensureIsConnected_session_lost hostOps sampleConnection ⟨lostHost, []⟩ 2 .connectionLost
      rfl rfl rfl).2.2⟩

/-- C2: a reconnect is attempted exactly when the liveness probe fails with
the session-lost error.  When the probe succeeds `ensureIsConnected` returns
nil; when it fails with another error that error is returned unchanged; in
both cases the probe is the only call made and the connection's handles are
left as they were. -/
theorem ensureIsConnected_no_reconnect (c : Connection) (w : Sys σ) (client : Handle)
    (hc : c.sftpClient = some client) :
    ((ops.getwd client w.env).1 = none →
      ensureIsConnected ops c w
        = (.ok (), c, { env := (ops.getwd client w.env).2,
                        trace := w.trace ++ [Call.getwd client] })) ∧
    (∀ e, (ops.getwd client w.env).1 = some e → errorsIs e .connectionLost = false →
      ensureIsConnected ops c w
        = (.err e, c, { env := (ops.getwd client w.env).2,
                        trace := w.trace ++ [Call.getwd client] })) ∧
    (dials (ensureIsConnected ops c w).2.2.trace = dials w.trace + 1 ↔
      ∃ e, (ops.getwd client w.env).1 = some e ∧ errorsIs e .connectionLost = true) := by
  have hok : (ops.getwd client w.env).1 = none →
      ensureIsConnected ops c w
        = (.ok (), c, { env := (ops.getwd client w.env).2,
                        trace := w.trace ++ [Call.getwd client] }) := by
    intro h
    unfold ensureIsConnected
    rw [hc]
    simp [call, h]
  have herr : ∀ e, (ops.getwd client w.env).1 = some e → errorsIs e .connectionLost = false →
      ensureIsConnected ops c w
        = (.err e, c, { env := (ops.getwd client w.env).2,
                        trace := w.trace ++ [Call.getwd client] }) := by
    intro e h hl
    unfold ensureIsConnected
    rw [hc]
    simp [call, h, hl]
  refine ⟨hok, herr, ?_⟩
  constructor
  · intro hd
    cases h : (ops.getwd client w.env).1 with
    | none =>
      rw [hok h] at hd
      simp [dials_append, dials, Call.isDial] at hd
    | some e =>
      cases hl : errorsIs e .connectionLost with
      | true => exact ⟨e, rfl, hl⟩
      | false =>
        rw [herr e h hl] at hd
        simp [dials_append, dials, Call.isDial] at hd
  · rintro ⟨e, h, hl⟩
    obtain ⟨pre, post, ht, -, hpre, hpost⟩ :=
      (ensureIsConnected_reconnect_trace ops c w client e hc h hl)
    rw [ht]
    simp only [dials_append, hpre, hpost]
    rfl

theorem ensureIsConnected_no_reconnect_witness :
    sampleConnection.sftpClient = some 2 ∧
    (hostOps.getwd 2 sampleHost).1 = none ∧
    ensureIsConnected hostOps sampleConnection ⟨sampleHost, []⟩
      = (.ok (), sampleConnection,
          { env := (hostOps.getwd 2 sampleHost).2, trace := [] ++ [Call.getwd 2] }) :=
  ⟨rfl, rfl, (ensureIsConnected_no_reconnect hostOps sampleConnection ⟨sampleHost, []⟩ 2 rfl).1 rfl⟩

end EnsureIsConnected

section Exec

theorem stringsContains_mid (a b c : String) : stringsContains (a ++ b ++ c) b = true := by
  simp only [stringsContains, String.data_append, decide_eq_true_eq]
  exact List.infix_append a.data b.data c.data

theorem stringsContains_of_mem (s sub : String) (ch : Char) (h : ch ∈ sub.data)
    (hn : ch ∉ s.data) : stringsContains s sub = false := by
  simp only [stringsContains, decide_eq_false_iff_not]
  intro hi
  exact hn (hi.subset h)

theorem toDigitsCore_ne_g (fuel : Nat) : ∀ (n : Nat) (ds : List Char),
    'g' ∉ ds → 'g' ∉ Nat.toDigitsCore 10 fuel n ds := by
  induction fuel with
  | zero => intro n ds h; simpa [Nat.toDigitsCore] using h
  | succ fuel ih =>
    intro n ds h
    have hd : Nat.digitChar (n % 10) ≠ 'g' := by
      have : ∀ d, d < 10 → Nat.digitChar d ≠ 'g' := by decide
      exact this _ (Nat.mod_lt _ (by decide))
    have h2 : 'g' ∉ Nat.digitChar (n % 10) :: ds := by
      intro hm
      rcases List.mem_cons.1 hm with h3 | h3
      · exact hd h3.symm
      · exact h h3
    unfold Nat.toDigitsCore
    by_cases h0 : n / 10 = 0
    · simpa [h0] using h2
    · simp only [h0, if_false]
      exact ih _ _ h2

theorem exitStatus_not_killed (k : Nat) :
    stringsContains ("exit status " ++ toString k) "signal: killed" = false := by
  apply stringsContains_of_mem _ _ 'g' (by decide)
  rw [String.data_append]
  intro hm
  rcases List.mem_append.1 hm with h | h
  · revert h; decide
  · exact toDigitsCore_ne_g _ _ _ (by simp) h

theorem isValidExitCode_exit (k : Int) (msg : String) (codes : List Int) :
    isValidExitCode (.exitError k msg) codes = decide (k ∈ codes) := by
  cases codes with
  | nil => simp [isValidExitCode, asExitError]
  | cons a l =>
    simp only [isValidExitCode, asExitError, List.length_cons, Nat.succ_ne_zero, if_false]
    rw [Bool.eq_iff_iff]
    simp only [List.any_eq_true, beq_iff_eq, decide_eq_true_eq]
    constructor
    · rintro ⟨x, hx, rfl⟩
      exact hx
    · intro h
      exact ⟨k, h, rfl⟩

theorem execBody_exit (c : StdCommandBuilder) (p : Process) (logs : List String)
    (e : GoError) (h1 : p.stdoutPipeErr = none) (h2 : p.stderrPipeErr = none)
    (h3 : p.startErr = none) (hw : p.waitErr = some e)
    (hk : stringsContains e.Error "signal: killed" = false) :
    (execBody c p logs).err =
      if isValidExitCode e c.ignoreExitCodes then none
      else some (.wrap ("failed to execute " ++ cmdString c ++ " stdout " ++
        fmtStrings (capture c p (cmdString c) logs).combinedOutput ++ ": ") e) := by
  unfold execBody
  simp only [h1, h2, h3, hw, hk, Bool.false_eq_true, if_false]
  split <;> rfl

theorem infix_intercalate_go (sep : String) : ∀ (as : List String) (acc : String) (x : List Char),
    (x <:+: acc.data ∨ ∃ a ∈ as, x <:+: a.data) →
      x <:+: (String.intercalate.go acc sep as).data := by
  intro as
  induction as with
  | nil =>
    intro acc x h
    rcases h with h | ⟨a, ha, -⟩
    · exact h
    · cases ha
  | cons a as ih =>
    intro acc x h
    show x <:+: (String.intercalate.go (acc ++ sep ++ a) sep as).data
    apply ih
    rcases h with h | ⟨b, hb, hx⟩
    · left
      rw [String.data_append, String.data_append, List.append_assoc]
      exact h.trans (List.prefix_append _ _).isInfix
    · rcases List.mem_cons.1 hb with rfl | hb
      · left
        rw [String.data_append]
        exact hx.trans (List.suffix_append _ _).isInfix
      · right
        exact ⟨b, hb, hx⟩

theorem infix_intercalate (sep : String) (l : List String) (a : String) (h : a ∈ l) :
    a.data <:+: (sep.intercalate l).data := by
  cases l with
  | nil => cases h
  | cons b bs =>
    show a.data <:+: (String.intercalate.go b sep bs).data
    apply infix_intercalate_go
    rcases List.mem_cons.1 h with rfl | h
    · left
      exact List.infix_refl _
    · right
      exact ⟨a, h, List.infix_refl _⟩

theorem stepStdout_idle (c : StdCommandBuilder) (p : Process) (cmd : String) :
    ∀ (n : Nat) (s : Capture), s.out.pending = [] →
      ((stepStdout c p cmd)^[n] s).combinedOutput = s.combinedOutput ∧
      ((stepStdout c p cmd)^[n] s).err = s.err := by
  intro n
  induction n with
  | zero => intro s _; exact ⟨rfl, rfl⟩
  | succ n ih =>
    intro s h
    rw [Function.iterate_succ_apply]
    have hs : (stepStdout c p cmd s).out.pending = [] ∧
        (stepStdout c p cmd s).combinedOutput = s.combinedOutput ∧
        (stepStdout c p cmd s).err = s.err := by
      simp only [stepStdout, h]
      split <;> simp [h]
    obtain ⟨g1, g2, g3⟩ := hs
    obtain ⟨i1, i2⟩ := ih _ g1
    exact ⟨i1.trans g2, i2.trans g3⟩

theorem stepStdout_serial (c : StdCommandBuilder) (p : Process) (cmd : String) :
    ∀ (pending : List (List Char)) (s : Capture) (n : Nat),
      s.out.pending = pending → s.out.held = none →
      ((stepStdout c p cmd)^[2 * pending.length + n] s).combinedOutput
        = s.combinedOutput ++ pending.map String.mk ∧
      ((stepStdout c p cmd)^[2 * pending.length + n] s).err = s.err := by
  intro pending
  induction pending with
  | nil =>
    intro s n hp _
    simpa using stepStdout_idle c p cmd n s hp
  | cons line rest ih =>
    intro s n hp hh
    have hn : 2 * (line :: rest).length + n = (2 * rest.length + n) + 1 + 1 := by
      simp only [List.length_cons]
      omega
    rw [hn, Function.iterate_succ_apply, Function.iterate_succ_apply]
    have hs : (stepStdout c p cmd (stepStdout c p cmd s)).out.pending = rest ∧
        (stepStdout c p cmd (stepStdout c p cmd s)).out.held = none ∧
        (stepStdout c p cmd (stepStdout c p cmd s)).combinedOutput
          = s.combinedOutput ++ [String.mk line] ∧
        (stepStdout c p cmd (stepStdout c p cmd s)).err = s.err := by
      simp [stepStdout, hp, hh]
    obtain ⟨g1, g2, g3, g4⟩ := hs
    obtain ⟨i1, i2⟩ := ih _ n g1 g2
    refine ⟨?_, i2.trans g4⟩
    rw [i1, g3]
    simp

theorem stepStderr_idle (c : StdCommandBuilder) (p : Process) (cmd : String) :
    ∀ (n : Nat) (s : Capture), s.err.pending = [] →
      ((stepStderr c p cmd)^[n] s).combinedOutput = s.combinedOutput := by
  intro n
  induction n with
  | zero => intro s _; rfl
  | succ n ih =>
    intro s h
    rw [Function.iterate_succ_apply]
    have hs : (stepStderr c p cmd s).err.pending = [] ∧
        (stepStderr c p cmd s).combinedOutput = s.combinedOutput := by
      simp only [stepStderr, h]
      split <;> simp [h]
    obtain ⟨g1, g2⟩ := hs
    exact (ih _ g1).trans g2

theorem stepStderr_serial (c : StdCommandBuilder) (p : Process) (cmd : String) :
    ∀ (pending : List (List Char)) (s : Capture) (n : Nat),
      s.err.pending = pending → s.err.held = none →
      ((stepStderr c p cmd)^[2 * pending.length + n] s).combinedOutput
        = s.combinedOutput ++ pending.map String.mk := by
  intro pending
  induction pending with
  | nil =>
    intro s n hp _
    simpa using stepStderr_idle c p cmd n s hp
  | cons line rest ih =>
    intro s n hp hh
    have hn : 2 * (line :: rest).length + n = (2 * rest.length + n) + 1 + 1 := by
      simp only [List.length_cons]
      omega
    rw [hn, Function.iterate_succ_apply, Function.iterate_succ_apply]
    have hs : (stepStderr c p cmd (stepStderr c p cmd s)).err.pending = rest ∧
        (stepStderr c p cmd (stepStderr c p cmd s)).err.held = none ∧
        (stepStderr c p cmd (stepStderr c p cmd s)).combinedOutput
          = s.combinedOutput ++ [String.mk line] := by
      simp [stepStderr, hp, hh]
    obtain ⟨g1, g2, g3⟩ := hs
    rw [ih _ n g1 g2, g3]
    simp

theorem capture_serial (c : StdCommandBuilder) (p : Process) (cmd : String)
    (logs : List String) (hs : p.schedule = []) :
    (capture c p cmd logs).combinedOutput
      = (scanLines p.stdout ++ scanLines p.stderr).map String.mk := by
  unfold capture
  rw [hs]
  simp only [List.foldl_nil]
  obtain ⟨o1, o2⟩ := stepStdout_serial c p cmd (captureInit p logs).out.pending
    (captureInit p logs) 1 rfl rfl
  have e1 : ((stepStdout c p cmd)^[2 * (captureInit p logs).out.pending.length + 1]
      (captureInit p logs)).err.held = none := by
    rw [o2]
    rfl
  rw [stepStderr_serial c p cmd _ _ 1 rfl e1, o1, o2]
  simp [captureInit]

/-- C3: for a process that exits on its own with a non-zero status `k`, `Exec`
returns nil when `k` is one of the declared acceptable codes, whatever the
state of the context; otherwise it returns an error that wraps the process
exit error and whose text is `failed to execute`, the command, a space, the
arguments joined by spaces, ` stdout [`, the lines of the capture buffer in
buffer order joined by spaces, `]: ` and the text of the exit error.  So the
text holds the command, every argument and every line of the buffer; when the
two reader tasks run one after the other the buffer is the lines of stdout
followed by the lines of stderr. -/
theorem Exec_exit_status (c : StdCommandBuilder) (p : Process) (k : Nat) (_hk : k ≠ 0)
    (h1 : p.stdoutPipeErr = none) (h2 : p.stderrPipeErr = none) (h3 : p.startErr = none)
    (hw : p.waitErr = some (exitStatusError k)) :
    ((k : Int) ∈ c.ignoreExitCodes → (Exec c p).err = none) ∧
    ((k : Int) ∉ c.ignoreExitCodes →
      ∃ e, (Exec c p).err = some e ∧
        e = .wrap ("failed to execute " ++ cmdString c ++ " stdout " ++
              fmtStrings (capture c p (cmdString c) (startLogs c)).combinedOutput ++ ": ")
            (exitStatusError k) ∧
        asExitError e = some ((k : Int), "exit status " ++ toString k) ∧
        stringsContains e.Error (cmdString c) = true ∧
        stringsContains e.Error
          (fmtStrings (capture c p (cmdString c) (startLogs c)).combinedOutput) = true ∧
        e.unwrap = some (.exitError (k : Int) ("exit status " ++ toString k)) ∧
        e.Error = "failed to execute " ++ (c.command ++ (" " ++ (" ".intercalate c.args ++
          (" stdout " ++ ("[" ++ (" ".intercalate
            (capture c p (cmdString c) (startLogs c)).combinedOutput ++
          ("]" ++ (": " ++ ("exit status " ++ toString k)))))))))  ∧
        c.command.data <:+: e.Error.data ∧
        (∀ a ∈ c.args, a.data <:+: e.Error.data) ∧
        (∀ l ∈ (capture c p (cmdString c) (startLogs c)).combinedOutput,
          l.data <:+: e.Error.data) ∧
        (p.schedule = [] →
          (capture c p (cmdString c) (startLogs c)).combinedOutput
            = (scanLines p.stdout ++ scanLines p.stderr).map String.mk)) := by
  have hb := execBody_exit c p (startLogs c) (exitStatusError k) h1 h2 h3 hw
    (exitStatus_not_killed k)
  have hE : (Exec c p).err = (execBody c p (startLogs c)).err := rfl
  rw [exitStatusError, isValidExitCode_exit] at hb
  constructor
  · intro hm
    rw [hE, hb]
    simp [hm]
  · intro hm
    have htext : (GoError.wrap ("failed to execute " ++ cmdString c ++ " stdout " ++
            fmtStrings (capture c p (cmdString c) (startLogs c)).combinedOutput ++ ": ")
          (exitStatusError k)).Error
        = "failed to execute " ++ (c.command ++ (" " ++ (" ".intercalate c.args ++
          (" stdout " ++ ("[" ++ (" ".intercalate
            (capture c p (cmdString c) (startLogs c)).combinedOutput ++
          ("]" ++ (": " ++ ("exit status " ++ toString k))))))))) := by
      simp only [GoError.Error, exitStatusError, cmdString, fmtStrings, stringsJoin,
        String.append_assoc]
    refine ⟨_, by rw [hE, hb]; simp [hm]; rfl, rfl, rfl, ?_, ?_, rfl, htext, ?_, ?_, ?_, ?_⟩
    · have : (GoError.wrap ("failed to execute " ++ cmdString c ++ " stdout " ++
              fmtStrings (capture c p (cmdString c) (startLogs c)).combinedOutput ++ ": ")
            (exitStatusError k)).Error
          = "failed to execute " ++ cmdString c ++ (" stdout " ++
              fmtStrings (capture c p (cmdString c) (startLogs c)).combinedOutput ++ ": " ++
              (exitStatusError k).Error) := by
        simp [GoError.Error, String.append_assoc]
      rw [this]
      exact stringsContains_mid _ _ _
    · have : (GoError.wrap ("failed to execute " ++ cmdString c ++ " stdout " ++
              fmtStrings (capture c p (cmdString c) (startLogs c)).combinedOutput ++ ": ")
            (exitStatusError k)).Error
          = ("failed to execute " ++ cmdString c ++ " stdout ") ++
              fmtStrings (capture c p (cmdString c) (startLogs c)).combinedOutput ++ (": " ++
              (exitStatusError k).Error) := by
        simp [GoError.Error, String.append_assoc]
      rw [this]
      exact stringsContains_mid _ _ _
    · rw [htext]
      simp only [String.data_append]
      exact List.infix_append' _ _ _
    · intro a ha
      rw [htext]
      simp only [String.data_append]
      refine (infix_intercalate " " c.args a ha).trans ?_
      rw [← List.append_assoc, ← List.append_assoc]
      exact List.infix_append' _ _ _
    · intro l hl
      rw [htext]
      simp only [String.data_append]
      refine (infix_intercalate " " _ l hl).trans ?_
      rw [← List.append_assoc, ← List.append_assoc, ← List.append_assoc, ← List.append_assoc,
        ← List.append_assoc]
      exact List.infix_append' _ _ _
    · exact capture_serial c p (cmdString c) (startLogs c)

end Exec

section ExecMore

theorem Exec_exit_status_witness :
    (3 : Nat) ≠ 0 ∧ sampleProcess.stdoutPipeErr = none ∧ sampleProcess.stderrPipeErr = none ∧
    sampleProcess.startErr = none ∧ sampleProcess.waitErr = some (exitStatusError 3) ∧
    ((3 : Nat) : Int) ∉ sampleBuilder.ignoreExitCodes ∧
    sampleBuilder.command = "sh" ∧ sampleBuilder.args = ["-c", "job"] ∧
    sampleProcess.schedule = [] ∧
    (scanLines sampleProcess.stdout ++ scanLines sampleProcess.stderr).map String.mk
      = ["A", "B", "C"] ∧
    ∃ e, (Exec sampleBuilder sampleProcess).err = some e ∧
      asExitError e = some (((3 : Nat) : Int), "exit status " ++ toString 3) ∧
      e.Error = "failed to execute sh -c job stdout [A B C]: exit status 3" :=
  ⟨by decide, rfl, rfl, rfl, rfl, by decide, rfl, rfl, rfl, by decide,
    match (Exec_exit_status sampleBuilder sampleProcess 3 (by decide) rfl rfl rfl rfl).2
        (by decide) with
    | ⟨e, g1, _, g3, _, _, _, g7, _, _, _, g11⟩ =>
      ⟨e, g1, g3, by rw [g7, g11 rfl]; decide⟩⟩

theorem execBody_killed (c : StdCommandBuilder) (p : Process) (logs : List String)
    (e0 : GoError) (h1 : p.stdoutPipeErr = none) (h2 : p.stderrPipeErr = none)
    (h3 : p.startErr = none) (hw : p.waitErr = some e0)
    (hk : stringsContains e0.Error "signal: killed" = true) :
    (execBody c p logs).err =
      some (.wrap ("failed to execute " ++ cmdString c ++ " stdout " ++
          fmtStrings (capture c p (cmdString c) logs).combinedOutput ++ ": ")
        (.wrap ("original error " ++ e0.Error ++ ": ") .deadlineExceeded)) := by
  unfold execBody
  simp only [h1, h2, h3, hw, hk, if_true]
  have : isValidExitCode (GoError.wrap ("original error " ++ e0.Error ++ ": ")
      GoError.deadlineExceeded) c.ignoreExitCodes = false := by
    simp [isValidExitCode, asExitError]
  rw [this]
  rfl

/-- C4, counterexample: for a process killed by the cancellation signal the
error `Exec` returns does not have the wait error in its chain, and
`errors.As` finds no process exit error in it. -/
theorem Exec_killed_counterexample :
    killedProcess.waitErr = some (.exitError (-1) "signal: killed") ∧
    ¬ ∃ e, (Exec sampleBuilder killedProcess).err = some e ∧
      (errorsIs e (.exitError (-1) "signal: killed") = true ∨ (asExitError e).isSome = true) := by
  refine ⟨rfl, ?_⟩
  rintro ⟨e, he, h⟩
  have hE : (Exec sampleBuilder killedProcess).err
      = (execBody sampleBuilder killedProcess (startLogs sampleBuilder)).err := rfl
  rw [hE, execBody_killed sampleBuilder killedProcess _ (.exitError (-1) "signal: killed")
    rfl rfl rfl rfl (by decide)] at he
  cases he
  simp [errorsIs, asExitError] at h

/-- C4, amended: when the text of the wait error holds `signal: killed`, the
error `Exec` returns has `context.DeadlineExceeded` in its chain and the text
of the wait error in its own text; the wait error itself is not in the chain,
so `errors.As` finds no process exit error. -/
theorem Exec_killed (c : StdCommandBuilder) (p : Process) (e0 : GoError)
    (h1 : p.stdoutPipeErr = none) (h2 : p.stderrPipeErr = none) (h3 : p.startErr = none)
    (hw : p.waitErr = some e0) (hk : stringsContains e0.Error "signal: killed" = true) :
    ∃ e, (Exec c p).err = some e ∧ errorsIs e .deadlineExceeded = true ∧
      asExitError e = none ∧ stringsContains e.Error e0.Error = true := by
  have hE : (Exec c p).err = (execBody c p (startLogs c)).err := rfl
  refine ⟨_, by rw [hE, execBody_killed c p _ e0 h1 h2 h3 hw hk], ?_, ?_, ?_⟩
  · simp [errorsIs]
  · simp [asExitError]
  · have : (GoError.wrap ("failed to execute " ++ cmdString c ++ " stdout " ++
          fmtStrings (capture c p (cmdString c) (startLogs c)).combinedOutput ++ ": ")
        (.wrap ("original error " ++ e0.Error ++ ": ") .deadlineExceeded)).Error
        = ("failed to execute " ++ cmdString c ++ " stdout " ++
          fmtStrings (capture c p (cmdString c) (startLogs c)).combinedOutput ++ ": " ++
          "original error ") ++ e0.Error ++ (": " ++ "context deadline exceeded") := by
      simp only [GoError.Error, String.append_assoc]
    rw [this]
    exact stringsContains_mid _ _ _

theorem Exec_killed_witness :
    killedProcess.stdoutPipeErr = none ∧ killedProcess.stderrPipeErr = none ∧
    killedProcess.startErr = none ∧
    killedProcess.waitErr = some (.exitError (-1) "signal: killed") ∧
    stringsContains (GoError.exitError (-1) "signal: killed").Error "signal: killed" = true ∧
    ∃ e, (Exec sampleBuilder killedProcess).err = some e ∧
      errorsIs e .deadlineExceeded = true ∧ asExitError e = none ∧
      stringsContains e.Error (GoError.exitError (-1) "signal: killed").Error = true :=
  ⟨rfl, rfl, rfl, rfl, by decide,
    Exec_killed sampleBuilder killedProcess (.exitError (-1) "signal: killed") rfl rfl rfl rfl
      (by decide)⟩

end ExecMore

section Sink

theorem rawLines_line (l : List Char) (hl : '\n' ∉ l) : ∀ (cur rest : List Char),
    rawLines cur (l ++ '\n' :: rest) = (cur.reverse ++ l) :: rawLines [] rest := by
  induction l with
  | nil => intro cur rest; simp [rawLines]
  | cons a l ih =>
    intro cur rest
    have ha : a ≠ '\n' := fun h => hl (by simp [h])
    have hl2 : '\n' ∉ l := fun h => hl (by simp [h])
    have hstep : rawLines cur ((a :: l) ++ '\n' :: rest)
        = rawLines (a :: cur) (l ++ '\n' :: rest) := by
      simp [rawLines, ha]
    rw [hstep, ih hl2]
    simp

theorem rawLines_terminated (lines : List (List Char)) (hl : ∀ l ∈ lines, '\n' ∉ l) :
    rawLines [] (lines.flatMap (fun l => l ++ ['\n'])) = lines := by
  induction lines with
  | nil => simp [rawLines]
  | cons l ls ih =>
    have h1 : '\n' ∉ l := hl l (by simp)
    have h2 : ∀ l ∈ ls, '\n' ∉ l := fun x hx => hl x (by simp [hx])
    simp only [List.flatMap_cons, List.append_assoc, List.singleton_append]
    rw [rawLines_line l h1, ih h2]
    simp

theorem scanLines_terminated (lines : List (List Char))
    (hl : ∀ l ∈ lines, '\n' ∉ l ∧ l.length < maxScanTokenSize) :
    scanLines (lines.flatMap (fun l => l ++ ['\n'])) = lines.map dropCR := by
  unfold scanLines
  rw [rawLines_terminated lines (fun l h => (hl l h).1)]
  congr 1
  rw [List.takeWhile_eq_self_iff]
  intro l h
  simpa using (hl l h).2

theorem stepStdout_inv (c : StdCommandBuilder) (p : Process) (cmd : String)
    (hs : c.stdout = true) (lines : List (List Char)) (s : Capture) (h : SinkInv lines s) :
    SinkInv lines (stepStdout c p cmd s) := by
  unfold SinkInv at *
  unfold stepStdout
  split
  · split <;> simpa using h
  · simpa using h
  · rename_i line rest old hp hh
    simp only [hs, if_true]
    rw [← h, hp]
    simp

theorem stepStderr_inv (c : StdCommandBuilder) (p : Process) (cmd : String)
    (lines : List (List Char)) (s : Capture) (h : SinkInv lines s) :
    SinkInv lines (stepStderr c p cmd s) := by
  unfold SinkInv at *
  unfold stepStderr
  split
  · split <;> simpa using h
  · simpa using h
  · simpa using h

theorem stepStderr_out (c : StdCommandBuilder) (p : Process) (cmd : String) (s : Capture) :
    (stepStderr c p cmd s).out = s.out := by
  unfold stepStderr
  split
  · split <;> rfl
  · rfl
  · rfl

theorem iterate_inv {α : Type} (f : α → α) (P : α → Prop) (hf : ∀ a, P a → P (f a)) :
    ∀ (n : Nat) (a : α), P a → P (f^[n] a) := by
  intro n
  induction n with
  | zero => intro a h; exact h
  | succ n ih => intro a h; exact ih (f a) (hf a h)

theorem foldl_inv {α β : Type} (f : α → β → α) (P : α → Prop) (hf : ∀ a b, P a → P (f a b)) :
    ∀ (l : List β) (a : α), P a → P (l.foldl f a) := by
  intro l
  induction l with
  | nil => intro a h; exact h
  | cons b l ih => intro a h; exact ih (f a b) (hf a b h)

theorem stepStdout_drains (c : StdCommandBuilder) (p : Process) (cmd : String) :
    ∀ (n : Nat) (s : Capture), stdoutSteps s ≤ n →
      ((stepStdout c p cmd)^[n] s).out.pending = [] := by
  intro n
  induction n with
  | zero =>
    intro s h
    simp only [Function.iterate_zero, id_eq]
    cases hp : s.out.pending with
    | nil => rfl
    | cons a l =>
      unfold stdoutSteps at h
      rw [hp] at h
      simp only [List.length_cons] at h
      split at h <;> omega
  | succ n ih =>
    intro s h
    rw [Function.iterate_succ_apply]
    apply ih
    unfold stdoutSteps at *
    unfold stepStdout
    split
    · rename_i hp
      split
      · rw [hp]; simp
      · simp [hp]
    · rename_i hp hh
      rw [hp, hh] at h
      simp only [hp, List.length_cons, Option.isSome_some, if_true]
      simp at h
      omega
    · rename_i line rest old hp hh
      rw [hp, hh] at h
      simp at h
      simp
      omega

theorem capture_sink (c : StdCommandBuilder) (p : Process) (cmd : String) (logs : List String)
    (hs : c.stdout = true) : (capture c p cmd logs).sink = scanLines p.stdout := by
  have hinit : SinkInv (scanLines p.stdout) (captureInit p logs) := by
    simp [SinkInv, captureInit]
  have h1 := foldl_inv (stepTask c p cmd) (SinkInv (scanLines p.stdout))
    (fun a b h => by
      cases b with
      | stdoutTask => exact stepStdout_inv c p cmd hs _ a h
      | stderrTask => exact stepStderr_inv c p cmd _ a h)
    p.schedule _ hinit
  have h2 := iterate_inv (stepStdout c p cmd) (SinkInv (scanLines p.stdout))
    (fun a h => stepStdout_inv c p cmd hs _ a h)
    (2 * (p.schedule.foldl (stepTask c p cmd) (captureInit p logs)).out.pending.length + 1) _ h1
  have h2p := stepStdout_drains c p cmd
    (2 * (p.schedule.foldl (stepTask c p cmd) (captureInit p logs)).out.pending.length + 1)
    (p.schedule.foldl (stepTask c p cmd) (captureInit p logs))
    (by unfold stdoutSteps; omega)
  have h3 : ∀ n s, SinkInv (scanLines p.stdout) s ∧ s.out.pending = [] →
      SinkInv (scanLines p.stdout) ((stepStderr c p cmd)^[n] s) ∧
        ((stepStderr c p cmd)^[n] s).out.pending = [] :=
    iterate_inv (stepStderr c p cmd)
      (fun s => SinkInv (scanLines p.stdout) s ∧ s.out.pending = [])
      (fun a h => ⟨stepStderr_inv c p cmd _ a h.1, by rw [stepStderr_out]; exact h.2⟩)
  obtain ⟨h4, h5⟩ := h3 _ _ ⟨h2, h2p⟩
  unfold SinkInv at h4
  rw [h5, List.append_nil] at h4
  exact h4

theorem Exec_sink_eq (c : StdCommandBuilder) (p : Process)
    (h1 : p.stdoutPipeErr = none) (h2 : p.stderrPipeErr = none) (h3 : p.startErr = none) :
    (Exec c p).sink = (capture c p (cmdString c) (startLogs c)).sink := by
  have hE : (Exec c p).sink = (execBody c p (startLogs c)).sink := rfl
  rw [hE]
  unfold execBody
  simp only [h1, h2, h3]
  cases p.waitErr with
  | none => rfl
  | some e =>
    simp only []
    by_cases hk : stringsContains e.Error "signal: killed" = true
    · simp only [hk, if_true]
      split <;> rfl
    · have hk2 : stringsContains e.Error "signal: killed" = false := by simpa using hk
      simp only [hk2, Bool.false_eq_true, if_false]
      split <;> rfl

/-- C5, counterexample: for stdout `A\nB\n` and stderr `C\n` the bytes written
to the sink are `AB`, not the bytes of stdout. -/
theorem Exec_sink_counterexample :
    sampleProcess.stdout = ['A', '\n', 'B', '\n'] ∧ sampleProcess.stderr = ['C', '\n'] ∧
    (Exec sampleBuilder sampleProcess).sink.flatten = ['A', 'B'] ∧
    (Exec sampleBuilder sampleProcess).sink.flatten ≠ sampleProcess.stdout := by
  decide

/-- C5, amended: for a process whose stdout is a sequence of lines that each
end in a newline and fit the scanner's buffer, the writes made on the sink
are, in order, the bytes of each stdout line without its line terminator (and
without a carriage return before it); nothing of stderr is written, whatever
the order in which the two reader tasks run. -/
theorem Exec_sink (c : StdCommandBuilder) (p : Process) (lines : List (List Char))
    (hs : c.stdout = true) (h1 : p.stdoutPipeErr = none) (h2 : p.stderrPipeErr = none)
    (h3 : p.startErr = none)
    (hl : ∀ l ∈ lines, '\n' ∉ l ∧ l.length < maxScanTokenSize)
    (ho : p.stdout = lines.flatMap (fun l => l ++ ['\n'])) :
    (Exec c p).sink = lines.map dropCR := by
  rw [Exec_sink_eq c p h1 h2 h3, capture_sink c p _ _ hs, ho, scanLines_terminated lines hl]

theorem Exec_sink_witness :
    sampleBuilder.stdout = true ∧ sampleProcess.stdoutPipeErr = none ∧
    sampleProcess.stderrPipeErr = none ∧ sampleProcess.startErr = none ∧
    (∀ l ∈ [['A'], ['B']], '\n' ∉ l ∧ l.length < maxScanTokenSize) ∧
    sampleProcess.stdout = [['A'], ['B']].flatMap (fun l => l ++ ['\n']) ∧
    (Exec sampleBuilder sampleProcess).sink = [['A'], ['B']].map dropCR :=
  ⟨rfl, rfl, rfl, rfl, by decide, by decide,
    Exec_sink sampleBuilder sampleProcess [['A'], ['B']] rfl rfl rfl rfl (by decide)
      (by decide)⟩

end Sink

section Transfer

variable {σ : Type} (ops : Remote σ)

/-- C6: when the stat of the destination directory reports an existing entry
that is not a directory, `Upload` returns the not-a-directory error, and the
stat is the last call it makes: the destination file is not created and
nothing is written. -/
theorem Upload_not_a_directory (c c1 : Connection) (ctx : Context) (r : ReaderId)
    (dstPath name : String) (w w1 : Sys σ) (client : Handle) (i : FileInfo)
    (hconn : ensureIsConnected ops c w = (.ok (), c1, w1))
    (hc : c1.sftpClient = some client)
    (hstat : (ops.stat client dstPath w1.env).1 = .ok i) (hdir : i.IsDir = false) :
    Connection.Upload ops c ctx r dstPath name w
      = (.err (.wrap "make sure directory exists: " (.other "not a directory")), c1,
          { env := (ops.stat client dstPath w1.env).2,
            trace := w1.trace ++ [Call.stat client dstPath] }) := by
  unfold Connection.Upload
  rw [hconn]
  simp only []
  unfold makeSureDirectoryExists
  rw [hc]
  simp [call, hstat, hdir]

theorem Upload_not_a_directory_witness :
    ensureIsConnected hostOps sampleConnection ⟨sampleHost, []⟩
      = (.ok (), sampleConnection, ⟨sampleHost, [Call.getwd 2]⟩) ∧
    sampleConnection.sftpClient = some 2 ∧
    (hostOps.stat 2 "/etc" sampleHost).1 = .ok { name := "etc", kind := .regular } ∧
    FileInfo.IsDir { name := "etc", kind := .regular } = false ∧
    Connection.Upload hostOps sampleConnection 0 0 "/etc" "agent" ⟨sampleHost, []⟩
      = (.err (.wrap "make sure directory exists: " (.other "not a directory")),
          sampleConnection,
          { env := (hostOps.stat 2 "/etc" sampleHost).2,
            trace := [Call.getwd 2] ++ [Call.stat 2 "/etc"] }) :=
  ⟨rfl, rfl, rfl, rfl,
    Upload_not_a_directory hostOps sampleConnection sampleConnection 0 0 "/etc" "agent"
      ⟨sampleHost, []⟩ ⟨sampleHost, [Call.getwd 2]⟩ 2 { name := "etc", kind := .regular }
      rfl rfl rfl rfl⟩

theorem closeWrapperLog_trace (r : Option GoError × Sys σ) :
    ∃ tail, (closeWrapperLog r).trace = r.2.trace ++ tail := by
  rcases r with ⟨_ | e, w⟩
  · exact ⟨[], by simp [closeWrapperLog]⟩
  · by_cases hl : errorsIs e .eof = false ∧ errorsIs e .closed = false
    · exact ⟨[Call.logCloseFailed e], by simp [closeWrapperLog, record, hl]⟩
    · exact ⟨[], by simp [closeWrapperLog, hl]⟩

theorem sftpUpload_trace (ctx : Context) (r : ReaderId) (path : String) (c : Connection)
    (w : Sys σ) (client : Handle) (hc : c.sftpClient = some client) :
    ∃ tail, (sftpUpload ops ctx r path c w).2.trace
      = w.trace ++ [Call.create client path] ++ tail := by
  have hnr : newReaderSize 4 (64 * MiB) = none := by decide
  unfold sftpUpload
  rw [hc]
  simp only [hnr]
  cases h : (ops.create client path w.env).1 with
  | error e => exact ⟨[], by simp [call, h]⟩
  | ok fp =>
    simp only [call, h, record, closeWrapperFile]
    obtain ⟨tail, ht⟩ := closeWrapperLog_trace
      ((ops.closeFile fp (ops.readFrom fp r (ops.create client path w.env).2).2).1,
        ({ env := (ops.closeFile fp (ops.readFrom fp r (ops.create client path w.env).2).2).2,
           trace := w.trace ++ [Call.create client path] ++ [Call.goAwaitDone ctx] ++
             [Call.readFrom fp r] ++ [Call.closeFile fp] } : Sys σ))
    rw [ht]
    exact ⟨_, by simp; rfl⟩

/-- C7: when the stat of the destination directory reports that it does not
exist, `Upload` calls `MkdirAll` on it; if that fails `Upload` returns an error
and the destination file is not created; if it succeeds the next call creates
the destination file at the join of the directory and the name. -/
theorem Upload_creates_directory (c c1 : Connection) (ctx : Context) (r : ReaderId)
    (dstPath name : String) (w w1 : Sys σ) (client : Handle) (e : GoError)
    (hconn : ensureIsConnected ops c w = (.ok (), c1, w1))
    (hc : c1.sftpClient = some client)
    (hstat : (ops.stat client dstPath w1.env).1 = .error e)
    (hne : osIsNotExist (some e) = true) :
    (∀ err, (ops.mkdirAll client dstPath (ops.stat client dstPath w1.env).2).1 = some err →
      Connection.Upload ops c ctx r dstPath name w
        = (.err (.wrap "make sure directory exists: " (.wrap "create: " err)), c1,
            { env := (ops.mkdirAll client dstPath (ops.stat client dstPath w1.env).2).2,
              trace := w1.trace ++ [Call.stat client dstPath, Call.mkdirAll client dstPath] })) ∧
    ((ops.mkdirAll client dstPath (ops.stat client dstPath w1.env).2).1 = none →
      ∃ tail, (Connection.Upload ops c ctx r dstPath name w).2.2.trace
        = w1.trace ++ [Call.stat client dstPath, Call.mkdirAll client dstPath,
            Call.create client (ops.join dstPath name)] ++ tail) := by
  constructor
  · intro err hm
    unfold Connection.Upload
    rw [hconn]
    simp only []
    unfold makeSureDirectoryExists
    rw [hc]
    simp [call, hstat, hne, hm]
  · intro hm
    have hmk : makeSureDirectoryExists ops c1 dstPath w1
        = (.ok (), { env := (ops.mkdirAll client dstPath (ops.stat client dstPath w1.env).2).2,
                     trace := w1.trace ++ [Call.stat client dstPath,
                       Call.mkdirAll client dstPath] }) := by
      unfold makeSureDirectoryExists
      rw [hc]
      simp [call, hstat, hne, hm]
    obtain ⟨tail, ht⟩ := sftpUpload_trace ops ctx r (ops.join dstPath name) c1
      { env := (ops.mkdirAll client dstPath (ops.stat client dstPath w1.env).2).2,
        trace := w1.trace ++ [Call.stat client dstPath, Call.mkdirAll client dstPath] }
      client hc
    refine ⟨tail, ?_⟩
    unfold Connection.Upload
    rw [hconn]
    simp only []
    rw [hmk]
    simp only []
    rw [ht]
    simp

theorem Upload_creates_directory_witness :
    ensureIsConnected hostOps sampleConnection ⟨sampleHost, []⟩
      = (.ok (), sampleConnection, ⟨sampleHost, [Call.getwd 2]⟩) ∧
    sampleConnection.sftpClient = some 2 ∧
    (hostOps.stat 2 "/new/dir" sampleHost).1 = .error .notExist ∧
    osIsNotExist (some .notExist) = true ∧
    (hostOps.mkdirAll 2 "/new/dir" (hostOps.stat 2 "/new/dir" sampleHost).2).1 = none ∧
    ∃ tail, (Connection.Upload hostOps sampleConnection 0 0 "/new/dir" "agent"
        ⟨sampleHost, []⟩).2.2.trace
      = [Call.getwd 2] ++ [Call.stat 2 "/new/dir", Call.mkdirAll 2 "/new/dir",
          Call.create 2 (hostOps.join "/new/dir" "agent")] ++ tail :=
  ⟨rfl, rfl, rfl, rfl, rfl,
    (Upload_creates_directory hostOps sampleConnection sampleConnection 0 0 "/new/dir" "agent"
      ⟨sampleHost, []⟩ ⟨sampleHost, [Call.getwd 2]⟩ 2 .notExist rfl rfl rfl rfl).2 rfl⟩

end Transfer

section Download

variable {σ : Type} (ops : Remote σ)

theorem sftpDownload_stat_error (c c1 : Connection) (ctx : Context) (srcPath : String)
    (w w1 : Sys σ) (client : Handle) (e : GoError)
    (hconn : ensureIsConnected ops c w = (.ok (), c1, w1))
    (hc : c1.sftpClient = some client)
    (hstat : (ops.stat client srcPath w1.env).1 = .error e) :
    sftpDownload ops c ctx srcPath w
      = (.err (.wrap ("invalid source path " ++ ops.quote srcPath ++ ": ") e), c1,
          { env := (ops.stat client srcPath w1.env).2,
            trace := w1.trace ++ [Call.stat client srcPath] }) := by
  unfold sftpDownload
  rw [hconn]
  simp only []
  rw [hc]
  simp [call, hstat]

theorem sftpDownload_directory (c c1 : Connection) (ctx : Context) (srcPath : String)
    (w w1 : Sys σ) (client : Handle) (i : FileInfo)
    (hconn : ensureIsConnected ops c w = (.ok (), c1, w1))
    (hc : c1.sftpClient = some client)
    (hstat : (ops.stat client srcPath w1.env).1 = .ok i) (hdir : i.IsDir = true) :
    sftpDownload ops c ctx srcPath w
      = (.err (.other ("invalid source path " ++ ops.quote srcPath ++ ": not a file")), c1,
          { env := (ops.stat client srcPath w1.env).2,
            trace := w1.trace ++ [Call.stat client srcPath] }) := by
  unfold sftpDownload
  rw [hconn]
  simp only []
  rw [hc]
  simp [call, hstat, hdir]

theorem sftpDownload_opens (c c1 : Connection) (ctx : Context) (srcPath : String)
    (w w1 : Sys σ) (client : Handle) (i : FileInfo)
    (hconn : ensureIsConnected ops c w = (.ok (), c1, w1))
    (hc : c1.sftpClient = some client)
    (hstat : (ops.stat client srcPath w1.env).1 = .ok i) (hdir : i.IsDir = false) :
    ∃ tail, (sftpDownload ops c ctx srcPath w).2.2.trace
      = w1.trace ++ [Call.stat client srcPath, Call.openFile client srcPath] ++ tail := by
  unfold sftpDownload
  rw [hconn]
  simp only []
  rw [hc]
  simp only [call, hstat, hdir]
  cases h : (ops.openFile client srcPath (ops.stat client srcPath w1.env).2).1 with
  | error e => exact ⟨[], by simp⟩
  | ok fp => exact ⟨[Call.goCloseOnDone ctx, Call.goPump fp ctx], by simp [record]⟩

/-- C8, counterexample: a source that the stat reports as a device is not a
regular file, and yet `Download` opens it, starts the pump and returns a
reader. -/
theorem Download_device_counterexample :
    (hostOps.stat 2 "/dev" sampleHost).1 = .ok { name := "dev", kind := .device } ∧
    (Connection.Download hostOps sampleConnection 0 "/dev" ⟨sampleHost, []⟩).1
      = .ok { file := 10, ctx := 0 } ∧
    (Connection.Download hostOps sampleConnection 0 "/dev" ⟨sampleHost, []⟩).2.2.trace
      = [Call.getwd 2, Call.stat 2 "/dev", Call.openFile 2 "/dev", Call.goCloseOnDone 0,
          Call.goPump 10 0] :=
  ⟨rfl, rfl, rfl⟩

/-- C8, amended: `Download` opens the remote source only when its stat
succeeds and does not report a directory.  When the stat fails, or reports a
directory, `Download` returns an error naming the path and the stat is its
last call: the file is not opened and no pump is started.  When the stat
reports anything that is not a directory, the next call opens the source. -/
theorem Download_checks_source (c c1 : Connection) (ctx : Context) (srcPath : String)
    (w w1 : Sys σ) (client : Handle)
    (hconn : ensureIsConnected ops c w = (.ok (), c1, w1))
    (hc : c1.sftpClient = some client) :
    (∀ e, (ops.stat client srcPath w1.env).1 = .error e →
      Connection.Download ops c ctx srcPath w
        = (.err (.wrap ("invalid source path " ++ ops.quote srcPath ++ ": ") e), c1,
            { env := (ops.stat client srcPath w1.env).2,
              trace := w1.trace ++ [Call.stat client srcPath] })) ∧
    (∀ i, (ops.stat client srcPath w1.env).1 = .ok i → i.IsDir = true →
      Connection.Download ops c ctx srcPath w
        = (.err (.other ("invalid source path " ++ ops.quote srcPath ++ ": not a file")), c1,
            { env := (ops.stat client srcPath w1.env).2,
              trace := w1.trace ++ [Call.stat client srcPath] })) ∧
    (∀ i, (ops.stat client srcPath w1.env).1 = .ok i → i.IsDir = false →
      ∃ tail, (Connection.Download ops c ctx srcPath w).2.2.trace
        = w1.trace ++ [Call.stat client srcPath, Call.openFile client srcPath] ++ tail) :=
  ⟨fun e h => sftpDownload_stat_error ops c c1 ctx srcPath w w1 client e hconn hc h,
    fun i h hd => sftpDownload_directory ops c c1 ctx srcPath w w1 client i hconn hc h hd,
    fun i h hd => sftpDownload_opens ops c c1 ctx srcPath w w1 client i hconn hc h hd⟩

theorem Download_checks_source_witness :
    ensureIsConnected hostOps sampleConnection ⟨sampleHost, []⟩
      = (.ok (), sampleConnection, ⟨sampleHost, [Call.getwd 2]⟩) ∧
    sampleConnection.sftpClient = some 2 ∧
    Connection.Download hostOps sampleConnection 0 "/missing" ⟨sampleHost, []⟩
      = (.err (.wrap ("invalid source path " ++ hostOps.quote "/missing" ++ ": ") .notExist),
          sampleConnection,
          { env := (hostOps.stat 2 "/missing" sampleHost).2,
            trace := [Call.getwd 2] ++ [Call.stat 2 "/missing"] }) :=
  ⟨rfl, rfl,
    (Download_checks_source hostOps sampleConnection sampleConnection 0 "/missing"
      ⟨sampleHost, []⟩ ⟨sampleHost, [Call.getwd 2]⟩ 2 rfl rfl).1 .notExist rfl⟩

/-- C9: when the stat of the source reports a directory, `Download` returns
an error whose text names the path, and no reader; the stat is its last call,
so the remote path is neither opened nor read. -/
theorem Download_directory (c c1 : Connection) (ctx : Context) (srcPath : String)
    (w w1 : Sys σ) (client : Handle) (i : FileInfo)
    (hconn : ensureIsConnected ops c w = (.ok (), c1, w1))
    (hc : c1.sftpClient = some client)
    (hstat : (ops.stat client srcPath w1.env).1 = .ok i) (hdir : i.IsDir = true) :
    ∃ e, Connection.Download ops c ctx srcPath w
        = (.err e, c1, { env := (ops.stat client srcPath w1.env).2,
                         trace := w1.trace ++ [Call.stat client srcPath] }) ∧
      e.Error = "invalid source path " ++ ops.quote srcPath ++ ": not a file" ∧
      stringsContains e.Error (ops.quote srcPath) = true :=
  ⟨_, sftpDownload_directory ops c c1 ctx srcPath w w1 client i hconn hc hstat hdir, rfl,
    stringsContains_mid _ _ _⟩

theorem Download_directory_witness :
    ensureIsConnected hostOps sampleConnection ⟨sampleHost, []⟩
      = (.ok (), sampleConnection, ⟨sampleHost, [Call.getwd 2]⟩) ∧
    sampleConnection.sftpClient = some 2 ∧
    (hostOps.stat 2 "/vm" sampleHost).1 = .ok { name := "vm", kind := .directory } ∧
    FileInfo.IsDir { name := "vm", kind := .directory } = true ∧
    ∃ e, Connection.Download hostOps sampleConnection 0 "/vm" ⟨sampleHost, []⟩
        = (.err e, sampleConnection,
            { env := (hostOps.stat 2 "/vm" sampleHost).2,
              trace := [Call.getwd 2] ++ [Call.stat 2 "/vm"] }) ∧
      e.Error = "invalid source path " ++ hostOps.quote "/vm" ++ ": not a file" ∧
      stringsContains e.Error (hostOps.quote "/vm") = true :=
  ⟨rfl, rfl, rfl, rfl,
    Download_directory hostOps sampleConnection sampleConnection 0 "/vm" ⟨sampleHost, []⟩
      ⟨sampleHost, [Call.getwd 2]⟩ 2 { name := "vm", kind := .directory } rfl rfl rfl rfl⟩

end Download

section RemoveTree

theorem Host.deleteAll_congr (fs : Host) (A B : List String) (h : ∀ q, q ∈ A ↔ q ∈ B) :
    fs.deleteAll A = fs.deleteAll B := by
  unfold Host.deleteAll
  congr 1
  · funext q
    simp [h q]
  · funext d
    apply List.filter_congr
    intro n _
    simp [h]

theorem Host.deleteAll_nil (fs : Host) : fs.deleteAll [] = fs := by
  unfold Host.deleteAll
  cases fs
  simp

theorem Host.delete_eq (fs : Host) (p : String) : fs.delete p = fs.deleteAll [p] := by
  unfold Host.deleteAll Host.delete
  congr 1
  · funext q
    simp
  · funext d
    apply List.filter_congr
    intro n _
    simp

theorem Host.deleteAll_deleteAll (fs : Host) (A B : List String) :
    (fs.deleteAll A).deleteAll B = fs.deleteAll (A ++ B) := by
  unfold Host.deleteAll
  congr 1
  · funext q
    by_cases hb : q ∈ B <;> by_cases ha : q ∈ A <;> simp [ha, hb]
  · funext d
    simp only [List.filter_filter]
    apply List.filter_congr
    intro n _
    by_cases hb : hostJoin d n ∈ B <;> by_cases ha : hostJoin d n ∈ A <;> simp [ha, hb]

theorem root_mem_subtree (fs : Host) (d : Nat) (p : String) : p ∈ subtree fs d p := by
  cases d <;> simp [subtree]

theorem subtree_file (fs : Host) (d : Nat) (p : String) (h : fs.kind p ≠ some .directory) :
    subtree fs d p = [p] := by
  cases d <;> simp [subtree, h]

theorem postorder_file (fs : Host) (d : Nat) (p : String) (h : fs.kind p ≠ some .directory) :
    postorder fs d p = [p] := by
  cases d <;> simp [postorder, h]

theorem root_mem_postorder (fs : Host) (d : Nat) (p : String) : p ∈ postorder fs d p := by
  cases d <;> simp [postorder]

theorem isTree_kind (fs : Host) (d : Nat) (p : String) (h : isTree fs d p = true) :
    ∃ k, fs.kind p = some k := by
  cases hk : fs.kind p with
  | some k => exact ⟨k, rfl⟩
  | none => cases d <;> simp [isTree, hk] at h

theorem isTree_zero_file (fs : Host) (p : String) (h : isTree fs 0 p = true) :
    fs.kind p ≠ some .directory := by
  intro hk
  simp [isTree, hk] at h

theorem isTree_children (fs : Host) (d : Nat) (p : String) (h : isTree fs (d + 1) p = true)
    (hk : fs.kind p = some .directory) : ∀ n ∈ fs.names p, isTree fs d (hostJoin p n) = true := by
  simpa [isTree, hk] using h

theorem child_mem_subtree (fs : Host) (d : Nat) (p n : String)
    (hk : fs.kind p = some .directory) (hn : n ∈ fs.names p) (q : String)
    (hq : q ∈ subtree fs d (hostJoin p n)) : q ∈ subtree fs (d + 1) p := by
  simp only [subtree, hk, if_true, List.mem_cons, List.mem_flatMap]
  exact Or.inr ⟨n, hn, hq⟩

/-- Deleting paths outside a tree changes neither the tree's paths, nor
whether it is a tree, nor the calls that remove it. -/
theorem frame (client : Handle) (fs : Host) (S : List String) : ∀ (d : Nat) (p : String),
    (∀ q ∈ subtree fs d p, q ∉ S) →
    subtree (fs.deleteAll S) d p = subtree fs d p ∧
    isTree (fs.deleteAll S) d p = isTree fs d p ∧
    removeCalls client (fs.deleteAll S) d p = removeCalls client fs d p := by
  intro d
  induction d with
  | zero =>
    intro p h
    have hp : p ∉ S := h p (root_mem_subtree fs 0 p)
    simp [subtree, isTree, removeCalls, Host.deleteAll, hp]
  | succ d ih =>
    intro p h
    have hp : p ∉ S := h p (root_mem_subtree fs (d + 1) p)
    have hkind : (fs.deleteAll S).kind p = fs.kind p := by simp [Host.deleteAll, hp]
    by_cases hk : fs.kind p = some .directory
    · have hchild : ∀ n ∈ fs.names p, ∀ q ∈ subtree fs d (hostJoin p n), q ∉ S :=
        fun n hn q hq => h q (child_mem_subtree fs d p n hk hn q hq)
      have hroot : ∀ n ∈ fs.names p, hostJoin p n ∉ S :=
        fun n hn => hchild n hn _ (root_mem_subtree fs d _)
      have hnames : (fs.deleteAll S).names p = fs.names p := by
        simp only [Host.deleteAll]
        rw [List.filter_eq_self]
        intro n hn
        simpa using hroot n hn
      have hck : ∀ n ∈ fs.names p, (fs.deleteAll S).kind (hostJoin p n) = fs.kind (hostJoin p n) := by
        intro n hn
        simp [Host.deleteAll, hroot n hn]
      refine ⟨?_, ?_, ?_⟩
      · simp only [subtree, hkind, hk, if_true, hnames]
        congr 1
        apply List.flatMap_congr
        intro n hn
        exact (ih _ (hchild n hn)).1
      · simp only [isTree, hkind, hk, hnames]
        rw [Bool.eq_iff_iff]
        simp only [List.all_eq_true]
        constructor
        · intro h2 n hn
          rw [← (ih _ (hchild n hn)).2.1]
          exact h2 n hn
        · intro h2 n hn
          rw [(ih _ (hchild n hn)).2.1]
          exact h2 n hn
      · simp only [removeCalls, hkind, hk, if_true, hnames]
        congr 2
        apply List.flatMap_congr
        intro n hn
        rw [hck n hn, (ih _ (hchild n hn)).2.2]
    · have hk2 : (fs.deleteAll S).kind p ≠ some .directory := by rw [hkind]; exact hk
      refine ⟨by rw [subtree_file _ _ _ hk, subtree_file _ _ _ hk2], ?_, ?_⟩
      · simp only [isTree, hkind]
        cases hk3 : fs.kind p with
        | none => rfl
        | some k =>
          cases k with
          | directory => exact absurd hk3 hk
          | _ => rfl
      · simp only [removeCalls, hkind, hk, if_false]

end RemoveTree

section RemoveTreeRun

theorem filterMap_eq_map {α β : Type} (f : α → Option β) (g : α → β) :
    ∀ (l : List α), (∀ x ∈ l, f x = some (g x)) → l.filterMap f = l.map g := by
  intro l
  induction l with
  | nil => intro _; rfl
  | cons a l ih =>
    intro h
    have ha : f a = some (g a) := h a (by simp)
    rw [List.filterMap_cons, ha, List.map_cons, ih (fun x hx => h x (by simp [hx]))]

theorem listing_eq (fs : Host) (d : Nat) (p : String)
    (h : ∀ n ∈ fs.names p, isTree fs d (hostJoin p n) = true) :
    fs.listing p = (fs.names p).map (entryOf fs p) := by
  unfold Host.listing
  apply filterMap_eq_map
  intro n hn
  obtain ⟨k, hk⟩ := isTree_kind fs d _ (h n hn)
  simp [entryOf, hk]

theorem host_stat (client : Handle) (fs : Host) (p : String) (k : FileKind)
    (hon : fs.online = true) (hk : fs.kind p = some k) :
    hostOps.stat client p fs = (.ok { name := baseName p, kind := k }, fs) := by
  simp [hostOps, lostOr, hon, hk]

theorem host_readDir (client : Handle) (fs : Host) (p : String)
    (hon : fs.online = true) (hk : fs.kind p = some .directory) :
    hostOps.readDir client p fs = (.ok (fs.listing p), fs) := by
  simp [hostOps, lostOr, hon, hk]

theorem host_remove_file (client : Handle) (fs : Host) (p : String) (k : FileKind)
    (hon : fs.online = true) (hk : fs.kind p = some k) (hnd : k ≠ .directory) :
    hostOps.remove client p fs = (none, fs.delete p) := by
  cases k <;> first
    | exact absurd rfl hnd
    | simp [hostOps, lostOrErr, hon, hk]

theorem host_remove_empty (client : Handle) (fs : Host) (p : String)
    (hon : fs.online = true) (hk : fs.kind p = some .directory) (he : fs.names p = []) :
    hostOps.remove client p fs = (none, fs.delete p) := by
  simp [hostOps, lostOrErr, hon, hk, he]

theorem sftpRemove_file (client : Handle) (fuel : Nat) (fs : Host) (p : String) (k : FileKind)
    (tr : List Call) (hon : fs.online = true) (hk : fs.kind p = some k)
    (hnd : k ≠ .directory) :
    sftpRemove hostOps (fuel + 1) client p ⟨fs, tr⟩
      = some (none, ⟨fs.delete p, tr ++ [Call.stat client p, Call.remove client p]⟩) := by
  have hdir : FileInfo.IsDir { name := baseName p, kind := k } = false := by
    cases k <;> first | rfl | exact absurd rfl hnd
  simp [sftpRemove, call, host_stat client fs p k hon hk, hdir,
    host_remove_file client fs p k hon hk hnd]

theorem removeEntries_host (client : Handle) (fs : Host) (p : String) (d fuel : Nat)
    (hon : fs.online = true)
    (IH : ∀ (fs2 : Host) (q : String) (tr : List Call), fs2.online = true →
      isTree fs2 d q = true → (subtree fs2 d q).Nodup →
      sftpRemove hostOps fuel client q ⟨fs2, tr⟩
        = some (none, ⟨fs2.deleteAll (subtree fs2 d q), tr ++ removeCalls client fs2 d q⟩)) :
    ∀ (rest S : List String) (tr : List Call),
      (∀ n ∈ rest, isTree fs d (hostJoin p n) = true) →
      (rest.flatMap (fun n => subtree fs d (hostJoin p n))).Nodup →
      (∀ q ∈ rest.flatMap (fun n => subtree fs d (hostJoin p n)), q ∉ S) →
      removeEntries hostOps client p (sftpRemove hostOps fuel client)
          (rest.map (entryOf fs p)) ⟨fs.deleteAll S, tr⟩
        = some (none,
            ⟨fs.deleteAll (S ++ rest.flatMap (fun n => subtree fs d (hostJoin p n))),
              tr ++ rest.flatMap (fun n =>
                if fs.kind (hostJoin p n) = some .directory then
                  removeCalls client fs d (hostJoin p n)
                else [Call.remove client (hostJoin p n)])⟩) := by
  intro rest
  induction rest with
  | nil =>
    intro S tr _ _ _
    simp [removeEntries]
  | cons n rest ih =>
    intro S tr ht hnd hS
    have hqt : isTree fs d (hostJoin p n) = true := ht n (by simp)
    rw [List.flatMap_cons] at hnd hS
    obtain ⟨hnd1, hnd2, hdisj⟩ := List.nodup_append.1 hnd
    have hS1 : ∀ q ∈ subtree fs d (hostJoin p n), q ∉ S :=
      fun q hq => hS q (List.mem_append.2 (Or.inl hq))
    have hS2 : ∀ q ∈ rest.flatMap (fun n => subtree fs d (hostJoin p n)),
        q ∉ S ++ subtree fs d (hostJoin p n) := by
      intro q hq hm
      rcases List.mem_append.1 hm with h1 | h1
      · exact hS q (List.mem_append.2 (Or.inr hq)) h1
      · exact hdisj h1 hq
    obtain ⟨hf1, hf2, hf3⟩ := frame client fs S d (hostJoin p n) hS1
    obtain ⟨k, hk⟩ := isTree_kind fs d _ hqt
    have hrest := ih (S ++ subtree fs d (hostJoin p n))
    have hjoin : hostOps.join p (entryOf fs p n).name = hostJoin p n := rfl
    by_cases hdir : k = .directory
    · subst hdir
      have hentry : FileInfo.IsDir (entryOf fs p n) = true := by
        simp [entryOf, hk, FileInfo.IsDir]
      have hrec := IH (fs.deleteAll S) (hostJoin p n) tr hon (by rw [hf2]; exact hqt)
        (by rw [hf1]; exact hnd1)
      rw [hf1, hf3, Host.deleteAll_deleteAll] at hrec
      simp only [List.map_cons, removeEntries, hentry, if_true, hjoin, hrec]
      rw [hrest _ (fun m hm => ht m (by simp [hm])) hnd2 hS2]
      simp [hk, List.append_assoc]
    · have hentry : FileInfo.IsDir (entryOf fs p n) = false := by
        simp only [entryOf, hk, FileInfo.IsDir, Option.getD_some]
        cases k <;> first | rfl | exact absurd rfl hdir
      have hk2 : (fs.deleteAll S).kind (hostJoin p n) = some k := by
        have : hostJoin p n ∉ S := hS1 _ (root_mem_subtree fs d _)
        simp [Host.deleteAll, this, hk]
      have hrm := host_remove_file client (fs.deleteAll S) (hostJoin p n) k hon hk2 hdir
      have hsub : subtree fs d (hostJoin p n) = [hostJoin p n] :=
        subtree_file fs d _ (by rw [hk]; simpa using hdir)
      have hkd : ¬ fs.kind (hostJoin p n) = some .directory := by rw [hk]; simpa using hdir
      simp only [List.map_cons, removeEntries, hentry, hjoin, call, hrm, Bool.false_eq_true,
        if_false]
      rw [Host.delete_eq, Host.deleteAll_deleteAll, ← hsub]
      rw [hrest _ (fun m hm => ht m (by simp [hm])) hnd2 hS2]
      simp [hkd, List.append_assoc]

theorem sftpRemove_host (client : Handle) : ∀ (d fuel : Nat) (fs : Host) (p : String)
    (tr : List Call), d < fuel → fs.online = true → isTree fs d p = true →
    (subtree fs d p).Nodup →
    sftpRemove hostOps fuel client p ⟨fs, tr⟩
      = some (none, ⟨fs.deleteAll (subtree fs d p), tr ++ removeCalls client fs d p⟩) := by
  intro d
  induction d with
  | zero =>
    intro fuel fs p tr hf hon ht _
    obtain ⟨f, rfl⟩ : ∃ f, fuel = f + 1 := ⟨fuel - 1, by omega⟩
    obtain ⟨k, hk⟩ := isTree_kind fs 0 p ht
    have hnd : k ≠ .directory := by
      intro h
      exact isTree_zero_file fs p ht (by rw [hk, h])
    rw [sftpRemove_file client f fs p k tr hon hk hnd, Host.delete_eq]
    simp [subtree, removeCalls]
  | succ d ih =>
    intro fuel fs p tr hf hon ht hnd
    obtain ⟨f, rfl⟩ : ∃ f, fuel = f + 1 := ⟨fuel - 1, by omega⟩
    have hdf : d < f := by omega
    by_cases hk : fs.kind p = some .directory
    · have hkids := isTree_children fs d p ht hk
      have hsub : subtree fs (d + 1) p
          = p :: (fs.names p).flatMap (fun n => subtree fs d (hostJoin p n)) := by
        simp [subtree, hk]
      rw [hsub] at hnd
      obtain ⟨hpn, hkn⟩ := List.nodup_cons.1 hnd
      have hdirInfo : FileInfo.IsDir { name := baseName p, kind := FileKind.directory } = true :=
        rfl
      have hloop := removeEntries_host client fs p d f hon
        (fun fs2 q tr2 h1 h2 h3 => ih f fs2 q tr2 hdf h1 h2 h3)
        (fs.names p) [] (tr ++ [Call.stat client p] ++ [Call.readDir client p]) hkids hkn
        (by simp)
      rw [Host.deleteAll_nil, List.nil_append] at hloop
      have hk2 : (fs.deleteAll ((fs.names p).flatMap (fun n => subtree fs d (hostJoin p n)))).kind p
          = some .directory := by
        show (if p ∈ (fs.names p).flatMap (fun n => subtree fs d (hostJoin p n)) then none
          else fs.kind p) = some .directory
        rw [if_neg hpn, hk]
      have hn2 : (fs.deleteAll ((fs.names p).flatMap
          (fun n => subtree fs d (hostJoin p n)))).names p = [] := by
        simp only [Host.deleteAll]
        rw [List.filter_eq_nil_iff]
        intro n hn
        have : hostJoin p n ∈ (fs.names p).flatMap (fun n => subtree fs d (hostJoin p n)) :=
          List.mem_flatMap.2 ⟨n, hn, root_mem_subtree fs d _⟩
        simp [this]
      have hrm := host_remove_empty client
        (fs.deleteAll ((fs.names p).flatMap (fun n => subtree fs d (hostJoin p n)))) p hon hk2 hn2
      simp only [sftpRemove, call, host_stat client fs p .directory hon hk, hdirInfo,
        host_readDir client fs p hon hk, listing_eq fs d p hkids, Bool.not_true,
        Bool.false_eq_true, if_false, hloop, hrm]
      rw [Host.delete_eq, Host.deleteAll_deleteAll]
      rw [Host.deleteAll_congr fs _ (p :: (fs.names p).flatMap
        (fun n => subtree fs d (hostJoin p n))) (by intro q; simp [or_comm])]
      rw [hsub]
      simp [removeCalls, hk, List.append_assoc]
    · obtain ⟨k, hk2⟩ := isTree_kind fs (d + 1) p ht
      have hnd2 : k ≠ .directory := by
        intro h
        exact hk (by rw [hk2, h])
      rw [sftpRemove_file client f fs p k tr hon hk2 hnd2, Host.delete_eq,
        subtree_file fs (d + 1) p hk]
      simp [removeCalls, hk]

end RemoveTreeRun

section RemoveTreeOrder

theorem removals_append (a b : List Call) : removals (a ++ b) = removals a ++ removals b := by
  simp [removals]

theorem removals_flatMap {α : Type} (f : α → List Call) (g : α → List String) :
    ∀ (l : List α), (∀ x ∈ l, removals (f x) = g x) →
      removals (l.flatMap f) = l.flatMap g := by
  intro l
  induction l with
  | nil => intro _; rfl
  | cons a l ih =>
    intro h
    rw [List.flatMap_cons, List.flatMap_cons, removals_append, h a (by simp),
      ih (fun x hx => h x (by simp [hx]))]

theorem removals_removeCalls (client : Handle) (fs : Host) : ∀ (d : Nat) (p : String),
    removals (removeCalls client fs d p) = postorder fs d p := by
  intro d
  induction d with
  | zero => intro p; simp [removals, removeCalls, postorder]
  | succ d ih =>
    intro p
    by_cases hk : fs.kind p = some .directory
    · simp only [removeCalls, postorder, hk, if_true, removals_append]
      rw [removals_flatMap _ (fun n => postorder fs d (hostJoin p n))]
      · simp [removals]
      · intro n _
        by_cases hkn : fs.kind (hostJoin p n) = some .directory
        · simp only [hkn, if_true]
          exact ih _
        · simp only [hkn, if_false]
          rw [postorder_file fs d _ hkn]
          simp [removals]
    · simp [removeCalls, postorder, hk, removals]

theorem perm_flatMap {α β : Type} (f g : α → List β) :
    ∀ (l : List α), (∀ x ∈ l, (f x).Perm (g x)) → (l.flatMap f).Perm (l.flatMap g) := by
  intro l
  induction l with
  | nil => intro _; exact List.Perm.refl _
  | cons a l ih =>
    intro h
    rw [List.flatMap_cons, List.flatMap_cons]
    exact List.Perm.append (h a (by simp)) (ih (fun x hx => h x (by simp [hx])))

theorem postorder_perm (fs : Host) : ∀ (d : Nat) (p : String),
    (postorder fs d p).Perm (subtree fs d p) := by
  intro d
  induction d with
  | zero => intro p; simp [postorder, subtree]
  | succ d ih =>
    intro p
    by_cases hk : fs.kind p = some .directory
    · simp only [postorder, subtree, hk, if_true]
      refine List.Perm.trans List.perm_append_comm ?_
      simp only [List.singleton_append]
      exact List.Perm.cons _ (perm_flatMap _ _ _ (fun n _ => ih _))
    · simp [postorder, subtree, hk]

theorem sublist_flatMap_of_mem {α β : Type} (f : α → List β) (a : α) :
    ∀ (l : List α), a ∈ l → (f a).Sublist (l.flatMap f) := by
  intro l
  induction l with
  | nil => intro h; simp at h
  | cons b l ih =>
    intro h
    rw [List.flatMap_cons]
    rcases List.mem_cons.1 h with h1 | h1
    · subst h1
      exact List.sublist_append_left _ _
    · exact (ih h1).trans (List.sublist_append_right _ _)

theorem postorder_order (fs : Host) : ∀ (d : Nat) (p q n : String),
    isTree fs d p = true → q ∈ subtree fs d p → fs.kind q = some .directory →
    n ∈ fs.names q → [hostJoin q n, q].Sublist (postorder fs d p) := by
  intro d
  induction d with
  | zero =>
    intro p q n ht hq hk _
    simp only [subtree, List.mem_singleton] at hq
    subst hq
    exact absurd hk (isTree_zero_file fs q ht)
  | succ d ih =>
    intro p q n ht hq hk hn
    by_cases hkp : fs.kind p = some .directory
    · simp only [subtree, hkp, if_true, List.mem_cons, List.mem_flatMap] at hq
      simp only [postorder, hkp, if_true]
      rcases hq with hq | ⟨m, hm, hq⟩
      · subst hq
        have h1 : [hostJoin q n].Sublist
            ((fs.names q).flatMap (fun n => postorder fs d (hostJoin q n))) :=
          (List.singleton_sublist.2 (root_mem_postorder fs d _)).trans
            (sublist_flatMap_of_mem (fun n => postorder fs d (hostJoin q n)) n _ hn)
        exact List.Sublist.append h1 (List.Sublist.refl [q])
      · have h1 := ih (hostJoin p m) q n (isTree_children fs d p ht hkp m hm) hq hk hn
        exact (h1.trans (sublist_flatMap_of_mem
          (fun n => postorder fs d (hostJoin p n)) m _ hm)).trans
          (List.sublist_append_left _ _)
    · rw [subtree_file fs (d + 1) p hkp, List.mem_singleton] at hq
      subst hq
      exact absurd hk hkp

theorem postorder_flat (fs : Host) (d : Nat) (p : String) (hk : fs.kind p = some .directory)
    (hf : ∀ n ∈ fs.names p, fs.kind (hostJoin p n) ≠ some .directory) :
    postorder fs (d + 1) p = (fs.names p).map (hostJoin p) ++ [p] := by
  simp only [postorder, hk, if_true]
  congr 1
  have : ∀ (l : List String), (∀ n ∈ l, fs.kind (hostJoin p n) ≠ some .directory) →
      l.flatMap (fun n => postorder fs d (hostJoin p n)) = l.map (hostJoin p) := by
    intro l
    induction l with
    | nil => intro _; rfl
    | cons a l ih =>
      intro h
      rw [List.flatMap_cons, postorder_file fs d _ (h a (by simp)),
        ih (fun x hx => h x (by simp [hx]))]
      rfl
  exact this _ hf

/-- C10: on the reference host, for every directory `p` below which there is
a finite tree with distinct paths, `Remove` returns nil when its recursion is
given room for the depth of the tree; afterwards no path of the tree is
present; each path of the tree is removed exactly once; every entry of a
directory of the tree is removed before that directory; and when the root
holds only files the removals are those files in listing order and then the
root. -/
theorem Remove_tree (c : Connection) (client : Handle) (fs : Host) (d fuel : Nat)
    (p : String) (tr : List Call) (hc : c.sftpClient = some client)
    (hon : fs.online = true) (hroot : fs.kind p = some .directory)
    (ht : isTree fs d p = true) (hnd : (subtree fs d p).Nodup) (hf : d < fuel) :
    ∃ (fs2 : Host) (new : List Call),
      Connection.Remove hostOps fuel (some c) p ⟨fs, tr⟩ = some (none, ⟨fs2, tr ++ new⟩) ∧
      (∀ q ∈ subtree fs d p,
        fs2.kind q = none ∧ (hostOps.stat client q fs2).1 = .error .notExist) ∧
      (removals new).Perm (subtree fs d p) ∧
      (∀ q n, q ∈ subtree fs d p → fs.kind q = some .directory → n ∈ fs.names q →
        [hostJoin q n, q].Sublist (removals new)) ∧
      ((∀ n ∈ fs.names p, fs.kind (hostJoin p n) ≠ some .directory) →
        removals new = (fs.names p).map (hostJoin p) ++ [p]) := by
  refine ⟨fs.deleteAll (subtree fs d p), removeCalls client fs d p, ?_, ?_, ?_, ?_, ?_⟩
  · simp only [Connection.Remove, hc]
    exact sftpRemove_host client d fuel fs p tr hf hon ht hnd
  · intro q hq
    have hkq : (fs.deleteAll (subtree fs d p)).kind q = none := by
      simp [Host.deleteAll, hq]
    refine ⟨hkq, ?_⟩
    have hon2 : (fs.deleteAll (subtree fs d p)).online = true := hon
    simp [hostOps, lostOr, hon2, hkq]
  · rw [removals_removeCalls]
    exact postorder_perm fs d p
  · intro q n hq hk hn
    rw [removals_removeCalls]
    exact postorder_order fs d p q n ht hq hk hn
  · intro hflat
    rw [removals_removeCalls]
    cases d with
    | zero => exact absurd hroot (isTree_zero_file fs p ht)
    | succ d => exact postorder_flat fs d p hroot hflat

theorem Remove_tree_witness :
    sampleConnection.sftpClient = some 2 ∧ sampleHost.online = true ∧
    sampleHost.kind "/vm" = some .directory ∧ isTree sampleHost 2 "/vm" = true ∧
    (subtree sampleHost 2 "/vm").Nodup ∧ 2 < 3 ∧
    ∃ (fs2 : Host) (new : List Call),
      Connection.Remove hostOps 3 (some sampleConnection) "/vm" ⟨sampleHost, []⟩
        = some (none, ⟨fs2, [] ++ new⟩) ∧
      (∀ q ∈ subtree sampleHost 2 "/vm",
        fs2.kind q = none ∧ (hostOps.stat 2 q fs2).1 = .error .notExist) ∧
      (removals new).Perm (subtree sampleHost 2 "/vm") ∧
      (∀ q n, q ∈ subtree sampleHost 2 "/vm" → sampleHost.kind q = some .directory →
        n ∈ sampleHost.names q → [hostJoin q n, q].Sublist (removals new)) ∧
      ((∀ n ∈ sampleHost.names "/vm", sampleHost.kind (hostJoin "/vm" n) ≠ some .directory) →
        removals new = (sampleHost.names "/vm").map (hostJoin "/vm") ++ ["/vm"]) :=
  ⟨rfl, rfl, by decide, by decide, by decide, by decide,
    Remove_tree sampleConnection 2 sampleHost 2 3 "/vm" [] rfl rfl (by decide) (by decide)
      (by decide) (by decide)⟩

end RemoveTreeOrder

section RemoveMissing

variable {σ : Type} (ops : Remote σ)

theorem sftpRemove_missing (client : Handle) (p : String) (w : Sys σ) (e : GoError)
    (fuel : Nat) (hstat : (ops.stat client p w.env).1 = .error e)
    (hne : osIsNotExist (some e) = true) :
    sftpRemove ops (fuel + 1) client p w
      = some (none, { env := (ops.stat client p w.env).2,
                      trace := w.trace ++ [Call.stat client p] }) := by
  simp [sftpRemove, call, hstat, hne]

/-- C11: for a connection with an established session and a path whose stat
reports that it does not exist, `Remove` returns nil and the stat is the only
call it makes; so on the reference host a second `Remove` of a tree that a
first `Remove` has deleted returns nil as well. -/
theorem Remove_missing (c : Connection) (client : Handle) (p : String) (fuel : Nat)
    (hc : c.sftpClient = some client) :
    (∀ (w : Sys σ) (e : GoError), (ops.stat client p w.env).1 = .error e →
      osIsNotExist (some e) = true →
      Connection.Remove ops (fuel + 1) (some c) p w
        = some (none, { env := (ops.stat client p w.env).2,
                        trace := w.trace ++ [Call.stat client p] })) ∧
    (∀ (fs : Host) (d fuel1 : Nat) (tr : List Call), fs.online = true →
      isTree fs d p = true → (subtree fs d p).Nodup → d < fuel1 →
      ∃ w1, Connection.Remove hostOps fuel1 (some c) p ⟨fs, tr⟩ = some (none, w1) ∧
        Connection.Remove hostOps (fuel + 1) (some c) p w1
          = some (none, { env := w1.env, trace := w1.trace ++ [Call.stat client p] })) := by
  constructor
  · intro w e hstat hne
    simp only [Connection.Remove, hc]
    exact sftpRemove_missing ops client p w e fuel hstat hne
  · intro fs d fuel1 tr hon ht hnd hf
    refine ⟨⟨fs.deleteAll (subtree fs d p), tr ++ removeCalls client fs d p⟩, ?_, ?_⟩
    · simp only [Connection.Remove, hc]
      exact sftpRemove_host client d fuel1 fs p tr hf hon ht hnd
    · have hkq : (fs.deleteAll (subtree fs d p)).kind p = none := by
        simp [Host.deleteAll, root_mem_subtree fs d p]
      have hon2 : (fs.deleteAll (subtree fs d p)).online = true := hon
      have hst : hostOps.stat client p (fs.deleteAll (subtree fs d p))
          = (.error .notExist, fs.deleteAll (subtree fs d p)) := by
        simp [hostOps, lostOr, hon2, hkq]
      simp only [Connection.Remove, hc]
      rw [sftpRemove_missing hostOps client p _ .notExist fuel (by rw [hst]) rfl, hst]

theorem Remove_missing_witness :
    sampleConnection.sftpClient = some 2 ∧
    (hostOps.stat 2 "/missing" sampleHost).1 = .error .notExist ∧
    osIsNotExist (some .notExist) = true ∧
    Connection.Remove hostOps (0 + 1) (some sampleConnection) "/missing" ⟨sampleHost, []⟩
      = some (none, { env := (hostOps.stat 2 "/missing" sampleHost).2,
                      trace := [] ++ [Call.stat 2 "/missing"] }) :=
  ⟨rfl, rfl, rfl,
    (Remove_missing hostOps sampleConnection 2 "/missing" 0 rfl).1 ⟨sampleHost, []⟩ .notExist
      rfl rfl⟩

end RemoveMissing

section ListDirectory

variable {σ : Type} (ops : Remote σ)

/-- C12: for a path whose stat succeeds and reports something that is not a
directory, `List` returns an error and no entries, and the stat is its only
call; and whenever `List` returns a listing, the stat of the path succeeded
and reported a directory. -/
theorem List_not_a_directory (c : Connection) (client : Handle) (p : String) (w : Sys σ)
    (hc : c.sftpClient = some client) :
    (∀ i, (ops.stat client p w.env).1 = .ok i → i.IsDir = false →
      Connection.List ops c p w
        = (.err (.other ("path is not a directory: " ++ ops.quote p)),
            { env := (ops.stat client p w.env).2,
              trace := w.trace ++ [Call.stat client p] })) ∧
    (∀ ii w2, Connection.List ops c p w = (.ok ii, w2) →
      ∃ i, (ops.stat client p w.env).1 = .ok i ∧ i.IsDir = true) := by
  constructor
  · intro i hstat hdir
    simp [Connection.List, hc, call, hstat, hdir]
  · intro ii w2 h
    simp only [Connection.List, hc, call] at h
    cases hstat : (ops.stat client p w.env).1 with
    | error e => simp [hstat] at h
    | ok i =>
      cases hdir : i.IsDir with
      | false => simp [hstat, hdir] at h
      | true => exact ⟨i, rfl, hdir⟩

theorem List_not_a_directory_witness :
    sampleConnection.sftpClient = some 2 ∧
    (hostOps.stat 2 "/etc" sampleHost).1 = .ok { name := "etc", kind := .regular } ∧
    FileInfo.IsDir { name := "etc", kind := .regular } = false ∧
    Connection.List hostOps sampleConnection "/etc" ⟨sampleHost, []⟩
      = (.err (.other ("path is not a directory: " ++ hostOps.quote "/etc")),
          { env := (hostOps.stat 2 "/etc" sampleHost).2,
            trace := [] ++ [Call.stat 2 "/etc"] }) :=
  ⟨rfl, rfl, rfl,
    (List_not_a_directory hostOps sampleConnection 2 "/etc" ⟨sampleHost, []⟩ rfl).1
      { name := "etc", kind := .regular } rfl rfl⟩

end ListDirectory

section UploadCancelled

variable {σ : Type} (ops : Remote σ)

/-- C13: when the context of an `Upload` has an error by the time the write to
the destination file returns, `Upload` returns that error, whatever the write
itself returned. -/
theorem Upload_cancelled (c c1 : Connection) (ctx : Context) (r : ReaderId)
    (dstPath name : String) (w w1 w2 : Sys σ) (client fp : Handle) (ce : GoError)
    (hconn : ensureIsConnected ops c w = (.ok (), c1, w1))
    (hdir : makeSureDirectoryExists ops c1 dstPath w1 = (.ok (), w2))
    (hc : c1.sftpClient = some client)
    (hcreate : (ops.create client (ops.join dstPath name) w2.env).1 = .ok fp)
    (hctx : ops.ctxErr ctx
      (ops.readFrom fp r (ops.create client (ops.join dstPath name) w2.env).2).2 = some ce) :
    (Connection.Upload ops c ctx r dstPath name w).1 = .err ce := by
  have hnr : newReaderSize 4 (64 * MiB) = none := by decide
  unfold Connection.Upload
  rw [hconn]
  simp only []
  rw [hdir]
  simp only []
  unfold sftpUpload
  rw [hc]
  simp only [hnr, call, hcreate, record, hctx]
  rfl

theorem Upload_cancelled_witness :
    ensureIsConnected hostOps sampleConnection ⟨cancelledHost, []⟩
      = (.ok (), sampleConnection, ⟨cancelledHost, [Call.getwd 2]⟩) ∧
    makeSureDirectoryExists hostOps sampleConnection "/vm" ⟨cancelledHost, [Call.getwd 2]⟩
      = (.ok (), ⟨cancelledHost, [Call.getwd 2, Call.stat 2 "/vm"]⟩) ∧
    sampleConnection.sftpClient = some 2 ∧
    (hostOps.create 2 (hostOps.join "/vm" "agent") cancelledHost).1 = .ok 10 ∧
    (Connection.Upload hostOps sampleConnection 0 0 "/vm" "agent" ⟨cancelledHost, []⟩).1
      = .err .canceled :=
  ⟨rfl, rfl, rfl, rfl,
    Upload_cancelled hostOps sampleConnection sampleConnection 0 0 "/vm" "agent"
      ⟨cancelledHost, []⟩ ⟨cancelledHost, [Call.getwd 2]⟩
      ⟨cancelledHost, [Call.getwd 2, Call.stat 2 "/vm"]⟩ 2 10 .canceled rfl rfl rfl rfl rfl⟩

end UploadCancelled

section ExecContext

/-- C14, the code at the failing input: the process exits with status 3, which
is declared acceptable, and the context is cancelled before `Exec` returns;
`Exec` returns nil and not the context's error. -/
theorem Exec_allowlisted_ignores_context :
    tolerantBuilder.ignoreExitCodes = [3] ∧
    lateCancelProcess.waitErr = some (exitStatusError 3) ∧
    ctxErrOf tolerantBuilder lateCancelProcess = some .canceled ∧
    (Exec tolerantBuilder lateCancelProcess).err = none := by
  refine ⟨rfl, rfl, rfl, ?_⟩
  exact (show (execBody tolerantBuilder lateCancelProcess (startLogs tolerantBuilder)).err = none
    by
      rw [execBody_exit tolerantBuilder lateCancelProcess _ (exitStatusError 3) rfl rfl rfl rfl
        (exitStatus_not_killed 3)]
      rfl)

/-- C15, counterexample: under `context.Background()`, which is never
cancelled, a process killed by a signal that something else sent makes `Exec`
return an error classified as deadline-exceeded. -/
theorem Exec_background_killed_counterexample :
    backgroundBuilder.ctx = none ∧
    ctxErrOf backgroundBuilder externallyKilledProcess = none ∧
    ∃ e, (Exec backgroundBuilder externallyKilledProcess).err = some e ∧
      errorsIs e .deadlineExceeded = true := by
  have h := execBody_killed backgroundBuilder externallyKilledProcess
    (startLogs backgroundBuilder) (.exitError (-1) "signal: killed") rfl rfl rfl rfl
    (by decide)
  exact ⟨rfl, rfl, _, h, by simp [errorsIs]⟩

/-- C15, amended: for an invocation that started and whose context is never
cancelled, `Exec` returns nil when the process exits with status 0; it returns
an error classified as deadline-exceeded whenever the text of the wait error
holds `signal: killed`, whoever sent the signal; and the error it returns is
not so classified when the wait error has another text and is not itself a
deadline-exceeded error. -/
theorem Exec_deadline_marker (c : StdCommandBuilder) (p : Process)
    (h1 : p.stdoutPipeErr = none) (h2 : p.stderrPipeErr = none) (h3 : p.startErr = none)
    (hctx : ctxErrOf c p = none) :
    (p.waitErr = none → (Exec c p).err = none) ∧
    (∀ e0, p.waitErr = some e0 → stringsContains e0.Error "signal: killed" = true →
      ∃ e, (Exec c p).err = some e ∧ errorsIs e .deadlineExceeded = true) ∧
    (∀ e0, p.waitErr = some e0 → stringsContains e0.Error "signal: killed" = false →
      errorsIs e0 .deadlineExceeded = false →
      ∀ e, (Exec c p).err = some e → errorsIs e .deadlineExceeded = false) := by
  have hE : (Exec c p).err = (execBody c p (startLogs c)).err := rfl
  refine ⟨?_, ?_, ?_⟩
  · intro hw
    rw [hE]
    unfold execBody
    simp only [h1, h2, h3, hw, hctx]
  · intro e0 hw hk
    refine ⟨_, by rw [hE, execBody_killed c p _ e0 h1 h2 h3 hw hk], ?_⟩
    simp [errorsIs]
  · intro e0 hw hk hd e he
    rw [hE, execBody_exit c p _ e0 h1 h2 h3 hw hk] at he
    by_cases hv : isValidExitCode e0 c.ignoreExitCodes = true
    · simp [hv] at he
    · have hv2 : isValidExitCode e0 c.ignoreExitCodes = false := by simpa using hv
      simp only [hv2, Bool.false_eq_true, if_false, Option.some.injEq] at he
      subst he
      simp [errorsIs, hd]

theorem Exec_deadline_marker_witness :
    externallyKilledProcess.stdoutPipeErr = none ∧
    externallyKilledProcess.stderrPipeErr = none ∧
    externallyKilledProcess.startErr = none ∧
    ctxErrOf backgroundBuilder externallyKilledProcess = none ∧
    externallyKilledProcess.waitErr = some (.exitError (-1) "signal: killed") ∧
    stringsContains (GoError.exitError (-1) "signal: killed").Error "signal: killed" = true ∧
    ∃ e, (Exec backgroundBuilder externallyKilledProcess).err = some e ∧
      errorsIs e .deadlineExceeded = true :=
  ⟨rfl, rfl, rfl, rfl, rfl, by decide,
    (Exec_deadline_marker backgroundBuilder externallyKilledProcess rfl rfl rfl rfl).2.1
      (.exitError (-1) "signal: killed") rfl (by decide)⟩

end ExecContext

section CloseTolerance

variable {σ : Type} (ops : Remote σ)

/-- C16, counterexample: when closing the session yields the already-closed
error, `Close` returns that error; so a second `Close` after a first one
returns it too. -/
theorem Close_surfaces_closed_counterexample :
    (closedOps.closeClient 2 lostHost).1 = some .closed ∧
    (Connection.Close closedOps sampleConnection ⟨lostHost, []⟩).1 = some .closed ∧
    (Connection.Close closedOps sampleConnection ⟨sampleHost, []⟩).1 = none ∧
    (Connection.Close closedOps sampleConnection
      (Connection.Close closedOps sampleConnection ⟨sampleHost, []⟩).2).1 = some .closed := by
  decide

/-- C16, amended: `Close` returns the result of closing the session unchanged,
and nil without any call when the connection has no session handle.  The
tolerance is in `CloseWrapper`: when closing the session yields an error of
the end-of-stream or the already-closed class, `CloseWrapper` of the
connection makes the close call and logs nothing. -/
theorem Close_returns_close_error (c : Connection) (w : Sys σ) :
    (∀ client, c.sftpClient = some client →
      Connection.Close ops c w
        = ((ops.closeClient client w.env).1,
            { env := (ops.closeClient client w.env).2,
              trace := w.trace ++ [Call.closeClient client] })) ∧
    (c.sftpClient = none → Connection.Close ops c w = (none, w)) ∧
    (∀ client e, c.sftpClient = some client → (ops.closeClient client w.env).1 = some e →
      (errorsIs e .eof = true ∨ errorsIs e .closed = true) →
      closeWrapperConnection ops c w
        = { env := (ops.closeClient client w.env).2,
            trace := w.trace ++ [Call.closeClient client] }) := by
  refine ⟨?_, ?_, ?_⟩
  · intro client hc
    unfold Connection.Close
    rw [hc]
    simp only [call]
    cases (ops.closeClient client w.env).1 <;> rfl
  · intro hc
    unfold Connection.Close
    rw [hc]
  · intro client e hc he hcls
    unfold closeWrapperConnection Connection.Close closeWrapperLog
    rw [hc]
    simp only [call, he]
    rcases hcls with h | h <;> simp [h]

theorem Close_returns_close_error_witness :
    sampleConnection.sftpClient = some 2 ∧
    Connection.Close closedOps sampleConnection ⟨lostHost, []⟩
      = ((closedOps.closeClient 2 lostHost).1,
          { env := (closedOps.closeClient 2 lostHost).2,
            trace := [] ++ [Call.closeClient 2] }) :=
  ⟨rfl, (Close_returns_close_error closedOps sampleConnection ⟨lostHost, []⟩).1 2 rfl⟩

end CloseTolerance

section Probes

variable {σ : Type} (ops : Remote σ)

theorem probes_append (a b : List Call) : probes (a ++ b) = probes a + probes b := by
  simp [probes]

theorem ensureIsConnected_starts_with_probe (c : Connection) (w : Sys σ) (client : Handle)
    (hc : c.sftpClient = some client) :
    ∃ tail, (ensureIsConnected ops c w).2.2.trace = w.trace ++ [Call.getwd client] ++ tail := by
  cases hp : (ops.getwd client w.env).1 with
  | none =>
    refine ⟨[], ?_⟩
    unfold ensureIsConnected
    rw [hc]
    simp [call, hp]
  | some e =>
    cases hl : errorsIs e .connectionLost with
    | false =>
      refine ⟨[], ?_⟩
      unfold ensureIsConnected
      rw [hc]
      simp [call, hp, hl]
    | true =>
      obtain ⟨pre, hpre, -, -⟩ := closeWrapperConnection_trace ops c
        (call (.getwd client) (ops.getwd client) w).2 client hc
      obtain ⟨post, hpost, -⟩ := connect_trace ops c
        (closeWrapperConnection ops c (call (.getwd client) (ops.getwd client) w).2)
      refine ⟨pre ++ [Call.dial c.credentials.host c.credentials.port c.credentials.login
        c.credentials.key] ++ post, ?_⟩
      have : (ensureIsConnected ops c w).2.2.trace
          = (connect ops c (closeWrapperConnection ops c
              (call (.getwd client) (ops.getwd client) w).2)).2.trace := by
        rw [ensureIsConnected_lost_unfold ops c w client e hc hp hl]
        rcases hcn : connect ops c (closeWrapperConnection ops c
            (call (.getwd client) (ops.getwd client) w).2) with ⟨r, w3⟩
        cases r with
        | error err => rfl
        | ok v => rfl
      rw [this, hpost, hpre]
      simp [call]

theorem makeSureDirectoryExists_extends (c : Connection) (p : String) (w : Sys σ) :
    ∃ tail, (makeSureDirectoryExists ops c p w).2.trace = w.trace ++ tail := by
  unfold makeSureDirectoryExists
  cases c.sftpClient with
  | none => exact ⟨[], by simp⟩
  | some client =>
    simp only [call]
    cases hs : (ops.stat client p w.env).1 with
    | error e =>
      simp only []
      by_cases hne : osIsNotExist (some e) = true
      · simp only [hne, if_true]
        cases hm : (ops.mkdirAll client p (ops.stat client p w.env).2).1 with
        | none => exact ⟨[Call.stat client p, Call.mkdirAll client p], by simp⟩
        | some e2 => exact ⟨[Call.stat client p, Call.mkdirAll client p], by simp⟩
      · simp only [hne, if_false]
        exact ⟨[Call.stat client p], by simp⟩
    | ok i =>
      simp only []
      cases i.IsDir <;> exact ⟨[Call.stat client p], by simp⟩

theorem sftpUpload_extends (ctx : Context) (r : ReaderId) (path : String) (c : Connection)
    (w : Sys σ) : ∃ tail, (sftpUpload ops ctx r path c w).2.trace = w.trace ++ tail := by
  cases hc : c.sftpClient with
  | none =>
    refine ⟨[], ?_⟩
    unfold sftpUpload
    rw [hc]
    simp
  | some client =>
    obtain ⟨tail, ht⟩ := sftpUpload_trace ops ctx r path c w client hc
    exact ⟨[Call.create client path] ++ tail, by rw [ht]; simp⟩

theorem Upload_starts_with_probe (c : Connection) (ctx : Context) (r : ReaderId)
    (dstPath name : String) (w : Sys σ) (client : Handle) (hc : c.sftpClient = some client) :
    ∃ tail, (Connection.Upload ops c ctx r dstPath name w).2.2.trace
      = w.trace ++ [Call.getwd client] ++ tail := by
  obtain ⟨t1, h1⟩ := ensureIsConnected_starts_with_probe ops c w client hc
  unfold Connection.Upload
  rcases he : ensureIsConnected ops c w with ⟨res, c1, w1⟩
  rw [he] at h1
  simp only at h1
  cases res with
  | panic => exact ⟨t1, h1⟩
  | err e => exact ⟨t1, h1⟩
  | ok u =>
    simp only []
    obtain ⟨t2, h2⟩ := makeSureDirectoryExists_extends ops c1 dstPath w1
    rcases hm : makeSureDirectoryExists ops c1 dstPath w1 with ⟨res2, w2⟩
    rw [hm] at h2
    simp only at h2
    cases res2 with
    | panic => exact ⟨t1 ++ t2, by simp [h2, h1]⟩
    | err e => exact ⟨t1 ++ t2, by simp [h2, h1]⟩
    | ok u2 =>
      obtain ⟨t3, h3⟩ := sftpUpload_extends ops ctx r (ops.join dstPath name) c1 w2
      exact ⟨t1 ++ t2 ++ t3, by simp [h3, h2, h1]⟩

theorem Download_starts_with_probe (c : Connection) (ctx : Context) (srcPath : String)
    (w : Sys σ) (client : Handle) (hc : c.sftpClient = some client) :
    ∃ tail, (Connection.Download ops c ctx srcPath w).2.2.trace
      = w.trace ++ [Call.getwd client] ++ tail := by
  obtain ⟨t1, h1⟩ := ensureIsConnected_starts_with_probe ops c w client hc
  unfold Connection.Download sftpDownload
  rcases he : ensureIsConnected ops c w with ⟨res, c1, w1⟩
  rw [he] at h1
  simp only at h1
  cases res with
  | panic => exact ⟨t1, h1⟩
  | err e => exact ⟨t1, h1⟩
  | ok u =>
    simp only []
    cases c1.sftpClient with
    | none => exact ⟨t1, h1⟩
    | some client1 =>
      simp only [call]
      cases (ops.stat client1 srcPath w1.env).1 with
      | error e => exact ⟨t1 ++ [Call.stat client1 srcPath], by simp [h1]⟩
      | ok i =>
        simp only []
        cases i.IsDir with
        | true => exact ⟨t1 ++ [Call.stat client1 srcPath], by simp [h1]⟩
        | false =>
          simp only [Bool.false_eq_true, if_false]
          cases (ops.openFile client1 srcPath (ops.stat client1 srcPath w1.env).2).1 with
          | error e =>
            exact ⟨t1 ++ [Call.stat client1 srcPath, Call.openFile client1 srcPath],
              by simp [h1]⟩
          | ok fp =>
            exact ⟨t1 ++ [Call.stat client1 srcPath, Call.openFile client1 srcPath,
              Call.goCloseOnDone ctx, Call.goPump fp ctx], by simp [h1, record]⟩

theorem closeWrapperLog_probes (r : Option GoError × Sys σ) :
    probes (closeWrapperLog r).trace = probes r.2.trace := by
  rcases r with ⟨_ | e, w⟩
  · simp [closeWrapperLog]
  · by_cases hl : errorsIs e .eof = false ∧ errorsIs e .closed = false
    · simp [closeWrapperLog, record, hl, probes, Call.isProbe]
    · simp [closeWrapperLog, hl]

theorem List_probes (c : Connection) (p : String) (w : Sys σ) :
    probes (Connection.List ops c p w).2.trace = probes w.trace := by
  unfold Connection.List
  cases c.sftpClient with
  | none => rfl
  | some client =>
    simp only [call]
    cases (ops.stat client p w.env).1 with
    | error e => simp [probes, Call.isProbe]
    | ok i =>
      simp only []
      cases i.IsDir with
      | false => simp [probes, Call.isProbe]
      | true =>
        simp only [Bool.not_true, Bool.false_eq_true, if_false]
        cases (ops.readDir client p (ops.stat client p w.env).2).1 <;>
          simp [probes, Call.isProbe]

theorem IsExists_probes (c : Connection) (p : String) (w : Sys σ) :
    probes (Connection.IsExists ops c p w).2.trace = probes w.trace := by
  unfold Connection.IsExists
  cases c.sftpClient with
  | none => rfl
  | some client =>
    simp only [call]
    cases (ops.stat client p w.env).1 with
    | error e =>
      simp only []
      split <;> simp [probes, Call.isProbe]
    | ok i => simp [probes, Call.isProbe]

theorem Exec_probes (c : Connection) (cmd : String) (w : Sys σ) :
    probes (Connection.Exec ops c cmd w).2.trace = probes w.trace := by
  unfold Connection.Exec
  cases c.sshClient with
  | none => rfl
  | some sshClient =>
    simp only [call]
    cases (ops.newSession sshClient w.env).1 with
    | error e => simp [probes, Call.isProbe]
    | ok session =>
      simp only [closeWrapperSession, call]
      rw [closeWrapperLog_probes]
      simp [probes, Call.isProbe]

theorem removeEntries_probes (client : Handle) (path : String)
    (recur : String → Sys σ → Option (Option GoError × Sys σ))
    (hrec : ∀ p w r, recur p w = some r → probes r.2.trace = probes w.trace) :
    ∀ (ii : List FileInfo) (w : Sys σ) (r : Option GoError × Sys σ),
      removeEntries ops client path recur ii w = some r →
      probes r.2.trace = probes w.trace := by
  intro ii
  induction ii with
  | nil =>
    intro w r h
    simp only [removeEntries, Option.some.injEq] at h
    subst h
    rfl
  | cons i rest ih =>
    intro w r h
    simp only [removeEntries] at h
    have hstep : ∀ r1, (if i.IsDir = true then recur (ops.join path i.name) w
        else some (call (.remove client (ops.join path i.name))
          (ops.remove client (ops.join path i.name)) w)) = some r1 →
        probes r1.2.trace = probes w.trace := by
      intro r1 h1
      by_cases hd : i.IsDir = true
      · rw [if_pos hd] at h1
        exact hrec _ _ _ h1
      · rw [if_neg hd] at h1
        simp only [Option.some.injEq] at h1
        subst h1
        simp [call, probes, Call.isProbe]
    rcases hr : (if i.IsDir = true then recur (ops.join path i.name) w
        else some (call (.remove client (ops.join path i.name))
          (ops.remove client (ops.join path i.name)) w)) with _ | ⟨e1, w1⟩
    · rw [hr] at h
      simp at h
    · rw [hr] at h
      have hp1 := hstep _ hr
      cases e1 with
      | some err =>
        simp only [Option.some.injEq] at h
        subst h
        exact hp1
      | none =>
        simp only at h
        rw [ih w1 r h]
        exact hp1

theorem sftpRemove_probes : ∀ (fuel : Nat) (client : Handle) (p : String) (w : Sys σ)
    (r : Option GoError × Sys σ), sftpRemove ops fuel client p w = some r →
    probes r.2.trace = probes w.trace := by
  intro fuel
  induction fuel with
  | zero =>
    intro client p w r h
    simp [sftpRemove] at h
  | succ fuel ih =>
    intro client p w r h
    simp only [sftpRemove, call] at h
    cases hs : (ops.stat client p w.env).1 with
    | error e =>
      rw [hs] at h
      simp only at h
      split at h <;>
        (simp only [Option.some.injEq] at h; subst h; simp [probes, Call.isProbe])
    | ok i =>
      rw [hs] at h
      simp only at h
      cases hd : i.IsDir with
      | false =>
        rw [hd] at h
        simp only [Bool.not_false, if_true, Option.some.injEq] at h
        subst h
        simp [probes, Call.isProbe]
      | true =>
        rw [hd] at h
        simp only [Bool.not_true, Bool.false_eq_true, if_false] at h
        cases hrd : (ops.readDir client p (ops.stat client p w.env).2).1 with
        | error e =>
          rw [hrd] at h
          simp only [Option.some.injEq] at h
          subst h
          simp [probes, Call.isProbe]
        | ok ii =>
          rw [hrd] at h
          simp only at h
          rcases hre : removeEntries ops client p (sftpRemove ops fuel client) ii
              { env := (ops.readDir client p (ops.stat client p w.env).2).2,
                trace := w.trace ++ [Call.stat client p] ++ [Call.readDir client p] }
            with _ | ⟨e3, w3⟩
          · rw [hre] at h
            simp at h
          · rw [hre] at h
            have hp3 := removeEntries_probes ops client p (sftpRemove ops fuel client)
              (fun q w2 r2 h2 => ih client q w2 r2 h2) ii _ _ hre
            cases e3 with
            | some err =>
              simp only [Option.some.injEq] at h
              subst h
              rw [hp3]
              simp [probes, Call.isProbe]
            | none =>
              simp only [Option.some.injEq] at h
              subst h
              simp only [probes_append]
              rw [hp3]
              simp [probes, Call.isProbe]

/-- C17, counterexample: on a session that has been lost, `List` makes no
liveness probe; its first and only call is the stat on the stale handle. -/
theorem List_without_probe_counterexample :
    lostHost.online = false ∧
    (Connection.List hostOps sampleConnection "/vm" ⟨lostHost, []⟩).2.trace
      = [Call.stat 2 "/vm"] ∧
    probes (Connection.List hostOps sampleConnection "/vm" ⟨lostHost, []⟩).2.trace = 0 := by
  decide

/-- C17, amended: `Upload` and `Download` make the liveness probe of
`ensureIsConnected` as their first call, before any other use of the session
handle; `List`, `IsExists`, `Exec` and `Remove` make no liveness probe at
all. -/
theorem probe_only_in_transfers (c : Connection) (client : Handle) (w : Sys σ)
    (hc : c.sftpClient = some client) :
    (∀ ctx r dstPath name, ∃ tail,
      (Connection.Upload ops c ctx r dstPath name w).2.2.trace
        = w.trace ++ [Call.getwd client] ++ tail) ∧
    (∀ ctx srcPath, ∃ tail,
      (Connection.Download ops c ctx srcPath w).2.2.trace
        = w.trace ++ [Call.getwd client] ++ tail) ∧
    (∀ p, probes (Connection.List ops c p w).2.trace = probes w.trace) ∧
    (∀ p, probes (Connection.IsExists ops c p w).2.trace = probes w.trace) ∧
    (∀ cmd, probes (Connection.Exec ops c cmd w).2.trace = probes w.trace) ∧
    (∀ fuel p r, Connection.Remove ops fuel (some c) p w = some r →
      probes r.2.trace = probes w.trace) := by
  refine ⟨fun ctx r d n => Upload_starts_with_probe ops c ctx r d n w client hc,
    fun ctx s => Download_starts_with_probe ops c ctx s w client hc,
    fun p => List_probes ops c p w, fun p => IsExists_probes ops c p w,
    fun cmd => Exec_probes ops c cmd w, ?_⟩
  intro fuel p r h
  simp only [Connection.Remove, hc] at h
  exact sftpRemove_probes ops fuel client p w r h

theorem probe_only_in_transfers_witness :
    sampleConnection.sftpClient = some 2 ∧
    probes (Connection.List hostOps sampleConnection "/vm" ⟨lostHost, []⟩).2.trace
      = probes ([] : List Call) :=
  ⟨rfl, (probe_only_in_transfers hostOps sampleConnection 2 ⟨lostHost, []⟩ rfl).2.2.1 "/vm"⟩

end Probes

section ErrorTexts

variable {σ : Type} (ops : Remote σ)

/-- C18, counterexample: the error of an `Upload` whose destination `/etc` is
an existing file does not hold the destination path, and the error of an
`Exec` on a lost session is the library's error, which names neither the
operation nor the command line. -/
theorem Upload_error_without_path_counterexample :
    (hostOps.stat 2 "/etc" sampleHost).1 = .ok { name := "etc", kind := .regular } ∧
    (∃ e, (Connection.Upload hostOps sampleConnection 0 0 "/etc" "agent" ⟨sampleHost, []⟩).1
        = .err e ∧
      e.Error = "make sure directory exists: not a directory" ∧
      stringsContains e.Error "/etc" = false) ∧
    (Connection.Exec hostOps sampleConnection "chmod +x /tmp/import-agent" ⟨lostHost, []⟩).1
      = some ([], some .eof) ∧
    stringsContains GoError.eof.Error "chmod" = false :=
  ⟨rfl, ⟨_, rfl, rfl, by decide⟩, rfl, by decide⟩

/-- C18, amended: the errors of `Download` and `List` for a path whose stat
fails hold the `%q` rendering of the path and keep the cause reachable by
unwrapping.  The error of an `Upload` whose destination is an existing
non-directory is `make sure directory exists: not a directory` for every
destination path: it holds the path only when the path is part of that fixed
text, so never when the path has a slash.  The error of `Remove` for a failing
stat is `stat: ` followed by the text of the cause and keeps the cause
reachable by unwrapping: a path with a slash is in it only when the text of
the cause has a slash.  `Exec` returns the error of `NewSession` unchanged,
whatever the command line, and otherwise the result of `CombinedOutput`
unchanged. -/
theorem error_texts (c : Connection) (client ssh : Handle) (w : Sys σ)
    (hc : c.sftpClient = some client) (hs : c.sshClient = some ssh)
    (hp : (ops.getwd client w.env).1 = none) :
    (∀ ctx srcPath e, (ops.stat client srcPath (ops.getwd client w.env).2).1 = .error e →
      ∃ e2, (Connection.Download ops c ctx srcPath w).1 = .err e2 ∧
        e2.Error = "invalid source path " ++ ops.quote srcPath ++ ": " ++ e.Error ∧
        e2.unwrap = some e ∧
        (ops.quote srcPath).data <:+: e2.Error.data) ∧
    (∀ p e, (ops.stat client p w.env).1 = .error e →
      ∃ e2, (Connection.List ops c p w).1 = .err e2 ∧
        e2.Error = "stat " ++ ops.quote p ++ ": " ++ e.Error ∧ e2.unwrap = some e ∧
        (ops.quote p).data <:+: e2.Error.data) ∧
    (∀ ctx r dstPath name i,
      (ops.stat client dstPath (ops.getwd client w.env).2).1 = .ok i → i.IsDir = false →
      ∃ e2, (Connection.Upload ops c ctx r dstPath name w).1 = .err e2 ∧
        e2.Error = "make sure directory exists: not a directory" ∧
        (dstPath.data <:+: e2.Error.data ↔
          dstPath.data <:+: "make sure directory exists: not a directory".data) ∧
        ('/' ∈ dstPath.data → ¬ dstPath.data <:+: e2.Error.data)) ∧
    (∀ fuel p e, (ops.stat client p w.env).1 = .error e → osIsNotExist (some e) = false →
      ∃ e2 w2, Connection.Remove ops (fuel + 1) (some c) p w = some (some e2, w2) ∧
        e2.Error = "stat: " ++ e.Error ∧ e2.unwrap = some e ∧
        ('/' ∈ p.data → '/' ∉ e.Error.data → ¬ p.data <:+: e2.Error.data)) ∧
    (∀ cmd e, (ops.newSession ssh w.env).1 = .error e →
      (Connection.Exec ops c cmd w).1 = some ([], some e)) ∧
    (∀ cmd session, (ops.newSession ssh w.env).1 = .ok session →
      (Connection.Exec ops c cmd w).1
        = some (ops.combinedOutput session cmd (ops.newSession ssh w.env).2).1) := by
  have hconn : ensureIsConnected ops c w
      = (.ok (), c, { env := (ops.getwd client w.env).2,
                      trace := w.trace ++ [Call.getwd client] }) := by
    unfold ensureIsConnected
    rw [hc]
    simp [call, hp]
  refine ⟨?_, ?_, ?_, ?_, ?_, ?_⟩
  · intro ctx srcPath e hst
    refine ⟨.wrap ("invalid source path " ++ ops.quote srcPath ++ ": ") e, ?_, rfl, rfl, ?_⟩
    · unfold Connection.Download
      rw [sftpDownload_stat_error ops c c ctx srcPath w _ client e hconn hc hst]
    · simp only [GoError.Error, String.data_append]
      exact (List.infix_append _ _ _).trans (List.prefix_append _ _).isInfix
  · intro p e hst
    refine ⟨.wrap ("stat " ++ ops.quote p ++ ": ") e, ?_, rfl, rfl, ?_⟩
    · simp [Connection.List, hc, call, hst]
    · simp only [GoError.Error, String.data_append]
      exact (List.infix_append _ _ _).trans (List.prefix_append _ _).isInfix
  · intro ctx r dstPath name i hst hd
    refine ⟨.wrap "make sure directory exists: " (.other "not a directory"), ?_, rfl,
      Iff.rfl, ?_⟩
    · unfold Connection.Upload
      rw [hconn]
      simp only []
      unfold makeSureDirectoryExists
      rw [hc]
      simp [call, hst, hd]
    · intro hm hi
      have hno : '/' ∉ "make sure directory exists: not a directory".data := by decide
      exact hno (hi.subset hm)
  · intro fuel p e hst hne
    refine ⟨.wrap "stat: " e,
      ⟨(ops.stat client p w.env).2, w.trace ++ [Call.stat client p]⟩, ?_, rfl, rfl, ?_⟩
    · simp only [Connection.Remove, hc]
      simp [sftpRemove, call, hst, hne]
    · intro hm hno hi
      have h2 := hi.subset hm
      simp only [GoError.Error, String.data_append, List.mem_append] at h2
      rcases h2 with h2 | h2
      · revert h2
        decide
      · exact hno h2
  · intro cmd e hn
    simp [Connection.Exec, hs, call, hn]
  · intro cmd session hn
    simp [Connection.Exec, hs, call, hn]

theorem error_texts_witness :
    sampleConnection.sftpClient = some 2 ∧ sampleConnection.sshClient = some 1 ∧
    (hostOps.getwd 2 sampleHost).1 = none ∧
    (hostOps.stat 2 "/etc" (hostOps.getwd 2 sampleHost).2).1
      = .ok { name := "etc", kind := .regular } ∧
    ∃ e2, (Connection.Upload hostOps sampleConnection 0 0 "/etc" "agent" ⟨sampleHost, []⟩).1
        = .err e2 ∧
      e2.Error = "make sure directory exists: not a directory" ∧
      ¬ "/etc".data <:+: e2.Error.data :=
  ⟨rfl, rfl, rfl, rfl,
    match (error_texts hostOps sampleConnection 2 1 ⟨sampleHost, []⟩ rfl rfl rfl).2.2.1 0 0
      "/etc" "agent" { name := "etc", kind := .regular } rfl rfl with
    | ⟨e2, g1, g2, _, g4⟩ => ⟨e2, g1, g2, g4 (by decide)⟩⟩

end ErrorTexts

section Signers

/-- C19: the signers offered for a key are, for a key that parses with the
public key type `ssh-rsa`, the key presented as `rsa-sha2-512`, the key
presented as `rsa-sha2-256` and the unmodified signer, in that order; for a
key that parses with another type, the unmodified signer alone; and for a key
that does not parse, the parse error and no signers. -/
theorem dialSSHSigners_order (parsePrivateKey : String → Except GoError Signer) (key : String) :
    (∀ s, parsePrivateKey key = .ok s → s.publicKeyType = KeyAlgoRSA →
      dialSSHSigners parsePrivateKey key
        = .ok [.wrapped s KeyAlgoRSASHA512, .wrapped s KeyAlgoRSASHA256, s] ∧
      [Signer.wrapped s KeyAlgoRSASHA512, .wrapped s KeyAlgoRSASHA256, s].map
          Signer.publicKeyType
        = ["rsa-sha2-512", "rsa-sha2-256", "ssh-rsa"]) ∧
    (∀ s, parsePrivateKey key = .ok s → s.publicKeyType ≠ KeyAlgoRSA →
      dialSSHSigners parsePrivateKey key = .ok [s]) ∧
    (∀ e, parsePrivateKey key = .error e →
      dialSSHSigners parsePrivateKey key = .error e) := by
  refine ⟨?_, ?_, ?_⟩
  · intro s hs ht
    constructor
    · simp [dialSSHSigners, hs, ht]
    · show [KeyAlgoRSASHA512, KeyAlgoRSASHA256, s.publicKeyType] = _
      rw [ht]
      rfl
  · intro s hs ht
    simp [dialSSHSigners, hs, ht]
  · intro e he
    simp [dialSSHSigners, he]

theorem dialSSHSigners_order_witness :
    sampleParse "rsa" = .ok (.parsed KeyAlgoRSA "rsa") ∧
    (Signer.parsed KeyAlgoRSA "rsa").publicKeyType = KeyAlgoRSA ∧
    dialSSHSigners sampleParse "rsa"
      = .ok [.wrapped (.parsed KeyAlgoRSA "rsa") KeyAlgoRSASHA512,
          .wrapped (.parsed KeyAlgoRSA "rsa") KeyAlgoRSASHA256, .parsed KeyAlgoRSA "rsa"] :=
  ⟨rfl, rfl,
    ((dialSSHSigners_order sampleParse "rsa").1 (.parsed KeyAlgoRSA "rsa") rfl rfl).1⟩

end Signers

section UploadWatcher

/-- C20, the code at the failing input: an `Upload` whose context is cancelled
while the write is in flight.  After creating the destination file the upload
starts the watcher goroutine and calls `ReadFrom`; the only other call on the
file is the deferred close, made after `ReadFrom` has returned; and the
watcher makes no call, so nothing interrupts the write. -/
theorem Upload_watcher_does_nothing :
    cancelledHost.cancelled 0 = some .canceled ∧
    (Connection.Upload hostOps sampleConnection 0 0 "/vm" "agent" ⟨cancelledHost, []⟩).2.2.trace
      = [Call.getwd 2, Call.stat 2 "/vm", Call.create 2 "/vm/agent", Call.goAwaitDone 0,
          Call.readFrom 10 0, Call.closeFile 10] ∧
    uploadWatcherCalls 0 10 = [] := by
  decide

end UploadWatcher

section CaptureRace

/-- C21, the code at the failing input: stdout holds the lines `A` and `B`,
stderr the line `C`, and the stderr task appends `C` between the stdout task's
read of `combinedOutput` and its assignment.  The assignment of the stdout
task then overwrites the buffer that held `C`: the buffer ends as `A`, `B`,
and the line `C` is lost. -/
theorem capture_loses_line :
    scanLines racyProcess.stdout = [['A'], ['B']] ∧
    scanLines racyProcess.stderr = [['C']] ∧
    (capture sampleBuilder racyProcess (cmdString sampleBuilder)
      (startLogs sampleBuilder)).combinedOutput = ["A", "B"] ∧
    "C" ∉ (capture sampleBuilder racyProcess (cmdString sampleBuilder)
      (startLogs sampleBuilder)).combinedOutput ∧
    (Exec sampleBuilder racyProcess).err
      = some (.wrap "failed to execute sh -c job stdout [A B]: " (exitStatusError 3)) := by
  decide

end CaptureRace

section KilledNeverTolerated

/-- C24: when the text of the wait error holds `signal: killed`, `Exec`
returns an error that has `context.DeadlineExceeded` in its chain, whatever
exit codes are declared acceptable. -/
theorem Exec_killed_never_success (c : StdCommandBuilder) (p : Process) (e0 : GoError)
    (h1 : p.stdoutPipeErr = none) (h2 : p.stderrPipeErr = none) (h3 : p.startErr = none)
    (hw : p.waitErr = some e0) (hk : stringsContains e0.Error "signal: killed" = true) :
    (Exec c p).err ≠ none ∧
    ∃ e, (Exec c p).err = some e ∧ errorsIs e .deadlineExceeded = true := by
  have hE : (Exec c p).err = (execBody c p (startLogs c)).err := rfl
  have hb := execBody_killed c p (startLogs c) e0 h1 h2 h3 hw hk
  refine ⟨by rw [hE, hb]; simp, _, by rw [hE, hb], ?_⟩
  simp [errorsIs]

theorem Exec_killed_never_success_witness :
    killedProcess.stdoutPipeErr = none ∧ killedProcess.stderrPipeErr = none ∧
    killedProcess.startErr = none ∧
    killedProcess.waitErr = some (.exitError (-1) "signal: killed") ∧
    stringsContains (GoError.exitError (-1) "signal: killed").Error "signal: killed" = true ∧
    minusOneBuilder.ignoreExitCodes = [-1] ∧
    (Exec minusOneBuilder killedProcess).err ≠ none ∧
    ∃ e, (Exec minusOneBuilder killedProcess).err = some e ∧
      errorsIs e .deadlineExceeded = true :=
  ⟨rfl, rfl, rfl, rfl, by decide, rfl,
    Exec_killed_never_success minusOneBuilder killedProcess (.exitError (-1) "signal: killed")
      rfl rfl rfl rfl (by decide)⟩

end KilledNeverTolerated

section FailedReconnect

variable {σ : Type} (ops : Remote σ)

/-- C25: when the liveness probe fails with the session-lost error and the
reconnect fails, `ensureIsConnected` returns the wrapped connect error and
leaves both handles of the connection nil; a `Remove` on the connection then
returns the nil-client error without making any call. -/
theorem ensureIsConnected_failed_reconnect (c : Connection) (w w3 : Sys σ) (client : Handle)
    (e err : GoError) (hc : c.sftpClient = some client)
    (hp : (ops.getwd client w.env).1 = some e) (hl : errorsIs e .connectionLost = true)
    (hconn : connect ops c
      (closeWrapperConnection ops c (call (.getwd client) (ops.getwd client) w).2)
        = (.error err, w3)) :
    ∃ c2, ensureIsConnected ops c w
        = (.err (.wrap "reconnect after connection loss: " err), c2, w3) ∧
      c2.sshClient = none ∧ c2.sftpClient = none ∧
      ∀ (fuel : Nat) (p : String) (w4 : Sys σ),
        Connection.Remove ops fuel (some c2) p w4
          = some (some (.other ("remove " ++ ops.quote p ++ ": sftpClient client is nil")),
              w4) := by
  refine ⟨{ c with sshClient := none, sftpClient := none }, ?_, rfl, rfl, ?_⟩
  · rw [ensureIsConnected_lost_unfold ops c w client e hc hp hl, hconn]
  · intro fuel p w4
    simp [Connection.Remove]

theorem ensureIsConnected_failed_reconnect_witness :
    sampleConnection.sftpClient = some 2 ∧
    (hostOps.getwd 2 downHost).1 = some .connectionLost ∧
    errorsIs .connectionLost .connectionLost = true ∧
    connect hostOps sampleConnection
      (closeWrapperConnection hostOps sampleConnection
        (call (.getwd 2) (hostOps.getwd 2) ⟨downHost, []⟩).2)
      = (.error (.wrap "dial SSH: " (.other "connection refused")),
          ⟨downHost, [Call.getwd 2, Call.closeClient 2, Call.dial "node" 22 "root" "k"]⟩) ∧
    ∃ c2, ensureIsConnected hostOps sampleConnection ⟨downHost, []⟩
        = (.err (.wrap "reconnect after connection loss: "
              (.wrap "dial SSH: " (.other "connection refused"))), c2,
            ⟨downHost, [Call.getwd 2, Call.closeClient 2, Call.dial "node" 22 "root" "k"]⟩) ∧
      c2.sshClient = none ∧ c2.sftpClient = none ∧
      ∀ (fuel : Nat) (p : String) (w4 : Sys Host),
        Connection.Remove hostOps fuel (some c2) p w4
          = some (some (.other ("remove " ++ hostOps.quote p ++ ": sftpClient client is nil")),
              w4) :=
  ⟨rfl, rfl, rfl, rfl,
    ensureIsConnected_failed_reconnect hostOps sampleConnection ⟨downHost, []⟩
      ⟨downHost, [Call.getwd 2, Call.closeClient 2, Call.dial "node" 22 "root" "k"]⟩ 2
      .connectionLost (.wrap "dial SSH: " (.other "connection refused")) rfl rfl rfl rfl⟩

end FailedReconnect

section Validate

theorem validateDisks_none (i : ImportPlan) (vs : VirtualServer) : ∀ (ds : List Disk),
    validateDisks i vs ds = none ↔
      ∀ d ∈ ds, d.Size ≠ 0 ∧
        (d.DiskOfferID ≠ 0 ∨ i.Settings.Defaults.AdditionalDiskOfferID ≠ 0) := by
  intro ds
  induction ds with
  | nil => simp [validateDisks]
  | cons d rest ih =>
    simp only [validateDisks, List.mem_cons, forall_eq_or_imp]
    by_cases h1 : d.DiskOfferID = 0 ∧ i.Settings.Defaults.AdditionalDiskOfferID = 0
    · simp only [h1, and_self, if_true]
      simp
    · rw [if_neg h1]
      by_cases h2 : d.Size = 0
      · simp [h2]
      · rw [if_neg h2, ih]
        have h3 : d.DiskOfferID ≠ 0 ∨ i.Settings.Defaults.AdditionalDiskOfferID ≠ 0 := by
          by_cases h4 : d.DiskOfferID = 0
          · right
            exact fun h5 => h1 ⟨h4, h5⟩
          · left
            exact h4
        exact ⟨fun h => ⟨⟨h2, h3⟩, h⟩, fun h => h.2⟩

theorem validateServers_none (i : ImportPlan) : ∀ (l : List VirtualServer),
    validateServers i l = none ↔
      ∀ vs ∈ l,
        (∃ id, i.Settings.Defaults.GuestOSToOSImageVersionID vs.GuestOS = some id ∧ id ≠ 0) ∧
        (vs.ComputeResourceID ≠ 0 ∨ i.Settings.Defaults.ComputeResourceID ≠ 0) ∧
        validateDisks i vs vs.AdditionalDisks = none := by
  intro l
  induction l with
  | nil => simp [validateServers]
  | cons vs rest ih =>
    simp only [validateServers, List.mem_cons, forall_eq_or_imp]
    cases hm : i.Settings.Defaults.GuestOSToOSImageVersionID vs.GuestOS with
    | none => simp
    | some imageID =>
      simp only []
      by_cases h1 : imageID = 0
      · simp [h1]
      · rw [if_neg h1]
        by_cases h2 : vs.ComputeResourceID = 0 ∧ i.Settings.Defaults.ComputeResourceID = 0
        · rw [if_pos h2]
          simp [h2.1, h2.2]
        · rw [if_neg h2]
          have h3 : vs.ComputeResourceID ≠ 0 ∨ i.Settings.Defaults.ComputeResourceID ≠ 0 := by
            by_cases h4 : vs.ComputeResourceID = 0
            · right
              exact fun h5 => h2 ⟨h4, h5⟩
            · left
              exact h4
          cases hd : validateDisks i vs vs.AdditionalDisks with
          | some err => simp
          | none =>
            simp only []
            rw [ih]
            exact ⟨fun h => ⟨⟨⟨imageID, rfl, h1⟩, h3, trivial⟩, h⟩, fun h => h.2⟩

/-- C23: `Validate` returns nil exactly when the API URL is set and is not
the example URL, the API token is set, the guest OS of every virtual server is
a key of the guest-OS map with a non-zero image id, every additional disk has
a non-zero size and a non-zero disk offer id of its own or by default, and the
default user, project, compute resource and location ids are non-zero; so a
plan whose default compute resource id is zero is rejected whatever compute
resource ids its servers set. -/
theorem Validate_nil_iff (i : ImportPlan) :
    (i.Validate = none ↔
      i.Settings.APIURL ≠ "" ∧ i.Settings.APIURL ≠ apiURLExample ∧
      i.Settings.APIToken ≠ "" ∧
      (∀ vs ∈ i.VirtualServers,
        (∃ id, i.Settings.Defaults.GuestOSToOSImageVersionID vs.GuestOS = some id ∧ id ≠ 0) ∧
        ∀ d ∈ vs.AdditionalDisks, d.Size ≠ 0 ∧
          (d.DiskOfferID ≠ 0 ∨ i.Settings.Defaults.AdditionalDiskOfferID ≠ 0)) ∧
      i.Settings.Defaults.UserID ≠ 0 ∧ i.Settings.Defaults.ProjectID ≠ 0 ∧
      i.Settings.Defaults.ComputeResourceID ≠ 0 ∧ i.Settings.Defaults.LocationID ≠ 0) ∧
    (i.Settings.Defaults.ComputeResourceID = 0 → i.Validate ≠ none) := by
  have key : i.Validate = none ↔
      i.Settings.APIURL ≠ "" ∧ i.Settings.APIURL ≠ apiURLExample ∧
      i.Settings.APIToken ≠ "" ∧ validateServers i i.VirtualServers = none ∧
      i.Settings.Defaults.UserID ≠ 0 ∧ i.Settings.Defaults.ProjectID ≠ 0 ∧
      i.Settings.Defaults.ComputeResourceID ≠ 0 ∧ i.Settings.Defaults.LocationID ≠ 0 := by
    unfold ImportPlan.Validate
    by_cases h1 : i.Settings.APIURL = ""
    · simp [h1]
    · rw [if_neg h1]
      by_cases h2 : i.Settings.APIURL = apiURLExample
      · simp [h2]
      · rw [if_neg h2]
        by_cases h3 : i.Settings.APIToken = ""
        · simp [h3]
        · rw [if_neg h3]
          cases hv : validateServers i i.VirtualServers with
          | some err => simp
          | none =>
            simp only []
            by_cases h4 : i.Settings.Defaults.UserID = 0
            · simp [h4]
            · rw [if_neg h4]
              by_cases h5 : i.Settings.Defaults.ProjectID = 0
              · simp [h5]
              · rw [if_neg h5]
                by_cases h6 : i.Settings.Defaults.ComputeResourceID = 0
                · simp [h6]
                · rw [if_neg h6]
                  by_cases h7 : i.Settings.Defaults.LocationID = 0
                  · simp [h7]
                  · rw [if_neg h7]
                    simp [h1, h2, h3, h4, h5, h6, h7]
  constructor
  · rw [key, validateServers_none]
    constructor
    · rintro ⟨h1, h2, h3, hs, h4, h5, h6, h7⟩
      refine ⟨h1, h2, h3, ?_, h4, h5, h6, h7⟩
      intro vs hvs
      obtain ⟨hid, -, hd⟩ := hs vs hvs
      exact ⟨hid, (validateDisks_none i vs _).1 hd⟩
    · rintro ⟨h1, h2, h3, hs, h4, h5, h6, h7⟩
      refine ⟨h1, h2, h3, ?_, h4, h5, h6, h7⟩
      intro vs hvs
      obtain ⟨hid, hd⟩ := hs vs hvs
      exact ⟨hid, Or.inr h6, (validateDisks_none i vs _).2 hd⟩
  · intro h0 hn
    exact (key.1 hn).2.2.2.2.2.2.1 h0

theorem Validate_nil_iff_witness :
    samplePlan.Validate = none ∧
    ({ samplePlan with
        Settings := { sampleSettings with
          Defaults := { sampleSettings.Defaults with ComputeResourceID := 0 } } } :
      ImportPlan).Validate ≠ none :=
  ⟨by decide,
    (Validate_nil_iff { samplePlan with
        Settings := { sampleSettings with
          Defaults := { sampleSettings.Defaults with ComputeResourceID := 0 } } }).2 rfl⟩

end Validate

section Disks

theorem foldl_last {α β : Type} (f : α → β) : ∀ (l : List α) (b : β),
    l.foldl (fun _ d => f d) b = match l.getLast? with
      | some d => f d
      | none => b := by
  intro l
  induction l with
  | nil => intro b; rfl
  | cons a l ih =>
    intro b
    rw [List.foldl_cons, ih]
    cases l with
    | nil => rfl
    | cons c l =>
      rw [List.getLast?_cons_cons, List.getLast?_cons]

theorem scanDevices_skip (fs : LocalFS) (v : VMXFile) (origin : String) (dev : Device)
    (rest : List Device) (primary : Disk) (additional : List Disk) (logs : List String)
    (h : isConsidered fs v dev = false) :
    scanDevices fs v origin (dev :: rest) primary additional logs
      = scanDevices fs v origin rest primary additional logs := by
  unfold isConsidered at h
  by_cases h1 : dev.Filename = ""
  · simp [scanDevices, h1]
  · have h2 : fs.IsExists (fs.join v.ParentPath dev.Filename) = false := by
      simpa [h1] using h
    simp [scanDevices, h1, h2]

theorem isConsidered_true (fs : LocalFS) (v : VMXFile) (dev : Device)
    (h : isConsidered fs v dev = true) :
    dev.Filename ≠ "" ∧ fs.IsExists (fs.join v.ParentPath dev.Filename) = true := by
  unfold isConsidered at h
  simpa using h

theorem scanDevices_ok (fs : LocalFS) (v : VMXFile) : ∀ (devs : List Device) (primary : Disk)
    (additional : List Disk) (logs : List String),
    (∀ d ∈ devs, isConsidered fs v d = true →
      stringsContains d.Filename "-0" = false ∧
        ∃ s, deviceSize fs (fs.join v.ParentPath d.Filename) = .ok s) →
    (scanDevices fs v (fs.base v.ParentPath) devs primary additional logs).1
      = .ok (((devs.filter (isConsidered fs v)).filter (isPrimaryName fs v)).foldl
              (fun _ d => diskOf fs v d) primary,
            additional ++ ((devs.filter (isConsidered fs v)).filter
              (fun d => !isPrimaryName fs v d)).map (diskOf fs v)) := by
  intro devs
  induction devs with
  | nil => intro primary additional logs _; simp [scanDevices]
  | cons dev rest ih =>
    intro primary additional logs h
    have hrest : ∀ d ∈ rest, isConsidered fs v d = true →
        stringsContains d.Filename "-0" = false ∧
          ∃ s, deviceSize fs (fs.join v.ParentPath d.Filename) = .ok s :=
      fun d hd => h d (by simp [hd])
    cases hc : isConsidered fs v dev with
    | false =>
      rw [scanDevices_skip fs v _ dev rest primary additional logs hc, ih _ _ _ hrest]
      simp [List.filter_cons, hc]
    | true =>
      obtain ⟨hne, hex⟩ := isConsidered_true fs v dev hc
      obtain ⟨hsnap, s, hs⟩ := h dev (by simp) hc
      have hdisk : diskOf fs v dev
          = { Name := fs.join v.ParentPath dev.Filename, DiskOfferID := 0, Size := s,
              SourcePath := fs.join v.ParentPath dev.Filename, DestinationPath := "" } := by
        simp [diskOf, hs]
      by_cases hp : stringsTrimSuffix dev.Filename ".vmdk" = fs.base v.ParentPath
      · have hp2 : isPrimaryName fs v dev = true := by simp [isPrimaryName, hp]
        simp only [scanDevices, hne, if_false, hex, Bool.not_true, Bool.false_eq_true, hsnap, hs,
          hp, if_true]
        rw [ih _ _ _ hrest, ← hdisk]
        simp [List.filter_cons, hc, hp2]
      · have hp2 : isPrimaryName fs v dev = false := by simp [isPrimaryName, hp]
        simp only [scanDevices, hne, if_false, hex, Bool.not_true, Bool.false_eq_true, hsnap, hs,
          hp]
        rw [ih _ _ _ hrest, ← hdisk]
        simp [List.filter_cons, hc, hp2]

theorem scanDevices_snapshot (fs : LocalFS) (v : VMXFile) (origin : String) :
    ∀ (devs : List Device) (primary : Disk) (additional : List Disk) (logs : List String),
    (∃ d ∈ devs, isConsidered fs v d = true ∧ stringsContains d.Filename "-0" = true) →
    ∃ e, (scanDevices fs v origin devs primary additional logs).1 = .error e := by
  intro devs
  induction devs with
  | nil =>
    intro primary additional logs h
    obtain ⟨d, hd, _⟩ := h
    simp at hd
  | cons dev rest ih =>
    intro primary additional logs h
    obtain ⟨d, hd, hcd, hsd⟩ := h
    cases hc : isConsidered fs v dev with
    | false =>
      rw [scanDevices_skip fs v _ dev rest primary additional logs hc]
      rcases List.mem_cons.1 hd with h1 | h1
      · subst h1
        rw [hc] at hcd
        exact absurd hcd (by simp)
      · exact ih _ _ _ ⟨d, h1, hcd, hsd⟩
    | true =>
      obtain ⟨hne, hex⟩ := isConsidered_true fs v dev hc
      cases hsnap : stringsContains dev.Filename "-0" with
      | true =>
        exact ⟨.other ("disk filename " ++ fs.quote dev.Filename ++
          " looks like has a snapshot"), by simp [scanDevices, hne, hex, hsnap]⟩
      | false =>
        have hmem : d ∈ rest := by
          rcases List.mem_cons.1 hd with h1 | h1
          · subst h1
            rw [hsnap] at hsd
            exact absurd hsd (by simp)
          · exact h1
        cases hs : deviceSize fs (fs.join v.ParentPath dev.Filename) with
        | error err => exact ⟨err, by simp [scanDevices, hne, hex, hsnap, hs]⟩
        | ok s =>
          by_cases hp : stringsTrimSuffix dev.Filename ".vmdk" = origin
          · obtain ⟨e, he⟩ := ih
              ⟨fs.join v.ParentPath dev.Filename, 0, s, fs.join v.ParentPath dev.Filename, ""⟩
              additional
              (logs ++ [stringsTrimSuffix dev.Filename ".vmdk" ++ " " ++ origin])
              ⟨d, hmem, hcd, hsd⟩
            refine ⟨e, ?_⟩
            simp only [scanDevices, hne, if_false, hex, Bool.not_true, Bool.false_eq_true, hsnap,
              hs, hp, if_true]
            rw [hp] at he
            exact he
          · obtain ⟨e, he⟩ := ih primary
              (additional ++
                [⟨fs.join v.ParentPath dev.Filename, 0, s, fs.join v.ParentPath dev.Filename, ""⟩])
              (logs ++ [stringsTrimSuffix dev.Filename ".vmdk" ++ " " ++ origin])
              ⟨d, hmem, hcd, hsd⟩
            refine ⟨e, ?_⟩
            simp only [scanDevices, hne, if_false, hex, Bool.not_true, Bool.false_eq_true, hsnap,
              hs, hp]
            exact he

theorem scanDevices_prefix (fs : LocalFS) (v : VMXFile) (origin : String) :
    ∀ (pre rest : List Device) (primary : Disk) (additional : List Disk) (logs : List String),
    (∀ d ∈ pre, isConsidered fs v d = true →
      stringsContains d.Filename "-0" = false ∧
        ∃ s, deviceSize fs (fs.join v.ParentPath d.Filename) = .ok s) →
    ∃ primary2 additional2 logs2,
      scanDevices fs v origin (pre ++ rest) primary additional logs
        = scanDevices fs v origin rest primary2 additional2 logs2 := by
  intro pre
  induction pre with
  | nil =>
    intro rest primary additional logs _
    exact ⟨primary, additional, logs, rfl⟩
  | cons dev pre ih =>
    intro rest primary additional logs h
    have hrest : ∀ d ∈ pre, isConsidered fs v d = true →
        stringsContains d.Filename "-0" = false ∧
          ∃ s, deviceSize fs (fs.join v.ParentPath d.Filename) = .ok s :=
      fun d hd => h d (List.mem_cons_of_mem _ hd)
    rw [List.cons_append]
    cases hc : isConsidered fs v dev with
    | false =>
      rw [scanDevices_skip fs v _ dev (pre ++ rest) primary additional logs hc]
      exact ih rest _ _ _ hrest
    | true =>
      obtain ⟨hne, hex⟩ := isConsidered_true fs v dev hc
      obtain ⟨hsnap, s, hs⟩ := h dev (by simp) hc
      by_cases hp : stringsTrimSuffix dev.Filename ".vmdk" = origin
      · simp only [scanDevices, hne, if_false, hex, Bool.not_true, Bool.false_eq_true, hsnap, hs,
          hp, if_true]
        exact ih rest _ _ _ hrest
      · simp only [scanDevices, hne, if_false, hex, Bool.not_true, Bool.false_eq_true, hsnap, hs,
          hp]
        exact ih rest _ _ _ hrest

theorem scanDevices_head_snapshot (fs : LocalFS) (v : VMXFile) (origin : String) (d : Device)
    (post : List Device) (primary : Disk) (additional : List Disk) (logs : List String)
    (hc : isConsidered fs v d = true) (hs : stringsContains d.Filename "-0" = true) :
    (scanDevices fs v origin (d :: post) primary additional logs).1
      = .error (.other ("disk filename " ++ fs.quote d.Filename ++
          " looks like has a snapshot")) := by
  obtain ⟨hne, hex⟩ := isConsidered_true fs v d hc
  simp [scanDevices, hne, hex, hs]

theorem scanDevices_head_size (fs : LocalFS) (v : VMXFile) (origin : String) (d : Device)
    (post : List Device) (primary : Disk) (additional : List Disk) (logs : List String)
    (err : GoError)
    (hc : isConsidered fs v d = true) (hs : stringsContains d.Filename "-0" = false)
    (hz : deviceSize fs (fs.join v.ParentPath d.Filename) = .error err) :
    (scanDevices fs v origin (d :: post) primary additional logs).1 = .error err := by
  obtain ⟨hne, hex⟩ := isConsidered_true fs v d hc
  simp [scanDevices, hne, hex, hs, hz]

theorem GetDisksFromVMX_error (fs : LocalFS) (v : VMXFile) (e : GoError)
    (h : (scanDevices fs v (fs.base v.ParentPath) (candidateDevices v) Disk.zero [] []).1
      = .error e) :
    (GetDisksFromVMX fs v).1 = .error e := by
  unfold GetDisksFromVMX
  rcases hsc : scanDevices fs v (fs.base v.ParentPath) (candidateDevices v) Disk.zero [] []
    with ⟨r, logs⟩
  rw [hsc] at h
  simp only at h
  subst h
  rfl

theorem GetDisksFromVMX_clean (fs : LocalFS) (v : VMXFile)
    (hjoin : ∀ a b, b ≠ "" → fs.join a b ≠ "")
    (h : ∀ d ∈ candidateDevices v, isConsidered fs v d = true →
        stringsContains d.Filename "-0" = false ∧
          ∃ s, deviceSize fs (fs.join v.ParentPath d.Filename) = .ok s) :
    (GetDisksFromVMX fs v).1 =
      match (((candidateDevices v).filter (isConsidered fs v)).filter
          (isPrimaryName fs v)).getLast? with
      | some d =>
        .ok (diskOf fs v d,
          (((candidateDevices v).filter (isConsidered fs v)).filter
            (fun d => !isPrimaryName fs v d)).map (diskOf fs v))
      | none => .error (.other "primary disk not found") := by
  have hok := scanDevices_ok fs v (candidateDevices v) Disk.zero [] [] h
  rw [foldl_last] at hok
  unfold GetDisksFromVMX
  rcases hsc : scanDevices fs v (fs.base v.ParentPath) (candidateDevices v) Disk.zero [] []
    with ⟨r, logs⟩
  rw [hsc] at hok
  simp only at hok
  subst hok
  cases hl : (((candidateDevices v).filter (isConsidered fs v)).filter
      (isPrimaryName fs v)).getLast? with
  | none => simp [Disk.zero]
  | some d =>
    have hmem : d ∈ ((candidateDevices v).filter (isConsidered fs v)).filter
        (isPrimaryName fs v) := List.mem_of_getLast?_eq_some hl
    have hcons : isConsidered fs v d = true := by
      have := (List.mem_filter.1 (List.mem_filter.1 hmem).1).2
      exact this
    have hne : fs.join v.ParentPath d.Filename ≠ "" :=
      hjoin _ _ (isConsidered_true fs v d hcons).1
    simp [diskOf, hne]

/-- C22, counterexample: the disk `vm1.vmdk` is a candidate whose name matches
the directory `/vms/vm1`, and the other candidate `vm1-000001.vmdk` has `-0`
in its name; the call does not return `vm1.vmdk` as the primary disk but
fails, and not with `primary disk not found`. -/
theorem GetDisksFromVMX_snapshot_counterexample :
    candidateDevices snapshotVMX = [⟨"vm1.vmdk"⟩, ⟨"vm1-000001.vmdk"⟩] ∧
    isConsidered sampleLocalFS snapshotVMX ⟨"vm1.vmdk"⟩ = true ∧
    isPrimaryName sampleLocalFS snapshotVMX ⟨"vm1.vmdk"⟩ = true ∧
    stringsContains "vm1.vmdk" "-0" = false ∧
    (GetDisksFromVMX sampleLocalFS snapshotVMX).1
      = .error (.other "disk filename \"vm1-000001.vmdk\" looks like has a snapshot") := by
  refine ⟨by decide, by decide, by decide, by decide, ?_⟩
  rfl

/-- C22, amended: `GetDisksFromVMX` takes the devices in the order IDE, SATA
except type `cdrom-image`, SCSI of type `scsi-hardDisk`, NVMe, and considers
those with a non-empty file name that exist in the directory of the
descriptor.  When one of them has `-0` in its file name the call fails instead
of skipping the device: with the snapshot error naming the first such device
when the sizes of the considered devices before it can be read, and with the
size error of the first considered device whose size cannot be read when no
considered device before it has `-0` in its name.  When none has `-0` in its
name and the size of each can be read, the primary disk is the last of them
whose file name without `.vmdk` is the base name of the directory, the others
are the additional disks in that order, each disk carries the joined path as
name and source path and the size read, and the call fails with
`primary disk not found` exactly when none matches. -/
theorem GetDisksFromVMX_spec (fs : LocalFS) (v : VMXFile)
    (hjoin : ∀ a b, b ≠ "" → fs.join a b ≠ "") :
    ((∃ d ∈ candidateDevices v, isConsidered fs v d = true ∧
        stringsContains d.Filename "-0" = true) →
      ∃ e, (GetDisksFromVMX fs v).1 = .error e) ∧
    ((∀ d ∈ candidateDevices v, isConsidered fs v d = true →
        stringsContains d.Filename "-0" = false ∧
          ∃ s, deviceSize fs (fs.join v.ParentPath d.Filename) = .ok s) →
      (GetDisksFromVMX fs v).1 =
        match (((candidateDevices v).filter (isConsidered fs v)).filter
            (isPrimaryName fs v)).getLast? with
        | some d =>
          .ok (diskOf fs v d,
            (((candidateDevices v).filter (isConsidered fs v)).filter
              (fun d => !isPrimaryName fs v d)).map (diskOf fs v))
        | none => .error (.other "primary disk not found")) ∧
    candidateDevices v
      = v.IDEDevices.map (fun ide => ide.device) ++
        (v.SATADevices.filter (fun sata => decide (sata.type ≠ "cdrom-image"))).map
          (fun sata => sata.device) ++
        (v.SCSIDevices.filter (fun scsi => decide (scsi.type = "scsi-hardDisk"))).map
          (fun scsi => scsi.device) ++
        v.NVMEDevices.map (fun nvme => nvme.device) ∧
    (∀ d, isConsidered fs v d = true ↔
      d.Filename ≠ "" ∧ ∃ n, fs.stat (fs.join v.ParentPath d.Filename) = .ok n) ∧
    (∀ d, isPrimaryName fs v d = true ↔
      stringsTrimSuffix d.Filename ".vmdk" = fs.base v.ParentPath) ∧
    (∀ d s, deviceSize fs (fs.join v.ParentPath d.Filename) = .ok s →
      diskOf fs v d
        = { Name := fs.join v.ParentPath d.Filename, DiskOfferID := 0, Size := s,
            SourcePath := fs.join v.ParentPath d.Filename, DestinationPath := "" }) ∧
    (∀ pre d post, candidateDevices v = pre ++ d :: post →
      (∀ x ∈ pre, isConsidered fs v x = true →
        stringsContains x.Filename "-0" = false ∧
          ∃ s, deviceSize fs (fs.join v.ParentPath x.Filename) = .ok s) →
      isConsidered fs v d = true → stringsContains d.Filename "-0" = true →
      (GetDisksFromVMX fs v).1
        = .error (.other ("disk filename " ++ fs.quote d.Filename ++
            " looks like has a snapshot"))) ∧
    (∀ pre d post err, candidateDevices v = pre ++ d :: post →
      (∀ x ∈ pre, isConsidered fs v x = true →
        stringsContains x.Filename "-0" = false ∧
          ∃ s, deviceSize fs (fs.join v.ParentPath x.Filename) = .ok s) →
      isConsidered fs v d = true → stringsContains d.Filename "-0" = false →
      deviceSize fs (fs.join v.ParentPath d.Filename) = .error err →
      (GetDisksFromVMX fs v).1 = .error err) ∧
    ((∀ d ∈ candidateDevices v, isConsidered fs v d = true →
        stringsContains d.Filename "-0" = false ∧
          ∃ s, deviceSize fs (fs.join v.ParentPath d.Filename) = .ok s) →
      ((GetDisksFromVMX fs v).1 = .error (.other "primary disk not found") ↔
        ∀ d ∈ candidateDevices v, isConsidered fs v d = true → isPrimaryName fs v d = false)) := by
  refine ⟨?_, GetDisksFromVMX_clean fs v hjoin, ?_, ?_, ?_, ?_, ?_, ?_, ?_⟩
  · intro h
    obtain ⟨e, he⟩ := scanDevices_snapshot fs v (fs.base v.ParentPath) (candidateDevices v)
      Disk.zero [] [] h
    exact ⟨e, GetDisksFromVMX_error fs v e he⟩
  · unfold candidateDevices
    have f1 : (fun sata : SATADevice => !(sata.type == "cdrom-image"))
        = (fun sata => decide (sata.type ≠ "cdrom-image")) := by
      funext sata
      by_cases h : sata.type = "cdrom-image" <;> simp [h]
    have f2 : (fun scsi : SCSIDevice => scsi.type == "scsi-hardDisk")
        = (fun scsi => decide (scsi.type = "scsi-hardDisk")) := by
      funext scsi
      by_cases h : scsi.type = "scsi-hardDisk" <;> simp [h]
    rw [f1, f2]
  · intro d
    constructor
    · intro h
      obtain ⟨hne, hex⟩ := isConsidered_true fs v d h
      refine ⟨hne, ?_⟩
      unfold LocalFS.IsExists at hex
      cases hst : fs.stat (fs.join v.ParentPath d.Filename) with
      | ok n => exact ⟨n, rfl⟩
      | error e => rw [hst] at hex; exact absurd hex (by simp)
    · rintro ⟨hne, n, hn⟩
      simp [isConsidered, LocalFS.IsExists, hne, hn]
  · intro d
    simp [isPrimaryName]
  · intro d s hs
    simp [diskOf, hs]
  · intro pre d post hcd hpre hc hs
    apply GetDisksFromVMX_error
    rw [hcd]
    obtain ⟨p2, a2, l2, h2⟩ := scanDevices_prefix fs v (fs.base v.ParentPath) pre (d :: post)
      Disk.zero [] [] hpre
    rw [h2]
    exact scanDevices_head_snapshot fs v _ d post p2 a2 l2 hc hs
  · intro pre d post err hcd hpre hc hs hz
    apply GetDisksFromVMX_error
    rw [hcd]
    obtain ⟨p2, a2, l2, h2⟩ := scanDevices_prefix fs v (fs.base v.ParentPath) pre (d :: post)
      Disk.zero [] [] hpre
    rw [h2]
    exact scanDevices_head_size fs v _ d post p2 a2 l2 err hc hs hz
  · intro h
    rw [GetDisksFromVMX_clean fs v hjoin h]
    cases hl : (((candidateDevices v).filter (isConsidered fs v)).filter
        (isPrimaryName fs v)).getLast? with
    | none =>
      simp only [true_iff]
      intro d hd hc
      have hnil := List.getLast?_eq_none_iff.1 hl
      cases hp : isPrimaryName fs v d with
      | false => rfl
      | true =>
        have hmem : d ∈ ((candidateDevices v).filter (isConsidered fs v)).filter
            (isPrimaryName fs v) :=
          List.mem_filter.2 ⟨List.mem_filter.2 ⟨hd, hc⟩, hp⟩
        rw [hnil] at hmem
        cases hmem
    | some d =>
      have hmem : d ∈ ((candidateDevices v).filter (isConsidered fs v)).filter
          (isPrimaryName fs v) := List.mem_of_getLast?_eq_some hl
      obtain ⟨hm1, hp⟩ := List.mem_filter.1 hmem
      obtain ⟨hd, hc⟩ := List.mem_filter.1 hm1
      constructor
      · intro habs
        cases habs
      · intro hall
        rw [hall d hd hc] at hp
        cases hp

theorem GetDisksFromVMX_spec_witness :
    (∀ a b, b ≠ "" → sampleLocalFS.join a b ≠ "") ∧
    (∀ d ∈ candidateDevices sampleVMX, isConsidered sampleLocalFS sampleVMX d = true →
      stringsContains d.Filename "-0" = false ∧
        ∃ s, deviceSize sampleLocalFS (sampleLocalFS.join sampleVMX.ParentPath d.Filename)
          = .ok s) ∧
    candidateDevices sampleVMX = [⟨"data.vmdk"⟩, ⟨"vm1.vmdk"⟩] ∧
    (GetDisksFromVMX sampleLocalFS sampleVMX).1
      = .ok (⟨"/vms/vm1/vm1.vmdk", 0, 3, "/vms/vm1/vm1.vmdk", ""⟩,
          [⟨"/vms/vm1/data.vmdk", 0, 5, "/vms/vm1/data.vmdk", ""⟩]) ∧
    candidateDevices snapshotVMX = [⟨"vm1.vmdk"⟩] ++ ⟨"vm1-000001.vmdk"⟩ :: [] ∧
    (GetDisksFromVMX sampleLocalFS snapshotVMX).1
      = .error (.other ("disk filename " ++ sampleLocalFS.quote "vm1-000001.vmdk" ++
          " looks like has a snapshot")) :=
  have hj : ∀ a b, b ≠ "" → sampleLocalFS.join a b ≠ "" := by
    intro a b _ h
    have h2 : (a ++ "/" ++ b).data = [] := by
      have : sampleLocalFS.join a b = a ++ "/" ++ b := rfl
      rw [← this, h]
    simp [String.data_append] at h2
  have hs : ∀ d ∈ candidateDevices sampleVMX, isConsidered sampleLocalFS sampleVMX d = true →
      stringsContains d.Filename "-0" = false ∧
        ∃ s, deviceSize sampleLocalFS (sampleLocalFS.join sampleVMX.ParentPath d.Filename)
          = .ok s := by
    intro d hd _
    have hd2 : d = ⟨"data.vmdk"⟩ ∨ d = ⟨"vm1.vmdk"⟩ := by
      have : candidateDevices sampleVMX = [⟨"data.vmdk"⟩, ⟨"vm1.vmdk"⟩] := by decide
      rw [this] at hd
      simpa using hd
    rcases hd2 with h | h
    · subst h
      exact ⟨by decide, 5, rfl⟩
    · subst h
      exact ⟨by decide, 3, rfl⟩
  have hpre : ∀ x ∈ [(⟨"vm1.vmdk"⟩ : Device)], isConsidered sampleLocalFS snapshotVMX x = true →
      stringsContains x.Filename "-0" = false ∧
        ∃ s, deviceSize sampleLocalFS (sampleLocalFS.join snapshotVMX.ParentPath x.Filename)
          = .ok s := by
    intro x hx _
    have hx2 : x = ⟨"vm1.vmdk"⟩ := by simpa using hx
    subst hx2
    exact ⟨by decide, 3, rfl⟩
  ⟨hj, hs, by decide,
    ((GetDisksFromVMX_spec sampleLocalFS sampleVMX hj).2.1 hs).trans rfl,
    by decide,
    (GetDisksFromVMX_spec sampleLocalFS snapshotVMX hj).2.2.2.2.2.2.1 [⟨"vm1.vmdk"⟩]
      ⟨"vm1-000001.vmdk"⟩ [] (by decide) hpre (by decide) (by decide)⟩

end Disks

end ImportVmware
